import Mathlib

/-!
# Fawkes BlackBoard: message manager, interface listener and interface manager

A shallow embedding of the BlackBoard message path of the Fawkes robotics
framework:

* `BlackBoardMessageManager.transmit` (libs/blackboard/message_manager.cpp),
* `BlackBoardInterfaceListener` watch lists (libs/blackboard/interface_listener.cpp),
* `BatteryInterface.message_valid` and `create_message` (interfaces/BatteryInterface.cpp),
* the message loop of `DynamixelDriverThread.exec_act`, the callback
  `bb_interface_message_received` and the BlackBoard calls of `init` and
  `finalize` (plugins/dynamixel/driver_thread.cpp),
* the fields, setters, getters and `copy_values` of `BatteryInterface`,
* `CameraFactory.instance` (firevision/cams/factory.cpp),
* the log level selection of `fawkes::runtime::init` (libs/baseapp/run.cpp),
* `NetworkNameResolverThread` (libs/netcomm/utils/resolver_thread.cpp).

The interface manager, the notifier and the message queue of `Interface` are
not part of the examined sources; they are modelled from the design document
and every such definition says so in its doc comment.
-/

namespace Fawkes

/-! ## Exceptions and dynamic message classes -/

/-- Exceptions thrown along the modelled paths. -/
inductive BBException where
  | NullPointerException
  | BlackBoardNoWritingInstanceException
  | BlackBoardWriterActiveException
  | OutOfMemoryException
  | MessageQueueFullException
  | UnknownTypeException
  | InterfaceNotOpenException
  | InterfaceInvalidMessageException
  | Exception (what : String)
  deriving DecidableEq, Repr

deriving instance DecidableEq for Except

/-- Dynamic class of a message object, as tested by `dynamic_cast`,
`is_of_type<T>()` and `msgq_first_is<T>()`.  The classes named in the
examined sources are listed; any other class is `other` with its type name. -/
inductive MessageClass where
  | PushButtonMessage
  | SleepMessage
  | SetTestIntMessage
  | GotoMessage
  | TimedGotoMessage
  | SetEnabledMessage
  | SetVelocityMessage
  | SetMarginMessage
  | StopMessage
  | FlushMessage
  | SetIntensityMessage
  | TurnOnMessage
  | TurnOffMessage
  | other (type : String)
  deriving DecidableEq, Repr

/-- A message: its dynamic class, the memory serial of the instance it is
addressed to, the payload words and the message id (0 until one is
assigned). -/
structure Message where
  mclass : MessageClass
  recipient : Nat
  data : List Int
  id : Nat
  deriving DecidableEq, Repr

/-! ## `BlackBoardMessageManager::transmit` over abstract collaborators -/

/-- The calls `transmit` makes on its collaborators, in program order. -/
inductive Call (ι μ : Type) where
  | writer_for_mem_serial (serial : Nat)
  | notify_of_message_received (writer : ι) (message : μ)
  | msgq_append (writer : ι) (message : μ)
  | log_warn (message : μ)
  deriving DecidableEq, Repr

/-- The interface manager as `transmit` uses it: `writer_for_mem_serial`
either yields the writer or throws. -/
structure InterfaceManagerOps (σ ι : Type) where
  writer_for_mem_serial : Nat → σ → Except BBException ι × σ

/-- The message manager's members `__im` (NULL until `set_interface_manager`)
and `__notifier`, together with the two methods of the collaborating objects
that `transmit` calls: `Message::recipient` and `Interface::msgq_append`. -/
structure BlackBoardMessageManager (σ ι μ : Type) where
  im : Option (InterfaceManagerOps σ ι)
  notify_of_message_received : ι → μ → σ → Except BBException Bool × σ
  recipient : μ → Nat
  msgq_append : ι → μ → σ → Except BBException Nat × σ

/-- Result of a `transmit` call: return value or exception, the state left
behind, and the calls made. -/
structure Outcome (σ ι μ : Type) where
  result : Except BBException Nat
  state : σ
  calls : List (Call ι μ)

/-- The `try` block of `transmit` (message_manager.cpp lines 67-73). -/
def transmit_try {σ ι μ : Type} (mm : BlackBoardMessageManager σ ι μ)
    (imo : InterfaceManagerOps σ ι) (message : μ) (s : σ) : Outcome σ ι μ :=
  match imo.writer_for_mem_serial (mm.recipient message) s with
  | (.error e, s1) => ⟨.error e, s1, [.writer_for_mem_serial (mm.recipient message)]⟩
  | (.ok writer, s1) =>
    match mm.notify_of_message_received writer message s1 with
    | (.error e, s2) =>
      ⟨.error e, s2, [.writer_for_mem_serial (mm.recipient message),
                      .notify_of_message_received writer message]⟩
    | (.ok true, s2) =>
      match mm.msgq_append writer message s2 with
      | (r, s3) =>
        ⟨r, s3, [.writer_for_mem_serial (mm.recipient message),
                 .notify_of_message_received writer message,
                 .msgq_append writer message]⟩
    | (.ok false, s2) =>
      ⟨.ok 0, s2, [.writer_for_mem_serial (mm.recipient message),
                   .notify_of_message_received writer message]⟩

/-- The method `BlackBoardMessageManager::transmit` (message_manager.cpp lines 61-84):
NULL check of `__im`, the `try` block, and the `catch` clause that logs a
warning for `BlackBoardNoWritingInstanceException` and rethrows it. -/
def transmit {σ ι μ : Type} (mm : BlackBoardMessageManager σ ι μ)
    (message : μ) (s : σ) : Outcome σ ι μ :=
  match mm.im with
  | none => ⟨.error .NullPointerException, s, []⟩
  | some imo =>
    match transmit_try mm imo message s with
    | ⟨.error .BlackBoardNoWritingInstanceException, s1, calls⟩ =>
      ⟨.error .BlackBoardNoWritingInstanceException, s1, calls ++ [.log_warn message]⟩
    | out => out

/-- The method `BlackBoardMessageManager::set_interface_manager`. -/
def set_interface_manager {σ ι μ : Type} (mm : BlackBoardMessageManager σ ι μ)
    (imo : InterfaceManagerOps σ ι) : BlackBoardMessageManager σ ι μ :=
  { mm with im := some imo }

/-! ## Interface manager (registry of instances and open handles) -/

/-- Modelled from the spec: the Interface Instance of the data model, one per
(type, id) pair, identified by a stable serial number; it holds the inbound
message queue, the open-reader count and the open-writer flag.  The field
record itself plays no part in the properties below and is left out. -/
structure Instance where
  type : String
  id : String
  serial : Nat
  chunk : Nat
  num_readers : Nat
  writer_open : Bool
  msgq : List Message
  last_msgid : Nat
  deriving DecidableEq, Repr

/-- Modelled from the spec: the Local Handle, i.e. the object behind an
`Interface *` in the code: type and id of the instance it is opened on, the
serial of that instance, a serial of its own, and whether it is the writer. -/
structure Interface where
  type : String
  id : String
  mem_serial : Nat
  instance_serial : Nat
  write_access : Bool
  deriving DecidableEq, Repr

/-- Modelled from the spec: the unique id string of a handle as returned by
`Interface::uid()`; instances "are addressed by (type_name, instance_id)", so
the uid joins type and id and is the same for all handles of one instance. -/
def Interface.uid (i : Interface) : String :=
  i.type ++ "::" ++ i.id

/-- Modelled from the spec: the Memory Manager contract used by the interface
manager, `allocate(size) -> handle` (failing when the arena has no room) and
`free(handle)`, over an arena state `μ`. -/
structure MemoryManager (μ : Type) where
  alloc : Nat → μ → Option (Nat × μ)
  free : Nat → μ → μ

/-- Construction parameters of a BlackBoard: the memory manager, the size of
the record of each interface type, and the bound of every message queue. -/
structure Config (μ : Type) where
  memmgr : MemoryManager μ
  schema_size : String → Nat
  msgq_capacity : Nat

/-- Modelled from the spec: state of the BlackBoard facade: the arena, the
registry of live instances, the open handles and the two serial counters. -/
structure BlackBoard (μ : Type) where
  mem : μ
  instances : List Instance
  handles : List Interface
  next_mem_serial : Nat
  next_instance_serial : Nat

/-- A BlackBoard right after construction over the arena `m`. -/
def BlackBoard.init {μ : Type} (m : μ) : BlackBoard μ :=
  ⟨m, [], [], 1, 1⟩

/-- Registry lookup by (type, id). -/
def find_instance {μ : Type} (s : BlackBoard μ) (type id : String) : Option Instance :=
  s.instances.find? (fun x => decide (x.type = type ∧ x.id = id))

/-- Registry lookup by serial number. -/
def instance_for_serial {μ : Type} (s : BlackBoard μ) (serial : Nat) : Option Instance :=
  s.instances.find? (fun x => decide (x.serial = serial))

/-- Apply `f` to the first instance with the given serial. -/
def modify_instance (serial : Nat) (f : Instance → Instance) : List Instance → List Instance
  | [] => []
  | x :: xs => if x.serial = serial then f x :: xs else x :: modify_instance serial f xs

/-- Modelled from the spec: `open_for_reading(type, id) -> handle` of the
Interface Manager.  An instance not yet present is allocated through the
memory manager; otherwise the reader count of the live instance goes up. -/
def open_for_reading {μ : Type} (cfg : Config μ) (type id : String) (s : BlackBoard μ) :
    Except BBException Interface × BlackBoard μ :=
  match find_instance s type id with
  | some inst =>
    let h : Interface := ⟨type, id, inst.serial, s.next_instance_serial, false⟩
    (.ok h, { s with
      instances := modify_instance inst.serial
        (fun x => { x with num_readers := x.num_readers + 1 }) s.instances
      handles := s.handles ++ [h]
      next_instance_serial := s.next_instance_serial + 1 })
  | none =>
    match cfg.memmgr.alloc (cfg.schema_size type) s.mem with
    | none => (.error .OutOfMemoryException, s)
    | some (chunk, mem1) =>
      let h : Interface := ⟨type, id, s.next_mem_serial, s.next_instance_serial, false⟩
      (.ok h, { mem := mem1
                instances := s.instances ++ [⟨type, id, s.next_mem_serial, chunk, 1, false, [], 0⟩]
                handles := s.handles ++ [h]
                next_mem_serial := s.next_mem_serial + 1
                next_instance_serial := s.next_instance_serial + 1 })

/-- Modelled from the spec: `open_for_writing(type, id) -> handle` of the
Interface Manager, which "fails if a writer already holds the instance open"
with the writer-conflict error and does not wait. -/
def open_for_writing {μ : Type} (cfg : Config μ) (type id : String) (s : BlackBoard μ) :
    Except BBException Interface × BlackBoard μ :=
  match find_instance s type id with
  | some inst =>
    if inst.writer_open then (.error .BlackBoardWriterActiveException, s)
    else
      let h : Interface := ⟨type, id, inst.serial, s.next_instance_serial, true⟩
      (.ok h, { s with
        instances := modify_instance inst.serial
          (fun x => { x with writer_open := true }) s.instances
        handles := s.handles ++ [h]
        next_instance_serial := s.next_instance_serial + 1 })
  | none =>
    match cfg.memmgr.alloc (cfg.schema_size type) s.mem with
    | none => (.error .OutOfMemoryException, s)
    | some (chunk, mem1) =>
      let h : Interface := ⟨type, id, s.next_mem_serial, s.next_instance_serial, true⟩
      (.ok h, { mem := mem1
                instances := s.instances ++ [⟨type, id, s.next_mem_serial, chunk, 0, true, [], 0⟩]
                handles := s.handles ++ [h]
                next_mem_serial := s.next_mem_serial + 1
                next_instance_serial := s.next_instance_serial + 1 })

/-- The bookkeeping change of `close` on the instance the handle is open on. -/
def release (h : Interface) (x : Instance) : Instance :=
  if h.write_access then { x with writer_open := false }
  else { x with num_readers := x.num_readers - 1 }

/-- Modelled from the spec: `close(handle)`: "decrements the appropriate
reader/writer count; when both reach zero, frees the backing memory";
closing a handle that is not open is signalled as an error. -/
def close {μ : Type} (cfg : Config μ) (h : Interface) (s : BlackBoard μ) :
    Except BBException Unit × BlackBoard μ :=
  if h ∈ s.handles then
    match instance_for_serial s h.mem_serial with
    | none => (.error .InterfaceNotOpenException, s)
    | some inst =>
      if (release h inst).writer_open = false ∧ (release h inst).num_readers = 0 then
        (.ok (), { s with
          mem := cfg.memmgr.free inst.chunk s.mem
          instances := s.instances.filter (fun x => decide (x.serial ≠ h.mem_serial))
          handles := s.handles.erase h })
      else
        (.ok (), { s with
          instances := modify_instance h.mem_serial (release h) s.instances
          handles := s.handles.erase h })
  else (.error .InterfaceNotOpenException, s)

/-- Does `id` start with the optional `id_pfx` (no filter when absent)? -/
def id_matches ( id_pfx : Option String) (id : String) : Bool :=
  match id_pfx with
  | none => true
  | some p => p.toList.isPrefixOf id.toList

/-- Open a reader on each of the given ids of one type, in order. -/
def open_readers {μ : Type} (cfg : Config μ) (type : String) :
    List String → BlackBoard μ → Except BBException (List Interface) × BlackBoard μ
  | [], s => (.ok [], s)
  | id :: ids, s =>
    match open_for_reading cfg type id s with
    | (.error e, s1) => (.error e, s1)
    | (.ok h, s1) =>
      match open_readers cfg type ids s1 with
      | (.error e, s2) => (.error e, s2)
      | (.ok hs, s2) => (.ok (h :: hs), s2)

/-- Modelled from the spec: `open_all_of_type_for_reading(type, id_prefix?)`:
a reader is opened on every live instance of the type whose id starts with
the prefix. -/
def open_all_of_type_for_reading {μ : Type} (cfg : Config μ) (type : String)
    ( id_pfx : Option String) (s : BlackBoard μ) :
    Except BBException (List Interface) × BlackBoard μ :=
  open_readers cfg type
    ((s.instances.filter (fun x => decide (x.type = type) && id_matches id_pfx x.id)).map
      (fun x => x.id)) s

/-- Calls on the facade, for sequences of operations. -/
inductive Op where
  | open_for_reading (type id : String)
  | open_for_writing (type id : String)
  | close (h : Interface)
  deriving DecidableEq, Repr

/-- State after one facade call (the result of the call is dropped). -/
def step {μ : Type} (cfg : Config μ) (s : BlackBoard μ) : Op → BlackBoard μ
  | .open_for_reading t i => (open_for_reading cfg t i s).2
  | .open_for_writing t i => (open_for_writing cfg t i s).2
  | .close h => (close cfg h s).2

/-- State after a sequence of facade calls. -/
def run {μ : Type} (cfg : Config μ) (s : BlackBoard μ) (ops : List Op) : BlackBoard μ :=
  ops.foldl (step cfg) s

/-- The open writer handles on (type, id). -/
def writers_of {μ : Type} (s : BlackBoard μ) (type id : String) : List Interface :=
  s.handles.filter (fun h => h.write_access && decide (h.type = type ∧ h.id = id))

/-- A simple arena for concrete scenarios: free bytes and the chunks handed
out with their sizes. -/
structure Arena where
  free_bytes : Nat
  chunks : List (Nat × Nat)
  next_chunk : Nat
  deriving DecidableEq, Repr

/-- Allocation in the simple arena: refused when the request exceeds the
bytes left. -/
def Arena.alloc (size : Nat) (a : Arena) : Option (Nat × Arena) :=
  if size ≤ a.free_bytes then
    some (a.next_chunk,
      ⟨a.free_bytes - size, (a.next_chunk, size) :: a.chunks, a.next_chunk + 1⟩)
  else none

/-- Release in the simple arena: the chunk's bytes become free again. -/
def Arena.free (chunk : Nat) (a : Arena) : Arena :=
  match a.chunks.find? (fun c => decide (c.1 = chunk)) with
  | some c => ⟨a.free_bytes + c.2, a.chunks.filter (fun d => decide (d.1 ≠ chunk)), a.next_chunk⟩
  | none => a

/-- The simple arena as a memory manager. -/
def arena_memmgr : MemoryManager Arena :=
  ⟨Arena.alloc, Arena.free⟩

/-! ## Message queue of an instance, notifier, and the local message manager -/

/-- Modelled from the spec: resolution of "the message's target instance to
its current writer handle; if no writer is open, fails with a distinguishable
no-writer condition" (`BlackBoardInterfaceManager::writer_for_mem_serial`). -/
def writer_for_mem_serial {μ : Type} (serial : Nat) (s : BlackBoard μ) :
    Except BBException Interface :=
  match s.handles.find? (fun h => h.write_access && decide (h.mem_serial = serial)) with
  | some w => .ok w
  | none => .error .BlackBoardNoWritingInstanceException

/-- Modelled from the spec: `Interface::msgq_append`: the inbox is bounded and
FIFO; "enqueue beyond capacity fails with a queue-full condition"; otherwise
the message is appended at the end and is assigned the next id of its
target (ids start at 1 and go up by one). -/
def msgq_append {μ : Type} (cfg : Config μ) (w : Interface) (m : Message) (s : BlackBoard μ) :
    Except BBException Nat × BlackBoard μ :=
  match instance_for_serial s w.mem_serial with
  | none => (.error .InterfaceNotOpenException, s)
  | some inst =>
    if cfg.msgq_capacity ≤ inst.msgq.length then (.error .MessageQueueFullException, s)
    else
      (.ok (inst.last_msgid + 1), { s with
        instances := modify_instance w.mem_serial
          (fun x => { x with msgq := x.msgq ++ [{ m with id := x.last_msgid + 1 }]
                             last_msgid := x.last_msgid + 1 }) s.instances })

/-- Modelled from the spec: `Interface::msgq_size`, the number of messages in
the inbox of the handle's instance. -/
def msgq_size {μ : Type} (w : Interface) (s : BlackBoard μ) : Nat :=
  match instance_for_serial s w.mem_serial with
  | none => 0
  | some inst => inst.msgq.length

/-- Modelled from the spec: `Interface::msgq_empty`. -/
def msgq_empty {μ : Type} (w : Interface) (s : BlackBoard μ) : Bool :=
  match instance_for_serial s w.mem_serial with
  | none => true
  | some inst => inst.msgq.isEmpty

/-- Modelled from the spec: `Interface::msgq_first`, the oldest message of the
inbox. -/
def msgq_first {μ : Type} (w : Interface) (s : BlackBoard μ) : Option Message :=
  match instance_for_serial s w.mem_serial with
  | none => none
  | some inst => inst.msgq.head?

/-- Modelled from the spec: `Interface::msgq_pop`, the writer's dequeue of the
oldest message. -/
def msgq_pop {μ : Type} (w : Interface) (s : BlackBoard μ) : BlackBoard μ :=
  { s with
    instances := modify_instance w.mem_serial (fun x => { x with msgq := x.msgq.tail }) s.instances }

/-- Modelled from the spec: `Interface::msgq_flush`: every pending message of
the inbox is discarded ("draining any pending messages"); the id counter is
left alone. -/
def msgq_flush {μ : Type} (w : Interface) (s : BlackBoard μ) : BlackBoard μ :=
  { s with
    instances := modify_instance w.mem_serial (fun x => { x with msgq := [] }) s.instances }

/-- What a listener's `bb_interface_message_received` did: the value it
returned (true: enqueue) and whether it called `msgq_flush()` on the
interface, as the Dynamixel driver does for a FlushMessage. -/
structure ListenerReply where
  enqueue : Bool
  flush : Bool
  deriving DecidableEq, Repr

/-- A listener's message callback. -/
abbrev Listener := Interface → Message → ListenerReply

/-- The callback of `QaBBEventListener` (qa_bb_notify.cpp lines 77-83): it
prints and returns false. -/
def QaBBEventListener.bb_interface_message_received : Listener :=
  fun _ _ => ⟨false, false⟩

/-- A BlackBoard without registered message listener: every message is
enqueued. -/
def no_listener : Listener :=
  fun _ _ => ⟨true, false⟩

/-- Modelled from the spec: `BlackBoardNotifier::notify_of_message_received`:
"asks the Notifier whether the writer's registered listener accepts the
message"; the callback runs synchronously, so what it did to the queue is
in the state afterwards. -/
def notify_of_message_received {μ : Type} (listener : Listener) (w : Interface) (m : Message)
    (s : BlackBoard μ) : Except BBException Bool × BlackBoard μ :=
  (.ok (listener w m).enqueue, if (listener w m).flush then msgq_flush w s else s)

/-- The interface manager of a local BlackBoard as `transmit` sees it. -/
def local_im {μ : Type} : InterfaceManagerOps (BlackBoard μ) Interface :=
  ⟨fun serial s => (writer_for_mem_serial serial s, s)⟩

/-- The message manager of a local BlackBoard whose notifier forwards to
`listener`, after `set_interface_manager`. -/
def local_msgmgr {μ : Type} (cfg : Config μ) (listener : Listener) :
    BlackBoardMessageManager (BlackBoard μ) Interface Message :=
  set_interface_manager
    ⟨none, notify_of_message_received listener, Message.recipient, msgq_append cfg⟩ local_im

/-! ## Sequences of transmissions and the writer's message loop -/

/-- Branch of the `if`/`else if` chain taken by the servo message loop of
`DynamixelDriverThread::exec_act` (driver_thread.cpp lines 281-318). -/
inductive ServoBranch where
  | goto_angle
  | goto_angle_timed
  | set_enabled
  | set_velocity
  | set_margin
  | unknown_message
  deriving DecidableEq, Repr

/-- The `msgq_first_is<T>()` chain of the servo loop. -/
def servo_branch (m : Message) : ServoBranch :=
  if m.mclass = .GotoMessage then .goto_angle
  else if m.mclass = .TimedGotoMessage then .goto_angle_timed
  else if m.mclass = .SetEnabledMessage then .set_enabled
  else if m.mclass = .SetVelocityMessage then .set_velocity
  else if m.mclass = .SetMarginMessage then .set_margin
  else .unknown_message

/-- The loop `while (! servo_if->msgq_empty()) { ... msgq_first ...;
msgq_pop(); }` of `exec_act` (driver_thread.cpp lines 280-321) on the writer
handle `w`, returning the messages it handled in order.  The recursion is
bounded by `fuel`. -/
def exec_act_loop {μ : Type} (w : Interface) : Nat → BlackBoard μ → List Message × BlackBoard μ
  | 0, s => ([], s)
  | fuel + 1, s =>
    if msgq_empty w s then ([], s)
    else
      match msgq_first w s with
      | none => ([], s)
      | some m =>
        let r := exec_act_loop w fuel (msgq_pop w s)
        (m :: r.1, r.2)

/-- The servo message loop run until the queue is empty: one iteration per
queued message suffices. -/
def exec_act {μ : Type} (w : Interface) (s : BlackBoard μ) : List Message × BlackBoard μ :=
  exec_act_loop w (msgq_size w s) s

/-- The inbox of the instance with the given serial (empty when there is no
such instance). -/
def queue_of {μ : Type} (s : BlackBoard μ) (serial : Nat) : List Message :=
  match instance_for_serial s serial with
  | none => []
  | some inst => inst.msgq

/-- The message id counter of the instance with the given serial. -/
def counter_of {μ : Type} (s : BlackBoard μ) (serial : Nat) : Nat :=
  match instance_for_serial s serial with
  | none => 0
  | some inst => inst.last_msgid

/-- One event on the message path: a sender transmits `m` and the listener
answers `reply`, or the writer `w` runs its message loop. -/
inductive MsgOp where
  | transmit (m : Message) (reply : ListenerReply)
  | exec_act (w : Interface)
  deriving DecidableEq, Repr

/-- How a message left the inbox: handled by the message loop, or discarded
by a `msgq_flush()` of the listener. -/
inductive Removal where
  | seen (m : Message)
  | flushed (m : Message)
  deriving DecidableEq, Repr

/-- The message of a removal. -/
def Removal.message : Removal → Message
  | .seen m => m
  | .flushed m => m

/-- Was the message handled by the message loop? -/
def Removal.is_seen : Removal → Bool
  | .seen _ => true
  | .flushed _ => false

/-- The messages the message loop handled, in order. -/
def seen_messages : List Removal → List Message
  | [] => []
  | .seen m :: rs => m :: seen_messages rs
  | .flushed _ :: rs => seen_messages rs

/-- What a sequence of events did on one instance: the messages accepted for
it (as queued, with the id `transmit` returned) and the removals from its
inbox, both in order. -/
structure MsgTrace where
  accepted : List Message
  removed : List Removal
  deriving DecidableEq, Repr

/-- The message as stored by an accepted transmission that returned `id`. -/
def Message.with_id (m : Message) (id : Nat) : Message :=
  { m with id := id }

/-- The messages a listener's flush discards during the transmission of `m`:
the inbox of the recipient, if the recipient has a writer. -/
def flushed_by {μ : Type} (m : Message) (reply : ListenerReply) (s : BlackBoard μ) :
    List Removal :=
  match writer_for_mem_serial m.recipient s with
  | .ok w => if reply.flush then (queue_of s w.mem_serial).map Removal.flushed else []
  | .error _ => []

/-- Run a sequence of events from state `s` and record what happens on
the instance with serial `n`. -/
def run_msgs {μ : Type} (cfg : Config μ) (n : Nat) :
    List MsgOp → BlackBoard μ → MsgTrace × BlackBoard μ
  | [], s => (⟨[], []⟩, s)
  | .transmit m reply :: ops, s =>
    let out := transmit (local_msgmgr cfg (fun _ _ => reply)) m s
    let r := run_msgs cfg n ops out.state
    if m.recipient = n then
      match out.result with
      | .ok id =>
        if reply.enqueue then
          (⟨m.with_id id :: r.1.accepted, flushed_by m reply s ++ r.1.removed⟩, r.2)
        else (⟨r.1.accepted, flushed_by m reply s ++ r.1.removed⟩, r.2)
      | .error _ => (⟨r.1.accepted, flushed_by m reply s ++ r.1.removed⟩, r.2)
    else r
  | .exec_act w :: ops, s =>
    let e := exec_act w s
    let r := run_msgs cfg n ops e.2
    if w.mem_serial = n then (⟨r.1.accepted, e.1.map Removal.seen ++ r.1.removed⟩, r.2)
    else r

/-! ## The Dynamixel driver's message callback -/

/-- The interfaces of one servo in `DynamixelDriverThread::servos_`. -/
structure Servo where
  servo_if : Interface
  led_if : Interface
  joint_if : Interface
  deriving DecidableEq, Repr

/-- The part of `DynamixelDriverThread` the callback reads: the map
`servos_` from servo id to servo, in key order. -/
structure DynamixelDriverThread where
  servos_ : List (Nat × Servo)
  deriving DecidableEq, Repr

/-- What the callback does besides returning. -/
inductive DriverAction where
  | stop_motion (servo_id : Nat)
  | log_info
  | msgq_flush (servo_if : Interface)
  deriving DecidableEq, Repr

/-- The callback `DynamixelDriverThread::bb_interface_message_received`
(driver_thread.cpp lines 347-371): the servo whose `servo_if` has the uid of
the interface is looked up; a StopMessage or FlushMessage for it is handled
on the spot and not enqueued. -/
def DynamixelDriverThread.bb_interface_message_received (t : DynamixelDriverThread)
    (interface : Interface) (message : Message) : Bool × List DriverAction :=
  match t.servos_.find? (fun sp => decide (sp.2.servo_if.uid = interface.uid)) with
  | some si =>
    if message.mclass = .StopMessage then (false, [.stop_motion si.1])
    else if message.mclass = .FlushMessage then
      (false, [.stop_motion si.1, .log_info, .msgq_flush si.2.servo_if])
    else (true, [.log_info])
  | none => (true, [])

/-- Is the action a `msgq_flush()`? -/
def DriverAction.is_flush : DriverAction → Bool
  | .msgq_flush _ => true
  | _ => false

/-- The driver thread as a listener of the notifier. -/
def DynamixelDriverThread.listener (t : DynamixelDriverThread) : Listener :=
  fun interface message =>
    ⟨(t.bb_interface_message_received interface message).1,
     (t.bb_interface_message_received interface message).2.any DriverAction.is_flush⟩

/-! ## BatteryInterface messages -/

/-- The method `BatteryInterface::message_valid` (BatteryInterface.cpp lines 328-340):
two `dynamic_cast` tests. -/
def BatteryInterface.message_valid (message : Message) : Bool :=
  if message.mclass = .PushButtonMessage then true
  else if message.mclass = .SleepMessage then true
  else false

/-- The test `strncmp(a, b, n) == 0` on C strings: the first `n` characters
agree (a string shorter than `n` has to agree to its end). -/
def strncmp_eq (a b : String) (n : Nat) : Bool :=
  decide (a.toList.take n = b.toList.take n)

/-- The method `BatteryInterface::create_message` (BatteryInterface.cpp lines 218-229):
the type name is compared with the two message names of the interface over
`type_size` characters (the constant `__INTERFACE_MESSAGE_TYPE_SIZE`, whose
definition is outside the examined files); the new message has no payload
(`data_size = 0`). -/
def BatteryInterface.create_message (type_size : Nat) (type : String) :
    Except BBException Message :=
  if strncmp_eq "PushButtonMessage" type type_size then .ok ⟨.PushButtonMessage, 0, [], 0⟩
  else if strncmp_eq "SleepMessage" type type_size then .ok ⟨.SleepMessage, 0, [], 0⟩
  else .error .UnknownTypeException

/-- Modelled from the spec: `Interface::msgq_enqueue` on a handle of a
BatteryInterface: `message_valid` decides whether the "message is valid and
can be enqueued"; a valid message is addressed to the instance of the handle
and handed to the message manager. -/
def BatteryInterface.msgq_enqueue {μ : Type}
    (mm : BlackBoardMessageManager (BlackBoard μ) Interface Message)
    (r : Interface) (message : Message) (s : BlackBoard μ) :
    Outcome (BlackBoard μ) Interface Message :=
  if BatteryInterface.message_valid message then
    transmit mm { message with recipient := r.mem_serial } s
  else ⟨.error .InterfaceInvalidMessageException, s, []⟩

/-! ## BlackBoardInterfaceListener watch lists -/

/-- The three watch lists of `BlackBoardInterfaceListener`: hash maps from
the uid string (compared by content) to the interface added under it. -/
structure BlackBoardInterfaceListener where
  bbil_data_interfaces : List (String × Interface)
  bbil_reader_interfaces : List (String × Interface)
  bbil_writer_interfaces : List (String × Interface)
  deriving DecidableEq, Repr

/-- The `find(key)` of the map: the entry stored under a key of equal
content. -/
def map_find (m : List (String × Interface)) (key : String) : Option Interface :=
  (m.find? (fun e => decide (e.1 = key))).map (fun e => e.2)

/-- The `m[strdup(key)] = value` of the map: the entry under the key is
replaced, or a new entry is made. -/
def map_set (m : List (String × Interface)) (key : String) (value : Interface) :
    List (String × Interface) :=
  match m with
  | [] => [(key, value)]
  | e :: es => if e.1 = key then (key, value) :: es else e :: map_set es key value

/-- The empty constructor. -/
def BlackBoardInterfaceListener.new : BlackBoardInterfaceListener :=
  ⟨[], [], []⟩

/-- The method `bbil_add_data_interface` (interface_listener.cpp lines 166-173). -/
def bbil_add_data_interface (l : BlackBoardInterfaceListener) (interface : Interface) :
    Except BBException BlackBoardInterfaceListener :=
  if (map_find l.bbil_data_interfaces interface.uid).isSome then
    .error (.Exception "Interface already registered (data)")
  else .ok { l with bbil_data_interfaces := map_set l.bbil_data_interfaces interface.uid interface }

/-- The method `bbil_add_reader_interface` (interface_listener.cpp lines 181-188). -/
def bbil_add_reader_interface (l : BlackBoardInterfaceListener) (interface : Interface) :
    Except BBException BlackBoardInterfaceListener :=
  if (map_find l.bbil_reader_interfaces interface.uid).isSome then
    .error (.Exception "Interface already registered (reader)")
  else .ok { l with
    bbil_reader_interfaces := map_set l.bbil_reader_interfaces interface.uid interface }

/-- The method `bbil_add_writer_interface` (interface_listener.cpp lines 197-204). -/
def bbil_add_writer_interface (l : BlackBoardInterfaceListener) (interface : Interface) :
    Except BBException BlackBoardInterfaceListener :=
  if (map_find l.bbil_writer_interfaces interface.uid).isSome then
    .error (.Exception "Interface already registered (writer)")
  else .ok { l with
    bbil_writer_interfaces := map_set l.bbil_writer_interfaces interface.uid interface }

/-- The method `bbil_data_interface` (interface_listener.cpp lines 241-252); `none` is
the NULL return. -/
def bbil_data_interface (l : BlackBoardInterfaceListener) (iuid : String) : Option Interface :=
  map_find l.bbil_data_interfaces iuid

/-- The method `bbil_reader_interface` (interface_listener.cpp lines 261-272). -/
def bbil_reader_interface (l : BlackBoardInterfaceListener) (iuid : String) : Option Interface :=
  map_find l.bbil_reader_interfaces iuid

/-- The method `bbil_writer_interface` (interface_listener.cpp lines 281-292). -/
def bbil_writer_interface (l : BlackBoardInterfaceListener) (iuid : String) : Option Interface :=
  map_find l.bbil_writer_interfaces iuid

/-- Calls that add to a watch list. -/
inductive AddOp where
  | data (i : Interface)
  | reader (i : Interface)
  | writer (i : Interface)
  deriving DecidableEq, Repr

/-- One add call; a call that throws leaves the listener as it was. -/
def add_step (l : BlackBoardInterfaceListener) : AddOp → BlackBoardInterfaceListener
  | .data i => match bbil_add_data_interface l i with
    | .ok l1 => l1
    | .error _ => l
  | .reader i => match bbil_add_reader_interface l i with
    | .ok l1 => l1
    | .error _ => l
  | .writer i => match bbil_add_writer_interface l i with
    | .ok l1 => l1
    | .error _ => l

/-- A sequence of add calls on a listener. -/
def add_all (l : BlackBoardInterfaceListener) (ops : List AddOp) : BlackBoardInterfaceListener :=
  ops.foldl add_step l

/-- Number of open writer handles among `hs` on the instance with the given
serial. -/
def writer_count (hs : List Interface) (serial : Nat) : Nat :=
  hs.countP (fun h => h.write_access && decide (h.mem_serial = serial))

/-- Number of open reader handles among `hs` on the instance with the given
serial. -/
def reader_count (hs : List Interface) (serial : Nat) : Nat :=
  hs.countP (fun h => !h.write_access && decide (h.mem_serial = serial))

/-- Consistency of the registry with the open handles: serials and (type,
id) pairs of live instances are unique, handles are distinct and each is open
on a live instance of its type and id, and the writer flag and reader count
of every instance agree with the handles open on it. -/
structure WellFormed {μ : Type} (s : BlackBoard μ) : Prop where
  serial_lt : ∀ x ∈ s.instances, x.serial < s.next_mem_serial
  serial_nodup : (s.instances.map (fun x => x.serial)).Nodup
  key_nodup : (s.instances.map (fun x => (x.type, x.id))).Nodup
  handle_nodup : s.handles.Nodup
  handle_lt : ∀ h ∈ s.handles, h.instance_serial < s.next_instance_serial
  handle_inst : ∀ h ∈ s.handles,
    ∃ x ∈ s.instances, x.serial = h.mem_serial ∧ x.type = h.type ∧ x.id = h.id
  writers : ∀ x ∈ s.instances, writer_count s.handles x.serial = if x.writer_open then 1 else 0
  readers : ∀ x ∈ s.instances, reader_count s.handles x.serial = x.num_readers

/-- The add calls of a sequence that succeeded (did not throw), in order. -/
def add_log (l : BlackBoardInterfaceListener) : List AddOp → List AddOp
  | [] => []
  | .data i :: ops =>
    match bbil_add_data_interface l i with
    | .ok l1 => .data i :: add_log l1 ops
    | .error _ => add_log l ops
  | .reader i :: ops =>
    match bbil_add_reader_interface l i with
    | .ok l1 => .reader i :: add_log l1 ops
    | .error _ => add_log l ops
  | .writer i :: ops =>
    match bbil_add_writer_interface l i with
    | .ok l1 => .writer i :: add_log l1 ops
    | .error _ => add_log l ops

/-- The state in which `msgq_append` is attempted: what the listener's
callback left. -/
def after_listener {μ : Type} (reply : ListenerReply) (w : Interface) (s : BlackBoard μ) :
    BlackBoard μ :=
  if reply.flush then msgq_flush w s else s

/-! ## BatteryInterface data -/

/-- The record `BatteryInterface_data_t`: three `unsigned int` fields and two
`float` fields; a float is kept as its 32-bit pattern, which is what
`memset` and `memcpy` act on. -/
structure BatteryInterface_data_t where
  current : Nat
  voltage : Nat
  temperature : Nat
  absolute_soc : Nat
  relative_soc : Nat
  deriving DecidableEq, Repr

/-- A BatteryInterface object: its data buffer. -/
structure BatteryInterface where
  data : BatteryInterface_data_t
  deriving DecidableEq, Repr

/-- The constructor (BatteryInterface.cpp lines 46-59): the data buffer is
zeroed by `memset`. -/
def BatteryInterface.new : BatteryInterface :=
  ⟨⟨0, 0, 0, 0, 0⟩⟩

/-- The getter `BatteryInterface::current`. -/
def BatteryInterface.current (b : BatteryInterface) : Nat :=
  b.data.current

/-- The setter `BatteryInterface::set_current`; the parameter is an `unsigned
int`, so the value stored is taken modulo 2^32. -/
def BatteryInterface.set_current (b : BatteryInterface) (new_current : Nat) : BatteryInterface :=
  { b with data := { b.data with current := new_current % 4294967296 } }

/-- The getter `BatteryInterface::voltage`. -/
def BatteryInterface.voltage (b : BatteryInterface) : Nat :=
  b.data.voltage

/-- The setter `BatteryInterface::set_voltage`. -/
def BatteryInterface.set_voltage (b : BatteryInterface) (new_voltage : Nat) : BatteryInterface :=
  { b with data := { b.data with voltage := new_voltage % 4294967296 } }

/-- The getter `BatteryInterface::temperature`. -/
def BatteryInterface.temperature (b : BatteryInterface) : Nat :=
  b.data.temperature

/-- The setter `BatteryInterface::set_temperature`. -/
def BatteryInterface.set_temperature (b : BatteryInterface) (new_temperature : Nat) :
    BatteryInterface :=
  { b with data := { b.data with temperature := new_temperature % 4294967296 } }

/-- The getter `BatteryInterface::absolute_soc` (bit pattern of the float). -/
def BatteryInterface.absolute_soc (b : BatteryInterface) : Nat :=
  b.data.absolute_soc

/-- The setter `BatteryInterface::set_absolute_soc`. -/
def BatteryInterface.set_absolute_soc (b : BatteryInterface) (new_absolute_soc : Nat) :
    BatteryInterface :=
  { b with data := { b.data with absolute_soc := new_absolute_soc % 4294967296 } }

/-- The getter `BatteryInterface::relative_soc` (bit pattern of the float). -/
def BatteryInterface.relative_soc (b : BatteryInterface) : Nat :=
  b.data.relative_soc

/-- The setter `BatteryInterface::set_relative_soc`. -/
def BatteryInterface.set_relative_soc (b : BatteryInterface) (new_relative_soc : Nat) :
    BatteryInterface :=
  { b with data := { b.data with relative_soc := new_relative_soc % 4294967296 } }

/-- An interface object as seen through `const Interface *`: a
BatteryInterface, or an object of another interface class (with its type
name), on which `dynamic_cast<const BatteryInterface *>` yields NULL. -/
inductive AnyInterface where
  | battery (b : BatteryInterface)
  | other (type : String)
  deriving DecidableEq, Repr

/-- Exceptions of the interface library. -/
inductive InterfaceException where
  | TypeMismatchException
  deriving DecidableEq, Repr

/-- The method `BatteryInterface::copy_values` (BatteryInterface.cpp lines
235-244): the outcome, this interface afterwards and the other interface
afterwards. -/
def BatteryInterface.copy_values (this : BatteryInterface) (other : AnyInterface) :
    Except InterfaceException Unit × BatteryInterface × AnyInterface :=
  match other with
  | .other _ => (.error .TypeMismatchException, this, other)
  | .battery oi => (.ok (), { this with data := oi.data }, other)

/-! ## CameraFactory -/

/-- Compile-time camera support: the `HAVE_*_CAM` definitions. -/
structure CameraSupport where
  HAVE_FIREWIRE_CAM : Bool
  HAVE_LEUTRON_CAM : Bool
  HAVE_FILELOADER_CAM : Bool
  HAVE_SHMEM_CAM : Bool
  HAVE_NETWORK_CAM : Bool
  HAVE_V4L_CAM : Bool
  HAVE_BUMBLEBEE2_CAM : Bool
  deriving DecidableEq, Repr

/-- What `CameraFactory::instance` reads of a `CameraArgumentParser`: the
camera type id (the parameters are passed on to the camera untouched). -/
structure CameraArgumentParser where
  cam_type : String
  cam_id : String
  deriving DecidableEq, Repr

/-- The camera classes `CameraFactory::instance` can construct. -/
inductive Camera where
  | FirewireCamera (cap : CameraArgumentParser)
  | LeutronCamera
  | FileLoader (cap : CameraArgumentParser)
  | SharedMemoryCamera (cap : CameraArgumentParser)
  | NetworkCamera (cap : CameraArgumentParser)
  | V4LCamera (cap : CameraArgumentParser)
  | Bumblebee2Camera (cap : CameraArgumentParser)
  deriving DecidableEq, Repr

/-- The camera type id each camera class is constructed for. -/
def Camera.type_id : Camera → String
  | .FirewireCamera _ => "firewire"
  | .LeutronCamera => "leutron"
  | .FileLoader _ => "file"
  | .SharedMemoryCamera _ => "shmem"
  | .NetworkCamera _ => "net"
  | .V4LCamera _ => "v4l"
  | .Bumblebee2Camera _ => "bumblebee2"

/-- Was support for the camera type id compiled in?  False for an id that is
none of the seven known ones. -/
def CameraSupport.compiled (sup : CameraSupport) (type_id : String) : Bool :=
  if type_id = "firewire" then sup.HAVE_FIREWIRE_CAM
  else if type_id = "leutron" then sup.HAVE_LEUTRON_CAM
  else if type_id = "file" then sup.HAVE_FILELOADER_CAM
  else if type_id = "shmem" then sup.HAVE_SHMEM_CAM
  else if type_id = "net" then sup.HAVE_NETWORK_CAM
  else if type_id = "v4l" then sup.HAVE_V4L_CAM
  else if type_id = "bumblebee2" then sup.HAVE_BUMBLEBEE2_CAM
  else false

/-- Exceptions of the camera factory. -/
inductive CameraException where
  | UnknownCameraTypeException (msg : String)
  deriving DecidableEq, Repr

/-- One `if ( cap->cam_type() == ... ) { #ifdef ... #else throw ... #endif }`
block of `instance`: `c` is assigned when the type matches and support was
compiled in; the block throws when it matches and support is missing. -/
def camera_block (type_matches compiled : Bool) (cam : Camera) (msg : String) (c : Option Camera) :
    Except CameraException (Option Camera) :=
  if type_matches then
    if compiled then .ok (some cam) else .error (.UnknownCameraTypeException msg)
  else .ok c

/-- The method `CameraFactory::instance(const CameraArgumentParser *)`
(factory.cpp lines 86-159): `c` starts as NULL (`none`), goes through the
seven blocks and is returned unless it is still NULL. -/
def CameraFactory.instance_cap (sup : CameraSupport) (cap : CameraArgumentParser) :
    Except CameraException (Option Camera) :=
  camera_block (cap.cam_type = "firewire") sup.HAVE_FIREWIRE_CAM (.FirewireCamera cap)
    "No firewire support at compile time" none >>= fun c1 =>
  camera_block (cap.cam_type = "leutron") sup.HAVE_LEUTRON_CAM .LeutronCamera
    "No Leutron support at compile time" c1 >>= fun c2 =>
  camera_block (cap.cam_type = "file") sup.HAVE_FILELOADER_CAM (.FileLoader cap)
    "No file loader support at compile time" c2 >>= fun c3 =>
  camera_block (cap.cam_type = "shmem") sup.HAVE_SHMEM_CAM (.SharedMemoryCamera cap)
    "No shared memory support at compile time" c3 >>= fun c4 =>
  camera_block (cap.cam_type = "net") sup.HAVE_NETWORK_CAM (.NetworkCamera cap)
    "No network support at compile time" c4 >>= fun c5 =>
  camera_block (cap.cam_type = "v4l") sup.HAVE_V4L_CAM (.V4LCamera cap)
    "No video4linux support at compile time" c5 >>= fun c6 =>
  camera_block (cap.cam_type = "bumblebee2") sup.HAVE_BUMBLEBEE2_CAM (.Bumblebee2Camera cap)
    "No Bumblebee 2 support at compile time" c6 >>= fun c7 =>
  match c7 with
  | none => .error (.UnknownCameraTypeException "")
  | some cam => .ok (some cam)

/-- The method `CameraFactory::instance(const char *)` (factory.cpp lines
179-191): the argument string is parsed (the parser class is outside the
examined files and is passed in as `parse`), the other overload is called,
and its exception is rethrown after the parser is deleted. -/
def CameraFactory.instance_as (sup : CameraSupport) (parse : String → CameraArgumentParser)
    (as : String) : Except CameraException (Option Camera) :=
  match CameraFactory.instance_cap sup (parse as) with
  | .ok cam => .ok cam
  | .error e => .error e

/-! ## Log level selection of `fawkes::runtime::init` -/

/-- The log levels `init` chooses from. -/
inductive LogLevel where
  | LL_DEBUG
  | LL_INFO
  | LL_WARN
  | LL_ERROR
  | LL_NONE
  deriving DecidableEq, Repr

/-- Body of the loop over the characters of the `-q` argument (run.cpp lines
134-141): a 'q' moves the level one step up, any other character is
skipped. -/
def quiet_step (log_level : LogLevel) (c : Char) : LogLevel :=
  if c = 'q' then
    match log_level with
    | .LL_INFO => .LL_WARN
    | .LL_WARN => .LL_ERROR
    | .LL_ERROR => .LL_NONE
    | l => l
  else log_level

/-- The log level setup of `init` (run.cpp lines 128-158).  `has_q` is
`has_arg("q")`, `arg_q` and `arg_l` are `arg("q")` and `arg("l")` (`none` for
NULL); the argument parser itself is outside the examined files. -/
def init_log_level (has_q : Bool) (arg_q arg_l : Option String) : LogLevel :=
  if has_q then
    match arg_q with
    | some tmp => tmp.toList.foldl quiet_step .LL_INFO
    | none => .LL_INFO
  else
    match arg_l with
    | some tmp =>
      if tmp = "debug" then .LL_DEBUG
      else if tmp = "info" then .LL_INFO
      else if tmp = "warn" then .LL_WARN
      else if tmp = "error" then .LL_ERROR
      else if tmp = "none" then .LL_NONE
      else .LL_DEBUG
    | none => .LL_DEBUG

/-- The number of 'q' characters in the optional `-q` argument. -/
def count_q (arg_q : Option String) : Nat :=
  match arg_q with
  | some tmp => (tmp.toList.filter (fun c => decide (c = 'q'))).length
  | none => 0

/-- The level the usage text promises for `n` further 'q' characters after
`-q`: none omits debug, one omits info too, two omit warn too, three or more
give no output. -/
def quiet_level_spec (n : Nat) : LogLevel :=
  match n with
  | 0 => .LL_INFO
  | 1 => .LL_WARN
  | 2 => .LL_ERROR
  | _ => .LL_NONE

/-! ## DynamixelDriverThread life cycle -/

/-- The calls of `init` and `finalize` on the BlackBoard and on the listener
base class, in program order. -/
inductive DriverEvent where
  | open_for_writing (type id : String)
  | bbil_add_message_interface (i : Interface)
  | close (i : Option Interface)
  | register_listener
  | unregister_listener
  deriving DecidableEq, Repr

/-- Is the event a registration or deregistration of the listener? -/
def DriverEvent.is_registration : DriverEvent → Bool
  | .register_listener => true
  | .unregister_listener => true
  | _ => false

/-- Modelled from the spec: `bbil_add_message_interface`, the add method of
the message watch list (a Listener Registration for the message-received
kind).  Like its sibling add methods it throws when the uid is already
registered, and, as qa_bb_notify.cpp lines 110-120 expect, when the interface
is not a writing instance. -/
def bbil_add_message_interface (m : List (String × Interface)) (interface : Interface) :
    Except BBException (List (String × Interface)) :=
  if interface.write_access = false then
    .error (.Exception "Message listeners can only be registered for writing instances")
  else if (map_find m interface.uid).isSome then
    .error (.Exception "Interface already registered (message)")
  else .ok (map_set m interface.uid interface)

/-- The call `blackboard->close(interface)` of the driver, where the pointer
may still be NULL. -/
def close_opt {μ : Type} (cfg : Config μ) (i : Option Interface) (bb : BlackBoard μ) :
    BlackBoard μ :=
  match i with
  | none => bb
  | some h => (close cfg h bb).2

/-- The identifier "/dynamixel/%s/%u" of the interfaces of one servo. -/
def servo_interface_id (cfg_name : String) (i : Nat) : String :=
  "/dynamixel/" ++ cfg_name ++ "/" ++ toString i

/-- State while the servo loop of `init` runs. -/
structure ServoLoop (μ : Type) where
  result : Except BBException (List (Nat × Servo))
  bb : BlackBoard μ
  message_interfaces : List (String × Interface)
  events : List DriverEvent

/-- The assignment `servos_[key] = s` on the map `servos_`, kept in key
order. -/
def servos_insert (servos : List (Nat × Servo)) (key : Nat) (s : Servo) : List (Nat × Servo) :=
  match servos with
  | [] => [(key, s)]
  | e :: es =>
    if key < e.1 then (key, s) :: e :: es
    else if key = e.1 then (key, s) :: es
    else e :: servos_insert es key s

/-- Body of the servo loop of `init` for device `i` (driver_thread.cpp lines
83-121): the `try` block opens the three writers and adds the servo interface
to the message watch list; the `catch` block closes the three pointers (NULL
where nothing was opened yet) and rethrows. -/
def init_servo {μ : Type} (cfg : Config μ) (cfg_name : String) (i : Nat)
    (servos : List (Nat × Servo)) (bb : BlackBoard μ) (mifs : List (String × Interface)) :
    ServoLoop μ :=
  match open_for_writing cfg "DynamixelServoInterface" (servo_interface_id cfg_name i) bb with
  | (.error e, bb1) =>
    ⟨.error e, close_opt cfg none (close_opt cfg none (close_opt cfg none bb1)), mifs,
      [.open_for_writing "DynamixelServoInterface" (servo_interface_id cfg_name i),
       .close none, .close none, .close none]⟩
  | (.ok servo_if, bb1) =>
    match open_for_writing cfg "LedInterface" (servo_interface_id cfg_name i) bb1 with
    | (.error e, bb2) =>
      ⟨.error e,
        close_opt cfg none (close_opt cfg none (close_opt cfg (some servo_if) bb2)), mifs,
        [.open_for_writing "DynamixelServoInterface" (servo_interface_id cfg_name i),
         .open_for_writing "LedInterface" (servo_interface_id cfg_name i),
         .close (some servo_if), .close none, .close none]⟩
    | (.ok led_if, bb2) =>
      match open_for_writing cfg "JointInterface" (servo_interface_id cfg_name i) bb2 with
      | (.error e, bb3) =>
        ⟨.error e,
          close_opt cfg none
            (close_opt cfg (some led_if) (close_opt cfg (some servo_if) bb3)), mifs,
          [.open_for_writing "DynamixelServoInterface" (servo_interface_id cfg_name i),
           .open_for_writing "LedInterface" (servo_interface_id cfg_name i),
           .open_for_writing "JointInterface" (servo_interface_id cfg_name i),
           .close (some servo_if), .close (some led_if), .close none]⟩
      | (.ok joint_if, bb3) =>
        match bbil_add_message_interface mifs servo_if with
        | .error e =>
          ⟨.error e,
            close_opt cfg (some joint_if)
              (close_opt cfg (some led_if) (close_opt cfg (some servo_if) bb3)), mifs,
            [.open_for_writing "DynamixelServoInterface" (servo_interface_id cfg_name i),
             .open_for_writing "LedInterface" (servo_interface_id cfg_name i),
             .open_for_writing "JointInterface" (servo_interface_id cfg_name i),
             .bbil_add_message_interface servo_if,
             .close (some servo_if), .close (some led_if), .close (some joint_if)]⟩
        | .ok mifs1 =>
          ⟨.ok (servos_insert servos i ⟨servo_if, led_if, joint_if⟩), bb3, mifs1,
            [.open_for_writing "DynamixelServoInterface" (servo_interface_id cfg_name i),
             .open_for_writing "LedInterface" (servo_interface_id cfg_name i),
             .open_for_writing "JointInterface" (servo_interface_id cfg_name i),
             .bbil_add_message_interface servo_if]⟩

/-- The servo loop of `init` over the discovered devices; an exception of
one iteration ends the loop. -/
def init_servos {μ : Type} (cfg : Config μ) (cfg_name : String) :
    List Nat → List (Nat × Servo) → BlackBoard μ → List (String × Interface) → ServoLoop μ
  | [], servos, bb, mifs => ⟨.ok servos, bb, mifs, []⟩
  | i :: devl, servos, bb, mifs =>
    match init_servo cfg cfg_name i servos bb mifs with
    | ⟨.error e, bb1, mifs1, ev⟩ => ⟨.error e, bb1, mifs1, ev⟩
    | ⟨.ok servos1, bb1, mifs1, ev⟩ =>
      match init_servos cfg cfg_name devl servos1 bb1 mifs1 with
      | ⟨r, bb2, mifs2, ev2⟩ => ⟨r, bb2, mifs2, ev ++ ev2⟩

/-- The configuration values of the driver that matter for its calls on the
BlackBoard. -/
structure DriverConfig where
  cfg_name_ : String
  cfg_goto_zero_start_ : Bool
  cfg_turn_off_ : Bool
  deriving DecidableEq, Repr

/-- What the surroundings do during one run of `init`: the devices the chain
discovers, whether reading the configuration or setting up the chain throws
(before the servo loop), and whether one of the chain calls between the servo
loop and `register_listener` throws. -/
structure InitEnv where
  devl : List Nat
  setup_throws : Bool
  chain_throws : Bool
  deriving DecidableEq, Repr

/-- Outcome of `init`. -/
structure InitOutcome (μ : Type) where
  result : Except BBException DynamixelDriverThread
  bb : BlackBoard μ
  message_interfaces : List (String × Interface)
  events : List DriverEvent

/-- The method `DynamixelDriverThread::init` (driver_thread.cpp lines
64-184), as far as the BlackBoard and the listener are concerned: setup,
servo loop, the check for an empty `servos_`, the chain calls, and as last
statement `blackboard->register_listener(this)`. -/
def DynamixelDriverThread.init {μ : Type} (cfg : Config μ) (dcfg : DriverConfig)
    (env : InitEnv) (bb : BlackBoard μ) : InitOutcome μ :=
  if env.setup_throws then ⟨.error (.Exception "setup failed"), bb, [], []⟩
  else
    match init_servos cfg dcfg.cfg_name_ env.devl [] bb [] with
    | ⟨.error e, bb1, mifs, ev⟩ => ⟨.error e, bb1, mifs, ev⟩
    | ⟨.ok servos, bb1, mifs, ev⟩ =>
      if servos.isEmpty then ⟨.error (.Exception "No servos found in chain"), bb1, mifs, ev⟩
      else if env.chain_throws then ⟨.error (.Exception "chain call failed"), bb1, mifs, ev⟩
      else ⟨.ok ⟨servos⟩, bb1, mifs, ev ++ [.register_listener]⟩

/-- The loop of `finalize` that closes the three interfaces of every servo
(driver_thread.cpp lines 191-195). -/
def finalize_servos {μ : Type} (cfg : Config μ) :
    List (Nat × Servo) → BlackBoard μ → BlackBoard μ × List DriverEvent
  | [], bb => (bb, [])
  | sp :: rest, bb =>
    let r := finalize_servos cfg rest
      (close_opt cfg (some sp.2.joint_if)
        (close_opt cfg (some sp.2.led_if) (close_opt cfg (some sp.2.servo_if) bb)))
    (r.1, [.close (some sp.2.servo_if), .close (some sp.2.led_if),
           .close (some sp.2.joint_if)] ++ r.2)

/-- The method `DynamixelDriverThread::finalize` (driver_thread.cpp lines
186-218), as far as the BlackBoard and the listener are concerned: first
`unregister_listener(this)`, then the closing loop; turning the servos off
afterwards touches only the chain. -/
def DynamixelDriverThread.finalize {μ : Type} (cfg : Config μ) (t : DynamixelDriverThread)
    (bb : BlackBoard μ) : BlackBoard μ × List DriverEvent :=
  ((finalize_servos cfg t.servos_ bb).1,
    .unregister_listener :: (finalize_servos cfg t.servos_ bb).2)

/-- Is the listener registered after the events, given whether it was
before? -/
def registered_after : Bool → List DriverEvent → Bool
  | reg, [] => reg
  | _, .register_listener :: es => registered_after true es
  | _, .unregister_listener :: es => registered_after false es
  | reg, _ :: es => registered_after reg es

/-- The listener life cycle: no interface is added to a watch list and no
interface is closed while the listener is registered. -/
def lifecycle_ok : Bool → List DriverEvent → Bool
  | _, [] => true
  | _, .register_listener :: es => lifecycle_ok true es
  | _, .unregister_listener :: es => lifecycle_ok false es
  | reg, .bbil_add_message_interface _ :: es => !reg && lifecycle_ok reg es
  | reg, .close _ :: es => !reg && lifecycle_ok reg es
  | reg, .open_for_writing _ _ :: es => lifecycle_ok reg es

/-! ## NetworkNameResolverThread -/

/-- The C function `strstr`: the index of the first occurrence of `needle`
in `haystack`, `none` for NULL. -/
def strstr (haystack needle : List Char) : Option Nat :=
  if needle.isPrefixOf haystack then some 0
  else
    match haystack with
    | [] => none
    | _ :: cs => (strstr cs needle).map (fun k => k + 1)

/-- An IPv4 socket address (`struct sockaddr_in`): address and port. -/
structure sockaddr_in where
  s_addr : Nat
  sin_port : Nat
  deriving DecidableEq, Repr

/-- What surrounds the resolver thread: whether Avahi support was compiled
in (`HAVE_AVAHI`), whether an Avahi thread was supplied (`avahi_thread` not
NULL), the answers of `getaddrinfo` and of `getnameinfo` (with NI_NAMEREQD
and without), and for which host names `malloc` fails. -/
structure ResolverEnv where
  HAVE_AVAHI : Bool
  avahi_thread : Bool
  getaddrinfo : String → Option sockaddr_in
  getnameinfo_namereqd : sockaddr_in → Option String
  getnameinfo : sockaddr_in → Option String
  malloc_fails : String → Bool

/-- The calls the thread makes on the NetworkNameResolver (four callbacks)
and on the Avahi thread (two orders). -/
inductive ResolverCall where
  | addr_resolved (addr : sockaddr_in) (name : String) (namefound : Bool)
  | address_resolution_failed (addr : sockaddr_in)
  | name_resolved (name : String) (addr : sockaddr_in)
  | name_resolution_failed (name : String)
  | avahi_resolve_name (name : String)
  | avahi_resolve_address (addr : sockaddr_in)
  deriving DecidableEq, Repr

/-- The test `f && (f == n)` of `resolve_name_immediately` (resolver_thread.cpp
lines 120-122), with `n = name + strlen(name) - 6` and
`f = strstr(name, ".local")`, as offsets into the name. -/
def local_found_at_end (name : String) : Bool :=
  match strstr name.toList ".local".toList with
  | some f => decide ((f : Int) = (name.toList.length : Int) - 6)
  | none => false

/-- Does the host name end with ".local"? -/
def ends_with_local (name : String) : Bool :=
  ".local".toList.isSuffixOf name.toList

/-- The method `NetworkNameResolverThread::resolve_name_immediately`
(resolver_thread.cpp lines 100-140): the address found by `getaddrinfo` (the
return value is whether there is one) and the Avahi lookups ordered. -/
def resolve_name_immediately (env : ResolverEnv) (name : String) :
    Option sockaddr_in × List ResolverCall :=
  (env.getaddrinfo name,
    if env.HAVE_AVAHI && (env.avahi_thread && local_found_at_end name) then
      [.avahi_resolve_name name]
    else [])

/-- The Avahi order at the end of `resolve_address_immediately`. -/
def avahi_address_order (env : ResolverEnv) (addr : sockaddr_in) : List ResolverCall :=
  if env.HAVE_AVAHI && env.avahi_thread then [.avahi_resolve_address addr] else []

/-- The method `NetworkNameResolverThread::resolve_address_immediately`
(resolver_thread.cpp lines 156-189): the name and whether it was found by a
real lookup, `none` when both `getnameinfo` calls fail; a failing `malloc`
throws OutOfMemoryException. -/
def resolve_address_immediately (env : ResolverEnv) (addr : sockaddr_in) :
    Except BBException (Option (String × Bool)) × List ResolverCall :=
  match env.getnameinfo_namereqd addr with
  | some hbuf =>
    if env.malloc_fails hbuf then (.error .OutOfMemoryException, [])
    else (.ok (some (hbuf, true)), avahi_address_order env addr)
  | none =>
    match env.getnameinfo addr with
    | some hbuf =>
      if env.malloc_fails hbuf then (.error .OutOfMemoryException, [])
      else (.ok (some (hbuf, false)), avahi_address_order env addr)
    | none => (.ok none, avahi_address_order env addr)

/-- The two queues of the thread: `addrq`, a map from the IPv4 address to the
stored socket address, and `namesq`, a set of host names. -/
structure NetworkNameResolverThread where
  addrq : List (Nat × sockaddr_in)
  namesq : List String
  deriving DecidableEq, Repr

/-- The method `NetworkNameResolverThread::resolve_name` (resolver_thread.cpp
lines 197-208): the name is queued unless it is queued already. -/
def NetworkNameResolverThread.resolve_name (t : NetworkNameResolverThread) (name : String) :
    NetworkNameResolverThread :=
  if name ∈ t.namesq then t else { t with namesq := t.namesq ++ [name] }

/-- The method `NetworkNameResolverThread::resolve_address`
(resolver_thread.cpp lines 217-231): the address is queued under its IPv4
address unless that key is queued already. -/
def NetworkNameResolverThread.resolve_address (t : NetworkNameResolverThread)
    (addr : sockaddr_in) : NetworkNameResolverThread :=
  if (t.addrq.find? (fun e => decide (e.1 = addr.s_addr))).isSome then t
  else { t with addrq := t.addrq ++ [(addr.s_addr, addr)] }

/-- The first `while` loop of `loop` (resolver_thread.cpp lines 306-318) on
the address queue, with `fuel` bounding the iterations: outcome, queue left,
calls made. -/
def loop_addrq (env : ResolverEnv) :
    Nat → List (Nat × sockaddr_in) →
      Except BBException Unit × List (Nat × sockaddr_in) × List ResolverCall
  | 0, q => (.ok (), q, [])
  | _ + 1, [] => (.ok (), [], [])
  | fuel + 1, e :: rest =>
    match resolve_address_immediately env e.2 with
    | (.error ex, calls) => (.error ex, e :: rest, calls)
    | (.ok (some found), calls) =>
      ((loop_addrq env fuel rest).1, (loop_addrq env fuel rest).2.1,
        calls ++ [.addr_resolved e.2 found.1 found.2] ++ (loop_addrq env fuel rest).2.2)
    | (.ok none, calls) =>
      ((loop_addrq env fuel rest).1, (loop_addrq env fuel rest).2.1,
        calls ++ [.address_resolution_failed e.2] ++ (loop_addrq env fuel rest).2.2)

/-- The second `while` loop of `loop` (resolver_thread.cpp lines 322-341) on
the name queue, with `fuel` bounding the iterations: queue left and calls
made. -/
def loop_namesq (env : ResolverEnv) : Nat → List String → List String × List ResolverCall
  | 0, q => (q, [])
  | _ + 1, [] => ([], [])
  | fuel + 1, nqn :: rest =>
    match resolve_name_immediately env nqn with
    | (some addr, calls) =>
      ((loop_namesq env fuel rest).1,
        calls ++ [.name_resolved nqn addr] ++ (loop_namesq env fuel rest).2)
    | (none, calls) =>
      ((loop_namesq env fuel rest).1,
        calls ++ [.name_resolution_failed nqn] ++ (loop_namesq env fuel rest).2)

/-- Outcome of `loop`: return or exception, the queues afterwards, the calls
made. -/
structure LoopOutcome where
  result : Except BBException Unit
  thread : NetworkNameResolverThread
  calls : List ResolverCall
  deriving DecidableEq, Repr

/-- The method `NetworkNameResolverThread::loop` (resolver_thread.cpp lines
302-343): the address loop, then the name loop; each gets one unit of fuel
for every queued entry.  An exception out of the address loop ends the
call. -/
def NetworkNameResolverThread.loop (env : ResolverEnv) (t : NetworkNameResolverThread) :
    LoopOutcome :=
  match loop_addrq env t.addrq.length t.addrq with
  | (.error ex, aq, calls) => ⟨.error ex, ⟨aq, t.namesq⟩, calls⟩
  | (.ok (), aq, calls) =>
    ⟨.ok (), ⟨aq, (loop_namesq env t.namesq.length t.namesq).1⟩,
      calls ++ (loop_namesq env t.namesq.length t.namesq).2⟩

/-- A queued resolution operation: an address or a name. -/
inductive QueueEntry where
  | address (addr : sockaddr_in)
  | name (name : String)
  deriving DecidableEq, Repr

/-- The queue entry a callback of the resolver reports on; `none` for an
order to the Avahi thread, which is no callback. -/
def ResolverCall.reports_on : ResolverCall → Option QueueEntry
  | .addr_resolved addr _ _ => some (.address addr)
  | .address_resolution_failed addr => some (.address addr)
  | .name_resolved name _ => some (.name name)
  | .name_resolution_failed name => some (.name name)
  | .avahi_resolve_name _ => none
  | .avahi_resolve_address _ => none

/-- The entries queued in a thread, in processing order. -/
def NetworkNameResolverThread.entries (t : NetworkNameResolverThread) : List QueueEntry :=
  t.addrq.map (fun e => QueueEntry.address e.2) ++ t.namesq.map QueueEntry.name

/-- An environment for the scenarios: Avahi compiled in and supplied, a
resolver that knows the host "robot" at 10.0.0.1 and nothing else. -/
def scenario_env : ResolverEnv :=
  ⟨true, true,
   fun name => if name = "robot" then some ⟨167772161, 0⟩ else none,
   fun addr => if addr.s_addr = 167772161 then some "robot" else none,
   fun addr => if addr.s_addr = 3232235777 then some "192.168.1.1" else none,
   fun _ => false⟩

/-! ## Concrete scenarios -/

/-- Configuration used in the scenarios: a simple arena, 64 bytes for
each instance, inboxes of at most 8 messages. -/
def scenario_cfg : Config Arena :=
  ⟨arena_memmgr, fun _ => 64, 8⟩

/-- A fresh BlackBoard over an arena of 1024 bytes. -/
def scenario_bb : BlackBoard Arena :=
  BlackBoard.init ⟨1024, [], 0⟩

/-- Writer W and reader R opened on ("BatteryInterface", "robot1"). -/
def battery_bb : BlackBoard Arena :=
  run scenario_cfg scenario_bb
    [.open_for_writing "BatteryInterface" "robot1", .open_for_reading "BatteryInterface" "robot1"]

/-- The writer handle W of `battery_bb`. -/
def battery_writer : Interface :=
  ⟨"BatteryInterface", "robot1", 1, 1, true⟩

/-- The reader handle R of `battery_bb`. -/
def battery_reader : Interface :=
  ⟨"BatteryInterface", "robot1", 1, 2, false⟩

/-- Only a reader opened on ("BatteryInterface", "robot1"). -/
def reader_only_bb : BlackBoard Arena :=
  run scenario_cfg scenario_bb [.open_for_reading "BatteryInterface" "robot1"]

/-- The three writers the Dynamixel driver opens for servo 1 of chain
"chain" (driver_thread.cpp lines 90-98). -/
def servo_bb : BlackBoard Arena :=
  run scenario_cfg scenario_bb
    [.open_for_writing "DynamixelServoInterface" "/dynamixel/chain/1",
     .open_for_writing "LedInterface" "/dynamixel/chain/1",
     .open_for_writing "JointInterface" "/dynamixel/chain/1"]

/-- The driver thread with its one servo. -/
def servo_driver : DynamixelDriverThread :=
  ⟨[(1, ⟨⟨"DynamixelServoInterface", "/dynamixel/chain/1", 1, 1, true⟩,
         ⟨"LedInterface", "/dynamixel/chain/1", 2, 2, true⟩,
         ⟨"JointInterface", "/dynamixel/chain/1", 3, 3, true⟩⟩)]⟩

/-- The servo BlackBoard after a GotoMessage was transmitted and queued. -/
def servo_bb_queued : BlackBoard Arena :=
  (transmit (local_msgmgr scenario_cfg servo_driver.listener)
    ⟨.GotoMessage, 1, [90], 0⟩ servo_bb).state

/-- A configuration whose inboxes hold one message. -/
def small_cfg : Config Arena :=
  ⟨arena_memmgr, fun _ => 64, 1⟩

/-- The Battery scenario with one message waiting in W's inbox. -/
def battery_bb_one : BlackBoard Arena :=
  (transmit (local_msgmgr small_cfg no_listener) ⟨.PushButtonMessage, 1, [], 0⟩ battery_bb).state

/-- The SetValue message with payload 42 of the design document's scenario;
the Battery interface has no such message class. -/
def set_value_42 : Message :=
  ⟨.other "SetValue", 0, [42], 0⟩

/-- The calls of qa_bb_notify.cpp lines 151-165: six writers and two readers
on TestInterface instances. -/
def qa_ops : List Op :=
  [.open_for_writing "TestInterface" "SomeID 1",
   .open_for_reading "TestInterface" "SomeID 1",
   .open_for_writing "TestInterface" "SomeID 2",
   .open_for_reading "TestInterface" "SomeID reader 1",
   .open_for_writing "TestInterface" "SomeID 3",
   .open_for_writing "TestInterface" "AnotherID 1",
   .open_for_writing "TestInterface" "AnotherID 2",
   .open_for_writing "TestInterface" "AnotherID 3"]

/-- The BlackBoard of the QA program after its interfaces are opened. -/
def qa_bb : BlackBoard Arena :=
  run scenario_cfg scenario_bb qa_ops

/-- A BlackBoard whose arena has room for exactly one instance, with a
writer opened on ("TestInterface", "SomeID 1"). -/
def tiny_bb : BlackBoard Arena :=
  run scenario_cfg (BlackBoard.init ⟨64, [], 0⟩) [.open_for_writing "TestInterface" "SomeID 1"]

/-- The driver configuration of the scenarios: chain "chain". -/
def driver_cfg : DriverConfig :=
  ⟨"chain", false, true⟩

/-- The driver thread after `init` found the servos 1 and 2. -/
def two_servo_driver : DynamixelDriverThread :=
  ⟨[(1, ⟨⟨"DynamixelServoInterface", "/dynamixel/chain/1", 1, 1, true⟩,
         ⟨"LedInterface", "/dynamixel/chain/1", 2, 2, true⟩,
         ⟨"JointInterface", "/dynamixel/chain/1", 3, 3, true⟩⟩),
    (2, ⟨⟨"DynamixelServoInterface", "/dynamixel/chain/2", 4, 4, true⟩,
         ⟨"LedInterface", "/dynamixel/chain/2", 5, 5, true⟩,
         ⟨"JointInterface", "/dynamixel/chain/2", 6, 6, true⟩⟩)]⟩

/-! ## Lemmas: registry lookups -/

theorem find_serial_modify (k n : Nat) (f : Instance → Instance)
    (hf : ∀ x, (f x).serial = x.serial) (l : List Instance) :
    (modify_instance k f l).find? (fun x => decide (x.serial = n)) =
      if k = n then (l.find? (fun x => decide (x.serial = n))).map f
      else l.find? (fun x => decide (x.serial = n)) := by
  induction l with
  | nil => simp [modify_instance]
  | cons x xs ih =>
    by_cases hk : x.serial = k
    · by_cases hn : k = n
      · subst hk; subst hn; simp [modify_instance, hf]
      · have hx : ¬ (f x).serial = n := fun h => hn (hk ▸ (hf x ▸ h))
        simp only [modify_instance, if_pos hk, if_neg hn]
        have hx2 : ¬ x.serial = n := fun h => hn (hk ▸ h)
        simp [List.find?_cons, hx, hx2]
    · by_cases hn : x.serial = n
      · have hkn : ¬ k = n := fun h => hk (h ▸ hn)
        simp only [modify_instance, if_neg hk, if_neg hkn]
        simp [hn]
      · simp only [modify_instance, hk, if_false, List.find?_cons, hn, decide_False, ih]

theorem instance_for_serial_modify {μ : Type} (s : BlackBoard μ) (k n : Nat)
    (f : Instance → Instance) (hf : ∀ x, (f x).serial = x.serial) :
    instance_for_serial { s with instances := modify_instance k f s.instances } n =
      if k = n then (instance_for_serial s n).map f else instance_for_serial s n := by
  simp only [instance_for_serial]
  exact find_serial_modify k n f hf s.instances

theorem counter_of_msgq_flush {μ : Type} (w : Interface) (s : BlackBoard μ) (n : Nat) :
    counter_of (msgq_flush w s) n = counter_of s n := by
  unfold counter_of msgq_flush
  rw [instance_for_serial_modify s w.mem_serial n (fun x => { x with msgq := [] })
    (fun _ => rfl)]
  by_cases h : w.mem_serial = n
  · simp only [h, if_true]
    cases instance_for_serial s n <;> rfl
  · simp only [h, if_false]

theorem queue_of_msgq_flush {μ : Type} (w : Interface) (s : BlackBoard μ) (n : Nat) :
    queue_of (msgq_flush w s) n = if w.mem_serial = n then [] else queue_of s n := by
  unfold queue_of msgq_flush
  rw [instance_for_serial_modify s w.mem_serial n (fun x => { x with msgq := [] })
    (fun _ => rfl)]
  by_cases h : w.mem_serial = n
  · simp only [h, if_true]
    cases instance_for_serial s n <;> rfl
  · simp only [h, if_false]

/-! ## Lemmas: the message path of the local BlackBoard -/

theorem writer_for_mem_serial_ok {μ : Type} (n : Nat) (s : BlackBoard μ) (w : Interface)
    (h : writer_for_mem_serial n s = .ok w) : w.mem_serial = n := by
  unfold writer_for_mem_serial at h
  split at h
  · rename_i w1 hfind
    have hp := List.find?_some hfind
    simp only [Bool.and_eq_true, decide_eq_true_eq] at hp
    cases h
    exact hp.2
  · cases h

theorem transmit_result_state {σ ι μ : Type} (mm : BlackBoardMessageManager σ ι μ)
    (imo : InterfaceManagerOps σ ι) (m : μ) (s : σ) (him : mm.im = some imo) :
    (transmit mm m s).result = (transmit_try mm imo m s).result ∧
    (transmit mm m s).state = (transmit_try mm imo m s).state := by
  unfold transmit
  rw [him]
  simp only
  split
  · rename_i heq
    rw [heq]
    exact ⟨rfl, rfl⟩
  · exact ⟨rfl, rfl⟩

theorem transmit_local_no_writer {μ : Type} (cfg : Config μ) (listener : Listener)
    (m : Message) (s : BlackBoard μ) (e : BBException)
    (hw : writer_for_mem_serial m.recipient s = .error e) :
    (transmit (local_msgmgr cfg listener) m s).result = .error e ∧
    (transmit (local_msgmgr cfg listener) m s).state = s := by
  have h := transmit_result_state (local_msgmgr cfg listener) local_im m s rfl
  rw [h.1, h.2]
  simp [transmit_try, local_msgmgr, set_interface_manager, local_im, hw]

theorem transmit_local_declined {μ : Type} (cfg : Config μ) (listener : Listener)
    (m : Message) (s : BlackBoard μ) (w : Interface)
    (hw : writer_for_mem_serial m.recipient s = .ok w)
    (hd : (listener w m).enqueue = false) :
    (transmit (local_msgmgr cfg listener) m s).result = .ok 0 ∧
    (transmit (local_msgmgr cfg listener) m s).state = after_listener (listener w m) w s := by
  have h := transmit_result_state (local_msgmgr cfg listener) local_im m s rfl
  rw [h.1, h.2]
  simp [transmit_try, local_msgmgr, set_interface_manager, local_im, hw,
    notify_of_message_received, hd, after_listener]

theorem transmit_local_accepted {μ : Type} (cfg : Config μ) (listener : Listener)
    (m : Message) (s : BlackBoard μ) (w : Interface)
    (hw : writer_for_mem_serial m.recipient s = .ok w)
    (ha : (listener w m).enqueue = true) :
    (transmit (local_msgmgr cfg listener) m s).result =
      (msgq_append cfg w m (after_listener (listener w m) w s)).1 ∧
    (transmit (local_msgmgr cfg listener) m s).state =
      (msgq_append cfg w m (after_listener (listener w m) w s)).2 := by
  have h := transmit_result_state (local_msgmgr cfg listener) local_im m s rfl
  rw [h.1, h.2]
  simp [transmit_try, local_msgmgr, set_interface_manager, local_im, hw,
    notify_of_message_received, ha, after_listener]

theorem counter_of_after_listener {μ : Type} (reply : ListenerReply) (w : Interface)
    (s : BlackBoard μ) (n : Nat) :
    counter_of (after_listener reply w s) n = counter_of s n := by
  unfold after_listener
  split
  · exact counter_of_msgq_flush w s n
  · rfl

theorem queue_of_after_listener {μ : Type} (reply : ListenerReply) (w : Interface)
    (s : BlackBoard μ) (n : Nat) :
    queue_of (after_listener reply w s) n =
      if reply.flush = true ∧ w.mem_serial = n then [] else queue_of s n := by
  unfold after_listener
  by_cases hf : reply.flush = true
  · rw [if_pos hf, queue_of_msgq_flush]
    by_cases hn : w.mem_serial = n <;> simp [hf, hn]
  · rw [if_neg hf]
    simp [hf]

/-- What `msgq_append` does, in terms of inbox and id counter: it fails and
changes nothing, or it returns the successor of the counter, appends the
message with that id to the inbox of the writer's instance and advances the
counter, leaving the other instances alone. -/
theorem msgq_append_spec {μ : Type} (cfg : Config μ) (w : Interface) (m : Message)
    (s : BlackBoard μ) :
    ((∃ e, (msgq_append cfg w m s).1 = .error e) ∧ (msgq_append cfg w m s).2 = s) ∨
    ((msgq_append cfg w m s).1 = .ok (counter_of s w.mem_serial + 1) ∧
      (queue_of s w.mem_serial).length < cfg.msgq_capacity ∧
      (∀ n, counter_of (msgq_append cfg w m s).2 n =
        if w.mem_serial = n then counter_of s n + 1 else counter_of s n) ∧
      (∀ n, queue_of (msgq_append cfg w m s).2 n =
        if w.mem_serial = n then
          queue_of s n ++ [m.with_id (counter_of s w.mem_serial + 1)]
        else queue_of s n)) := by
  cases hi : instance_for_serial s w.mem_serial with
  | none =>
    have e : msgq_append cfg w m s = (.error .InterfaceNotOpenException, s) := by
      simp only [msgq_append, hi]
    rw [e]
    exact Or.inl ⟨⟨_, rfl⟩, rfl⟩
  | some inst =>
    by_cases hfull : cfg.msgq_capacity ≤ inst.msgq.length
    · have e : msgq_append cfg w m s = (.error .MessageQueueFullException, s) := by
        simp only [msgq_append, hi, if_pos hfull]
      rw [e]
      exact Or.inl ⟨⟨_, rfl⟩, rfl⟩
    · have e : msgq_append cfg w m s = (.ok (inst.last_msgid + 1), { s with
          instances := modify_instance w.mem_serial
            (fun x => { x with msgq := x.msgq ++ [{ m with id := x.last_msgid + 1 }]
                               last_msgid := x.last_msgid + 1 }) s.instances }) := by
        simp only [msgq_append, hi, if_neg hfull]
      rw [e]
      refine Or.inr ⟨?_, ?_, ?_, ?_⟩
      · simp [counter_of, hi]
      · simp only [queue_of, hi]
        omega
      · intro n
        unfold counter_of
        rw [instance_for_serial_modify s w.mem_serial n
          (fun x => { x with msgq := x.msgq ++ [{ m with id := x.last_msgid + 1 }]
                             last_msgid := x.last_msgid + 1 }) (fun _ => rfl)]
        by_cases hn : w.mem_serial = n
        · subst hn
          simp [hi]
        · simp [hn]
      · intro n
        unfold queue_of
        rw [instance_for_serial_modify s w.mem_serial n
          (fun x => { x with msgq := x.msgq ++ [{ m with id := x.last_msgid + 1 }]
                             last_msgid := x.last_msgid + 1 }) (fun _ => rfl)]
        by_cases hn : w.mem_serial = n
        · subst hn
          simp [hi, counter_of, Message.with_id]
        · simp [hn]

theorem flushed_by_messages {μ : Type} (m : Message) (reply : ListenerReply)
    (s : BlackBoard μ) (w : Interface) (hw : writer_for_mem_serial m.recipient s = .ok w) :
    (flushed_by m reply s).map Removal.message =
      if reply.flush = true then queue_of s m.recipient else [] := by
  have hs := writer_for_mem_serial_ok _ _ _ hw
  unfold flushed_by
  rw [hw]
  by_cases hf : reply.flush = true
  · simp only [hf, if_true, List.map_map, hs]
    have : (Removal.message ∘ Removal.flushed) = id := by
      funext x
      rfl
    rw [this, List.map_id]
  · simp [hf]

/-- One transmission on the local BlackBoard, in terms of inboxes and id
counters: either it is accepted, returns the successor of the recipient's
counter and queues the message behind what the listener left, or it is not
and only the listener's flush (if any) shows. -/
theorem transmit_reply_spec {μ : Type} (cfg : Config μ) (reply : ListenerReply) (m : Message)
    (s : BlackBoard μ) :
    (reply.enqueue = true ∧
      (transmit (local_msgmgr cfg (fun _ _ => reply)) m s).result =
        .ok (counter_of s m.recipient + 1) ∧
      (∀ n, counter_of (transmit (local_msgmgr cfg (fun _ _ => reply)) m s).state n =
        if m.recipient = n then counter_of s n + 1 else counter_of s n) ∧
      (flushed_by m reply s).map Removal.message ++
        queue_of (transmit (local_msgmgr cfg (fun _ _ => reply)) m s).state m.recipient =
        queue_of s m.recipient ++ [m.with_id (counter_of s m.recipient + 1)] ∧
      (∀ n, m.recipient ≠ n →
        queue_of (transmit (local_msgmgr cfg (fun _ _ => reply)) m s).state n = queue_of s n)) ∨
    ((reply.enqueue = false ∨
        ∃ e, (transmit (local_msgmgr cfg (fun _ _ => reply)) m s).result = .error e) ∧
      (∀ n, counter_of (transmit (local_msgmgr cfg (fun _ _ => reply)) m s).state n =
        counter_of s n) ∧
      (flushed_by m reply s).map Removal.message ++
        queue_of (transmit (local_msgmgr cfg (fun _ _ => reply)) m s).state m.recipient =
        queue_of s m.recipient ∧
      (∀ n, m.recipient ≠ n →
        queue_of (transmit (local_msgmgr cfg (fun _ _ => reply)) m s).state n = queue_of s n)) := by
  cases hw : writer_for_mem_serial m.recipient s with
  | error e =>
    have h := transmit_local_no_writer cfg (fun _ _ => reply) m s e hw
    right
    refine ⟨Or.inr ⟨e, h.1⟩, ?_, ?_, ?_⟩
    · intro n
      rw [h.2]
    · rw [h.2]
      simp [flushed_by, hw]
    · intro n _
      rw [h.2]
  | ok w =>
    have hs := writer_for_mem_serial_ok _ _ _ hw
    have hF := flushed_by_messages m reply s w hw
    have hq1 : ∀ n, m.recipient ≠ n → queue_of (after_listener reply w s) n = queue_of s n := by
      intro n hn
      rw [queue_of_after_listener]
      simp [hs, hn]
    have hq2 : (flushed_by m reply s).map Removal.message ++
        queue_of (after_listener reply w s) m.recipient = queue_of s m.recipient := by
      rw [hF, queue_of_after_listener]
      by_cases hf : reply.flush = true <;> simp [hf, hs]
    cases he : reply.enqueue with
    | false =>
      have h := transmit_local_declined cfg (fun _ _ => reply) m s w hw he
      right
      refine ⟨Or.inl rfl, ?_, ?_, ?_⟩
      · intro n
        rw [h.2]
        exact counter_of_after_listener reply w s n
      · rw [h.2]
        exact hq2
      · intro n hn
        rw [h.2]
        exact hq1 n hn
    | true =>
      have h := transmit_local_accepted cfg (fun _ _ => reply) m s w hw he
      rcases msgq_append_spec cfg w m (after_listener reply w s) with hA | hA
      · obtain ⟨⟨e, he1⟩, he2⟩ := hA
        right
        refine ⟨Or.inr ⟨e, by rw [h.1]; exact he1⟩, ?_, ?_, ?_⟩
        · intro n
          rw [h.2, he2]
          exact counter_of_after_listener reply w s n
        · rw [h.2, he2]
          exact hq2
        · intro n hn
          rw [h.2, he2]
          exact hq1 n hn
      · obtain ⟨h1, _, h3, h4⟩ := hA
        left
        refine ⟨rfl, ?_, ?_, ?_, ?_⟩
        · rw [h.1, h1, counter_of_after_listener, hs]
        · intro n
          rw [h.2, h3 n, counter_of_after_listener, hs]
        · rw [h.2, h4 m.recipient, counter_of_after_listener, hs]
          simp only [if_true]
          rw [← List.append_assoc, hq2]
        · intro n hn
          rw [h.2, h4 n, hs]
          simp only [hn, if_false]
          exact hq1 n hn

theorem msgq_empty_eq {μ : Type} (w : Interface) (s : BlackBoard μ) :
    msgq_empty w s = (queue_of s w.mem_serial).isEmpty := by
  unfold msgq_empty queue_of
  cases instance_for_serial s w.mem_serial <;> rfl

theorem msgq_first_eq {μ : Type} (w : Interface) (s : BlackBoard μ) :
    msgq_first w s = (queue_of s w.mem_serial).head? := by
  unfold msgq_first queue_of
  cases instance_for_serial s w.mem_serial <;> rfl

theorem msgq_size_eq {μ : Type} (w : Interface) (s : BlackBoard μ) :
    msgq_size w s = (queue_of s w.mem_serial).length := by
  unfold msgq_size queue_of
  cases instance_for_serial s w.mem_serial <;> rfl

theorem queue_of_msgq_pop {μ : Type} (w : Interface) (s : BlackBoard μ) (n : Nat) :
    queue_of (msgq_pop w s) n = if w.mem_serial = n then (queue_of s n).tail else queue_of s n := by
  unfold queue_of msgq_pop
  rw [instance_for_serial_modify s w.mem_serial n (fun x => { x with msgq := x.msgq.tail })
    (fun _ => rfl)]
  by_cases h : w.mem_serial = n
  · simp only [h, if_true]
    cases instance_for_serial s n <;> rfl
  · simp only [h, if_false]

theorem counter_of_msgq_pop {μ : Type} (w : Interface) (s : BlackBoard μ) (n : Nat) :
    counter_of (msgq_pop w s) n = counter_of s n := by
  unfold counter_of msgq_pop
  rw [instance_for_serial_modify s w.mem_serial n (fun x => { x with msgq := x.msgq.tail })
    (fun _ => rfl)]
  by_cases h : w.mem_serial = n
  · simp only [h, if_true]
    cases instance_for_serial s n <;> rfl
  · simp only [h, if_false]

/-- With at least one unit of fuel per queued message the message loop
handles the whole inbox in order and leaves it empty; other inboxes and all
id counters are untouched. -/
theorem exec_act_loop_spec {μ : Type} (w : Interface) (fuel : Nat) (s : BlackBoard μ)
    (hf : (queue_of s w.mem_serial).length ≤ fuel) :
    (exec_act_loop w fuel s).1 = queue_of s w.mem_serial ∧
    (∀ n, queue_of (exec_act_loop w fuel s).2 n =
      if w.mem_serial = n then [] else queue_of s n) ∧
    (∀ n, counter_of (exec_act_loop w fuel s).2 n = counter_of s n) := by
  induction fuel generalizing s with
  | zero =>
    have hnil : queue_of s w.mem_serial = [] := List.length_eq_zero.mp (Nat.le_zero.mp hf)
    refine ⟨by simp [exec_act_loop, hnil], ?_, fun _ => rfl⟩
    intro n
    by_cases hn : w.mem_serial = n
    · subst hn
      simp [exec_act_loop, hnil]
    · simp [exec_act_loop, hn]
  | succ k ih =>
    cases hq : queue_of s w.mem_serial with
    | nil =>
      have he : msgq_empty w s = true := by rw [msgq_empty_eq, hq]; rfl
      refine ⟨by simp [exec_act_loop, he], ?_, ?_⟩
      · intro n
        by_cases hn : w.mem_serial = n
        · subst hn
          simp [exec_act_loop, he, hq]
        · simp [exec_act_loop, he, hn]
      · intro n
        simp [exec_act_loop, he]
    | cons m ms =>
      have he : msgq_empty w s = false := by rw [msgq_empty_eq, hq]; rfl
      have hfst : msgq_first w s = some m := by rw [msgq_first_eq, hq]; rfl
      have hpop : queue_of (msgq_pop w s) w.mem_serial = ms := by
        rw [queue_of_msgq_pop, hq]
        simp
      have hlen : (queue_of (msgq_pop w s) w.mem_serial).length ≤ k := by
        rw [hpop]
        rw [hq] at hf
        simp at hf
        omega
      obtain ⟨i1, i2, i3⟩ := ih (msgq_pop w s) hlen
      have hstep : exec_act_loop w (k + 1) s =
          (m :: (exec_act_loop w k (msgq_pop w s)).1, (exec_act_loop w k (msgq_pop w s)).2) := by
        simp [exec_act_loop, he, hfst]
      rw [hstep]
      refine ⟨by simp [i1, hpop], ?_, ?_⟩
      · intro n
        simp only
        rw [i2 n]
        by_cases hn : w.mem_serial = n
        · simp [hn]
        · simp [hn, queue_of_msgq_pop]
      · intro n
        simp only
        rw [i3 n, counter_of_msgq_pop]

theorem exec_act_spec {μ : Type} (w : Interface) (s : BlackBoard μ) :
    (exec_act w s).1 = queue_of s w.mem_serial ∧
    (∀ n, queue_of (exec_act w s).2 n = if w.mem_serial = n then [] else queue_of s n) ∧
    (∀ n, counter_of (exec_act w s).2 n = counter_of s n) := by
  unfold exec_act
  exact exec_act_loop_spec w (msgq_size w s) s (by rw [msgq_size_eq])

theorem run_msgs_transmit_accepted {μ : Type} (cfg : Config μ) (n : Nat) (m : Message)
    (reply : ListenerReply) (ops : List MsgOp) (s : BlackBoard μ) (id : Nat)
    (hn : m.recipient = n)
    (hr : (transmit (local_msgmgr cfg (fun _ _ => reply)) m s).result = .ok id)
    (ha : reply.enqueue = true) :
    run_msgs cfg n (.transmit m reply :: ops) s =
      (⟨m.with_id id ::
          (run_msgs cfg n ops (transmit (local_msgmgr cfg (fun _ _ => reply)) m s).state).1.accepted,
        flushed_by m reply s ++
          (run_msgs cfg n ops (transmit (local_msgmgr cfg (fun _ _ => reply)) m s).state).1.removed⟩,
       (run_msgs cfg n ops (transmit (local_msgmgr cfg (fun _ _ => reply)) m s).state).2) := by
  simp only [run_msgs, hn, if_true, hr, ha]

theorem run_msgs_transmit_rejected {μ : Type} (cfg : Config μ) (n : Nat) (m : Message)
    (reply : ListenerReply) (ops : List MsgOp) (s : BlackBoard μ)
    (hn : m.recipient = n)
    (hr : reply.enqueue = false ∨
      ∃ e, (transmit (local_msgmgr cfg (fun _ _ => reply)) m s).result = .error e) :
    run_msgs cfg n (.transmit m reply :: ops) s =
      (⟨(run_msgs cfg n ops (transmit (local_msgmgr cfg (fun _ _ => reply)) m s).state).1.accepted,
        flushed_by m reply s ++
          (run_msgs cfg n ops (transmit (local_msgmgr cfg (fun _ _ => reply)) m s).state).1.removed⟩,
       (run_msgs cfg n ops (transmit (local_msgmgr cfg (fun _ _ => reply)) m s).state).2) := by
  simp only [run_msgs, hn, if_true]
  rcases hr with hr | ⟨e, hr⟩
  · cases hres : (transmit (local_msgmgr cfg (fun _ _ => reply)) m s).result <;> simp [hr]
  · simp [hr]

theorem run_msgs_transmit_other {μ : Type} (cfg : Config μ) (n : Nat) (m : Message)
    (reply : ListenerReply) (ops : List MsgOp) (s : BlackBoard μ)
    (hn : m.recipient ≠ n) :
    run_msgs cfg n (.transmit m reply :: ops) s =
      run_msgs cfg n ops (transmit (local_msgmgr cfg (fun _ _ => reply)) m s).state := by
  simp only [run_msgs, hn, if_false]

/-- The two facts every sequence of events satisfies on every instance: the
inbox is a FIFO (what was removed, followed by what is still queued, is what
was queued at the start followed by what was accepted), and the ids returned
for accepted messages count up from the instance's counter. -/
theorem run_msgs_spec {μ : Type} (cfg : Config μ) (n : Nat) (ops : List MsgOp)
    (s : BlackBoard μ) :
    (run_msgs cfg n ops s).1.removed.map Removal.message ++ queue_of (run_msgs cfg n ops s).2 n =
      queue_of s n ++ (run_msgs cfg n ops s).1.accepted ∧
    (run_msgs cfg n ops s).1.accepted.map (fun m => m.id) =
      List.range' (counter_of s n + 1) (run_msgs cfg n ops s).1.accepted.length := by
  induction ops generalizing s with
  | nil => simp [run_msgs]
  | cons op ops ih =>
    cases op with
    | transmit m reply =>
      by_cases hn : m.recipient = n
      · obtain ⟨i1, i2⟩ := ih (transmit (local_msgmgr cfg (fun _ _ => reply)) m s).state
        rcases transmit_reply_spec cfg reply m s with hA | hR
        · obtain ⟨ha, hres, hc, hq, _⟩ := hA
          rw [run_msgs_transmit_accepted cfg n m reply ops s _ hn hres ha]
          rw [hn] at hq hc
          have hc1 := hc n
          simp only [if_true] at hc1
          constructor
          · simp only [List.map_append, List.append_assoc]
            rw [i1, ← List.append_assoc, hq, hn]
            simp
          · simp only [List.map_cons, List.length_cons, Message.with_id]
            rw [i2, hc1, hn, List.range'_succ]
        · obtain ⟨hr, hc, hq, _⟩ := hR
          rw [run_msgs_transmit_rejected cfg n m reply ops s hn hr]
          rw [hn] at hq
          constructor
          · simp only [List.map_append, List.append_assoc]
            rw [i1, ← List.append_assoc, hq]
          · simp only
            rw [i2, hc n]
      · rw [run_msgs_transmit_other cfg n m reply ops s hn]
        obtain ⟨i1, i2⟩ := ih (transmit (local_msgmgr cfg (fun _ _ => reply)) m s).state
        have hq : queue_of (transmit (local_msgmgr cfg (fun _ _ => reply)) m s).state n =
            queue_of s n := by
          rcases transmit_reply_spec cfg reply m s with hA | hR
          · exact hA.2.2.2.2 n hn
          · exact hR.2.2.2 n hn
        have hc : counter_of (transmit (local_msgmgr cfg (fun _ _ => reply)) m s).state n =
            counter_of s n := by
          rcases transmit_reply_spec cfg reply m s with hA | hR
          · have := hA.2.2.1 n
            simpa [hn] using this
          · exact hR.2.1 n
        rw [hq] at i1
        rw [hc] at i2
        exact ⟨i1, i2⟩
    | exec_act w =>
      obtain ⟨e1, e2, e3⟩ := exec_act_spec w s
      obtain ⟨i1, i2⟩ := ih (exec_act w s).2
      by_cases hn : w.mem_serial = n
      · have hq := e2 n
        simp only [hn, if_true] at hq
        simp only [run_msgs, hn, if_true]
        constructor
        · simp only [List.map_append, List.map_map, List.append_assoc]
          rw [i1, hq, e1, hn]
          have : (Removal.message ∘ Removal.seen) = id := by
            funext x
            rfl
          rw [this, List.map_id]
          simp
        · rw [i2, e3 n]
      · have hq := e2 n
        simp only [hn, if_false] at hq
        simp only [run_msgs, hn, if_false]
        rw [hq] at i1
        rw [e3 n] at i2
        exact ⟨i1, i2⟩

theorem seen_messages_sublist (rs : List Removal) :
    List.Sublist (seen_messages rs) (rs.map Removal.message) := by
  induction rs with
  | nil => exact List.Sublist.slnil
  | cons r rs ih =>
    cases r with
    | seen m => exact List.Sublist.cons₂ m ih
    | flushed m => exact List.Sublist.cons m ih

theorem seen_messages_no_flush (rs : List Removal)
    (h : ∀ r ∈ rs, r.is_seen = true) :
    seen_messages rs = rs.map Removal.message := by
  induction rs with
  | nil => rfl
  | cons r rs ih =>
    cases r with
    | seen m =>
      simp only [seen_messages, List.map_cons, Removal.message]
      rw [ih (fun r hr => h r (List.mem_cons_of_mem _ hr))]
    | flushed m => exact absurd (h _ (List.mem_cons_self _ _)) (by simp [Removal.is_seen])

theorem transmit_calls_when_accepted {σ ι μ : Type}
    (mm : BlackBoardMessageManager σ ι μ)
    (imo : InterfaceManagerOps σ ι) (message : μ) (writer : ι) (s s1 s2 : σ)
    (him : mm.im = some imo)
    (hw : imo.writer_for_mem_serial (mm.recipient message) s = (.ok writer, s1))
    (hn : mm.notify_of_message_received writer message s1 = (.ok true, s2)) :
    (transmit mm message s).calls =
      [.writer_for_mem_serial (mm.recipient message),
       .notify_of_message_received writer message,
       .msgq_append writer message] ++
      (if (mm.msgq_append writer message s2).1 = .error .BlackBoardNoWritingInstanceException
       then [.log_warn message] else []) := by
  unfold transmit
  rw [him]
  simp only [transmit_try, hw, hn]
  rcases hr : (mm.msgq_append writer message s2).1 with e | v
  · by_cases he : e = .BlackBoardNoWritingInstanceException
    · subst he
      simp [hr]
    · cases e <;> simp_all
  · simp [hr]

/-! ## Lemmas: the registry stays consistent -/

theorem modify_instance_eq_map (k : Nat) (f : Instance → Instance) (l : List Instance)
    (hnd : (l.map (fun x => x.serial)).Nodup) :
    modify_instance k f l = l.map (fun x => if x.serial = k then f x else x) := by
  induction l with
  | nil => rfl
  | cons x xs ih =>
    rw [List.map_cons, List.nodup_cons] at hnd
    by_cases hk : x.serial = k
    · simp only [modify_instance, if_pos hk, List.map_cons]
      have hxs : xs.map (fun y => if y.serial = k then f y else y) = xs.map id := by
        apply List.map_congr_left
        intro y hy
        have hne : ¬ y.serial = k := by
          intro hyk
          apply hnd.1
          rw [hk, ← hyk]
          exact List.mem_map_of_mem (fun x => x.serial) hy
        simp [hne]
      rw [hxs, List.map_id]
    · simp only [modify_instance, if_neg hk, List.map_cons]
      rw [ih hnd.2]

theorem modify_instance_map_serial (k : Nat) (f : Instance → Instance)
    (hf : ∀ x, (f x).serial = x.serial) (l : List Instance) :
    (modify_instance k f l).map (fun x => x.serial) = l.map (fun x => x.serial) := by
  induction l with
  | nil => rfl
  | cons x xs ih =>
    by_cases hk : x.serial = k
    · simp [modify_instance, hk, hf]
    · simp [modify_instance, hk, ih]

theorem modify_instance_map_key (k : Nat) (f : Instance → Instance)
    (hf : ∀ x, (f x).type = x.type ∧ (f x).id = x.id) (l : List Instance) :
    (modify_instance k f l).map (fun x => (x.type, x.id)) = l.map (fun x => (x.type, x.id)) := by
  induction l with
  | nil => rfl
  | cons x xs ih =>
    by_cases hk : x.serial = k
    · simp [modify_instance, hk, (hf x).1, (hf x).2]
    · simp [modify_instance, hk, ih]

theorem mem_modify_instance (k : Nat) (f : Instance → Instance) (l : List Instance)
    (hnd : (l.map (fun x => x.serial)).Nodup) (y : Instance) :
    y ∈ modify_instance k f l ↔ ∃ x ∈ l, (if x.serial = k then f x else x) = y := by
  rw [modify_instance_eq_map k f l hnd, List.mem_map]

theorem writer_count_append (hs : List Interface) (h0 : Interface) (n : Nat) :
    writer_count (hs ++ [h0]) n =
      writer_count hs n + if (h0.write_access = true ∧ h0.mem_serial = n) then 1 else 0 := by
  unfold writer_count
  rw [List.countP_append, List.countP_cons, List.countP_nil]
  by_cases h1 : h0.write_access = true <;> by_cases h2 : h0.mem_serial = n <;> simp [h1, h2]

theorem reader_count_append (hs : List Interface) (h0 : Interface) (n : Nat) :
    reader_count (hs ++ [h0]) n =
      reader_count hs n + if (h0.write_access = false ∧ h0.mem_serial = n) then 1 else 0 := by
  unfold reader_count
  rw [List.countP_append, List.countP_cons, List.countP_nil]
  by_cases h1 : h0.write_access = true <;> by_cases h2 : h0.mem_serial = n <;> simp [h1, h2]

theorem writer_count_erase (hs : List Interface) (h0 : Interface) (n : Nat) (hm : h0 ∈ hs) :
    writer_count hs n =
      writer_count (hs.erase h0) n +
        if (h0.write_access = true ∧ h0.mem_serial = n) then 1 else 0 := by
  unfold writer_count
  rw [(List.perm_cons_erase hm).countP_eq, List.countP_cons]
  by_cases h1 : h0.write_access = true <;> by_cases h2 : h0.mem_serial = n <;> simp [h1, h2]

theorem reader_count_erase (hs : List Interface) (h0 : Interface) (n : Nat) (hm : h0 ∈ hs) :
    reader_count hs n =
      reader_count (hs.erase h0) n +
        if (h0.write_access = false ∧ h0.mem_serial = n) then 1 else 0 := by
  unfold reader_count
  rw [(List.perm_cons_erase hm).countP_eq, List.countP_cons]
  by_cases h1 : h0.write_access = true <;> by_cases h2 : h0.mem_serial = n <;> simp [h1, h2]

theorem find_instance_some {μ : Type} (s : BlackBoard μ) (t i : String) (x : Instance)
    (h : find_instance s t i = some x) : x ∈ s.instances ∧ x.type = t ∧ x.id = i := by
  unfold find_instance at h
  have h1 := List.mem_of_find?_eq_some h
  have h2 := List.find?_some h
  simp only [decide_eq_true_eq] at h2
  exact ⟨h1, h2.1, h2.2⟩

theorem find_instance_none {μ : Type} (s : BlackBoard μ) (t i : String)
    (h : find_instance s t i = none) : (t, i) ∉ s.instances.map (fun x => (x.type, x.id)) := by
  unfold find_instance at h
  rw [List.find?_eq_none] at h
  intro hm
  rw [List.mem_map] at hm
  obtain ⟨x, hx, hk⟩ := hm
  apply h x hx
  simp only [Prod.mk.injEq] at hk
  simp [hk.1, hk.2]

theorem instance_for_serial_some {μ : Type} (s : BlackBoard μ) (n : Nat) (x : Instance)
    (h : instance_for_serial s n = some x) : x ∈ s.instances ∧ x.serial = n := by
  unfold instance_for_serial at h
  have h1 := List.mem_of_find?_eq_some h
  have h2 := List.find?_some h
  simp only [decide_eq_true_eq] at h2
  exact ⟨h1, h2⟩

theorem WellFormed.same_serial {μ : Type} {s : BlackBoard μ} (wf : WellFormed s)
    (x y : Instance) (hx : x ∈ s.instances) (hy : y ∈ s.instances)
    (h : x.serial = y.serial) : x = y :=
  List.inj_on_of_nodup_map wf.serial_nodup hx hy h

theorem WellFormed.same_key {μ : Type} {s : BlackBoard μ} (wf : WellFormed s)
    (x y : Instance) (hx : x ∈ s.instances) (hy : y ∈ s.instances)
    (ht : x.type = y.type) (hi : x.id = y.id) : x = y :=
  List.inj_on_of_nodup_map wf.key_nodup hx hy (by simp [ht, hi])

theorem WellFormed.no_handle_of_no_instance {μ : Type} {s : BlackBoard μ} (wf : WellFormed s)
    (n : Nat) (hn : ∀ x ∈ s.instances, x.serial ≠ n) :
    writer_count s.handles n = 0 ∧ reader_count s.handles n = 0 := by
  unfold writer_count reader_count
  rw [List.countP_eq_zero, List.countP_eq_zero]
  constructor
  · intro h hh hp
    simp only [Bool.and_eq_true, decide_eq_true_eq] at hp
    obtain ⟨x, hx, hs, _⟩ := wf.handle_inst h hh
    exact hn x hx (hs.trans hp.2)
  · intro h hh hp
    simp only [Bool.and_eq_true, decide_eq_true_eq] at hp
    obtain ⟨x, hx, hs, _⟩ := wf.handle_inst h hh
    exact hn x hx (hs.trans hp.2)

theorem WellFormed.init {μ : Type} (m : μ) : WellFormed (BlackBoard.init m) := by
  constructor <;> simp [BlackBoard.init]

theorem wf_add_handle {μ : Type} (s : BlackBoard μ) (wf : WellFormed s) (inst : Instance)
    (hin : inst ∈ s.instances) (g : Instance → Instance) (h0 : Interface)
    (hg_ser : ∀ x, (g x).serial = x.serial)
    (hg_key : ∀ x, (g x).type = x.type ∧ (g x).id = x.id)
    (h0_ser : h0.mem_serial = inst.serial) (h0_t : h0.type = inst.type)
    (h0_i : h0.id = inst.id) (h0_is : h0.instance_serial = s.next_instance_serial)
    (hw : (if (g inst).writer_open then 1 else 0) =
      (if inst.writer_open then 1 else 0) + (if h0.write_access = true then 1 else 0))
    (hr : (g inst).num_readers =
      inst.num_readers + (if h0.write_access = false then 1 else 0)) :
    WellFormed { s with
      instances := modify_instance inst.serial g s.instances
      handles := s.handles ++ [h0]
      next_instance_serial := s.next_instance_serial + 1 } := by
  have hmem := mem_modify_instance inst.serial g s.instances wf.serial_nodup
  constructor
  · intro y hy
    obtain ⟨x, hx, rfl⟩ := (hmem y).mp hy
    have := wf.serial_lt x hx
    by_cases hk : x.serial = inst.serial <;> simp [hk, hg_ser] <;> omega
  · show ((modify_instance inst.serial g s.instances).map (fun x => x.serial)).Nodup
    rw [modify_instance_map_serial _ _ hg_ser]
    exact wf.serial_nodup
  · show ((modify_instance inst.serial g s.instances).map (fun x => (x.type, x.id))).Nodup
    rw [modify_instance_map_key _ _ hg_key]
    exact wf.key_nodup
  · show (s.handles ++ [h0]).Nodup
    rw [List.nodup_append]
    refine ⟨wf.handle_nodup, List.nodup_singleton _, ?_⟩
    intro a ha hb
    rw [List.mem_singleton] at hb
    subst hb
    have := wf.handle_lt a ha
    omega
  · intro h hh
    show h.instance_serial < s.next_instance_serial + 1
    rcases List.mem_append.mp hh with hh | hh
    · have := wf.handle_lt h hh
      omega
    · rw [List.mem_singleton] at hh
      subst hh
      omega
  · intro h hh
    show ∃ x ∈ modify_instance inst.serial g s.instances, _
    have key : ∀ x ∈ s.instances, x.serial = h.mem_serial → x.type = h.type → x.id = h.id →
        ∃ y ∈ modify_instance inst.serial g s.instances,
          y.serial = h.mem_serial ∧ y.type = h.type ∧ y.id = h.id := by
      intro x hx h1 h2 h3
      refine ⟨if x.serial = inst.serial then g x else x, (hmem _).mpr ⟨x, hx, rfl⟩, ?_⟩
      by_cases hk : x.serial = inst.serial
      · simp only [if_pos hk, hg_ser, (hg_key x).1, (hg_key x).2]
        exact ⟨h1, h2, h3⟩
      · simp only [if_neg hk]
        exact ⟨h1, h2, h3⟩
    rcases List.mem_append.mp hh with hh | hh
    · obtain ⟨x, hx, h1, h2, h3⟩ := wf.handle_inst h hh
      exact key x hx h1 h2 h3
    · rw [List.mem_singleton] at hh
      subst hh
      exact key inst hin h0_ser.symm h0_t.symm h0_i.symm
  · intro y hy
    show writer_count (s.handles ++ [h0]) y.serial = _
    obtain ⟨x, hx, rfl⟩ := (hmem y).mp hy
    rw [writer_count_append]
    by_cases hk : x.serial = inst.serial
    · have hxi : x = inst := wf.same_serial x inst hx hin hk
      subst hxi
      simp only [if_true, hg_ser, h0_ser, and_true]
      rw [wf.writers x hx, hw]
    · have hne : ¬ h0.mem_serial = x.serial := by
        rw [h0_ser]
        exact fun h => hk h.symm
      simp only [if_neg hk, hne, and_false, if_false, Nat.add_zero]
      exact wf.writers x hx
  · intro y hy
    show reader_count (s.handles ++ [h0]) y.serial = _
    obtain ⟨x, hx, rfl⟩ := (hmem y).mp hy
    rw [reader_count_append]
    by_cases hk : x.serial = inst.serial
    · have hxi : x = inst := wf.same_serial x inst hx hin hk
      subst hxi
      simp only [if_true, hg_ser, h0_ser, and_true]
      rw [wf.readers x hx, hr]
    · have hne : ¬ h0.mem_serial = x.serial := by
        rw [h0_ser]
        exact fun h => hk h.symm
      simp only [if_neg hk, hne, and_false, if_false, Nat.add_zero]
      exact wf.readers x hx

theorem wf_add_instance {μ : Type} (s : BlackBoard μ) (wf : WellFormed s) (mem1 : μ)
    (t i : String) (chunk : Nat) (wa : Bool)
    (hnew : (t, i) ∉ s.instances.map (fun x => (x.type, x.id))) :
    WellFormed
      ({ mem := mem1
         instances := s.instances ++
           [⟨t, i, s.next_mem_serial, chunk, if wa then 0 else 1, wa, [], 0⟩]
         handles := s.handles ++ [⟨t, i, s.next_mem_serial, s.next_instance_serial, wa⟩]
         next_mem_serial := s.next_mem_serial + 1
         next_instance_serial := s.next_instance_serial + 1 } : BlackBoard μ) := by
  have hfresh : ∀ x ∈ s.instances, x.serial ≠ s.next_mem_serial := by
    intro x hx
    have := wf.serial_lt x hx
    omega
  obtain ⟨hw0, hr0⟩ := wf.no_handle_of_no_instance s.next_mem_serial hfresh
  constructor
  · intro y hy
    show y.serial < s.next_mem_serial + 1
    rcases List.mem_append.mp hy with hy | hy
    · have := wf.serial_lt y hy
      omega
    · rw [List.mem_singleton] at hy
      subst hy
      simp
  · show ((s.instances ++ [_]).map (fun (x : Instance) => x.serial)).Nodup
    rw [List.map_append, List.nodup_append]
    refine ⟨wf.serial_nodup, by simp, ?_⟩
    intro a ha hb
    simp only [List.map_cons, List.map_nil, List.mem_singleton] at hb
    rw [List.mem_map] at ha
    obtain ⟨x, hx, rfl⟩ := ha
    exact hfresh x hx hb
  · show ((s.instances ++ [_]).map (fun (x : Instance) => (x.type, x.id))).Nodup
    rw [List.map_append, List.nodup_append]
    refine ⟨wf.key_nodup, by simp, ?_⟩
    intro a ha hb
    simp only [List.map_cons, List.map_nil, List.mem_singleton] at hb
    subst hb
    exact hnew ha
  · show (s.handles ++ [_]).Nodup
    rw [List.nodup_append]
    refine ⟨wf.handle_nodup, List.nodup_singleton _, ?_⟩
    intro a ha hb
    rw [List.mem_singleton] at hb
    subst hb
    have := wf.handle_lt _ ha
    simp at this
  · intro h hh
    show h.instance_serial < s.next_instance_serial + 1
    rcases List.mem_append.mp hh with hh | hh
    · have := wf.handle_lt h hh
      omega
    · rw [List.mem_singleton] at hh
      subst hh
      simp
  · intro h hh
    show ∃ x ∈ s.instances ++ [_], _
    rcases List.mem_append.mp hh with hh | hh
    · obtain ⟨x, hx, hrest⟩ := wf.handle_inst h hh
      exact ⟨x, List.mem_append_left _ hx, hrest⟩
    · rw [List.mem_singleton] at hh
      subst hh
      exact ⟨_, List.mem_append_right _ (List.mem_singleton.mpr rfl), rfl, rfl, rfl⟩
  · intro y hy
    show writer_count (s.handles ++ [_]) y.serial = _
    rw [writer_count_append]
    rcases List.mem_append.mp hy with hy | hy
    · have hne : ¬ s.next_mem_serial = y.serial := fun h => hfresh y hy h.symm
      simp only [hne, and_false, if_false, Nat.add_zero]
      exact wf.writers y hy
    · rw [List.mem_singleton] at hy
      subst hy
      simp only [and_true]
      rw [hw0]
      cases wa <;> simp
  · intro y hy
    show reader_count (s.handles ++ [_]) y.serial = _
    rw [reader_count_append]
    rcases List.mem_append.mp hy with hy | hy
    · have hne : ¬ s.next_mem_serial = y.serial := fun h => hfresh y hy h.symm
      simp only [hne, and_false, if_false, Nat.add_zero]
      exact wf.readers y hy
    · rw [List.mem_singleton] at hy
      subst hy
      simp only [and_true]
      rw [hr0]
      cases wa <;> simp

theorem open_for_writing_wf {μ : Type} (cfg : Config μ) (t i : String) (s : BlackBoard μ)
    (wf : WellFormed s) : WellFormed (open_for_writing cfg t i s).2 := by
  unfold open_for_writing
  cases hf : find_instance s t i with
  | some inst =>
    obtain ⟨hin, ht, hi⟩ := find_instance_some s t i inst hf
    by_cases hwo : inst.writer_open = true
    · simp only [hwo, if_true]
      exact wf
    · simp only [hwo]
      exact wf_add_handle s wf inst hin (fun x => { x with writer_open := true })
        ⟨t, i, inst.serial, s.next_instance_serial, true⟩ (fun _ => rfl) (fun _ => ⟨rfl, rfl⟩)
        rfl ht.symm hi.symm rfl (by simp [hwo]) (by simp)
  | none =>
    cases ha : cfg.memmgr.alloc (cfg.schema_size t) s.mem with
    | none => exact wf
    | some r =>
      obtain ⟨chunk, mem1⟩ := r
      exact wf_add_instance s wf mem1 t i chunk true (find_instance_none s t i hf)

theorem open_for_reading_wf {μ : Type} (cfg : Config μ) (t i : String) (s : BlackBoard μ)
    (wf : WellFormed s) : WellFormed (open_for_reading cfg t i s).2 := by
  unfold open_for_reading
  cases hf : find_instance s t i with
  | some inst =>
    obtain ⟨hin, ht, hi⟩ := find_instance_some s t i inst hf
    exact wf_add_handle s wf inst hin (fun x => { x with num_readers := x.num_readers + 1 })
      ⟨t, i, inst.serial, s.next_instance_serial, false⟩ (fun _ => rfl) (fun _ => ⟨rfl, rfl⟩)
      rfl ht.symm hi.symm rfl (by simp) (by simp)
  | none =>
    cases ha : cfg.memmgr.alloc (cfg.schema_size t) s.mem with
    | none => exact wf
    | some r =>
      obtain ⟨chunk, mem1⟩ := r
      exact wf_add_instance s wf mem1 t i chunk false (find_instance_none s t i hf)

theorem release_serial (h : Interface) (x : Instance) : (release h x).serial = x.serial := by
  unfold release
  split <;> rfl

theorem release_key (h : Interface) (x : Instance) :
    (release h x).type = x.type ∧ (release h x).id = x.id := by
  unfold release
  split <;> exact ⟨rfl, rfl⟩

theorem release_counts {μ : Type} (s : BlackBoard μ) (wf : WellFormed s) (h : Interface)
    (hh : h ∈ s.handles) (inst : Instance) (hin : inst ∈ s.instances)
    (hs : inst.serial = h.mem_serial) :
    writer_count (s.handles.erase h) inst.serial =
      (if (release h inst).writer_open then 1 else 0) ∧
    reader_count (s.handles.erase h) inst.serial = (release h inst).num_readers := by
  have hW := wf.writers inst hin
  have hR := wf.readers inst hin
  rw [writer_count_erase s.handles h inst.serial hh] at hW
  rw [reader_count_erase s.handles h inst.serial hh] at hR
  by_cases hwa : h.write_access = true
  · have hrel : release h inst = { inst with writer_open := false } := by
      simp [release, hwa]
    rw [hrel]
    simp only [hwa, hs.symm, and_self, if_true] at hW
    simp only [hwa, Bool.true_eq_false, false_and, if_false, Nat.add_zero] at hR
    refine ⟨?_, hR⟩
    simp only [Bool.false_eq_true, if_false]
    by_cases hwo : inst.writer_open = true
    · rw [if_pos hwo] at hW
      omega
    · rw [if_neg hwo] at hW
      omega
  · have hwa2 : h.write_access = false := by simpa using hwa
    have hrel : release h inst = { inst with num_readers := inst.num_readers - 1 } := by
      simp [release, hwa2]
    rw [hrel]
    simp only [hwa2, Bool.false_eq_true, false_and, if_false, Nat.add_zero] at hW
    simp only [hwa2, hs.symm, and_self, if_true] at hR
    refine ⟨hW, ?_⟩
    show _ = inst.num_readers - 1
    omega

theorem close_wf {μ : Type} (cfg : Config μ) (h : Interface) (s : BlackBoard μ)
    (wf : WellFormed s) : WellFormed (close cfg h s).2 := by
  unfold close
  by_cases hh : h ∈ s.handles
  · simp only [hh, if_true]
    cases hf : instance_for_serial s h.mem_serial with
    | none => exact wf
    | some inst =>
      obtain ⟨hin, hs⟩ := instance_for_serial_some s h.mem_serial inst hf
      obtain ⟨cW, cR⟩ := release_counts s wf h hh inst hin hs
      have hother_w : ∀ n, h.mem_serial ≠ n →
          writer_count (s.handles.erase h) n = writer_count s.handles n := by
        intro n hn
        rw [writer_count_erase s.handles h n hh]
        simp [hn]
      have hother_r : ∀ n, h.mem_serial ≠ n →
          reader_count (s.handles.erase h) n = reader_count s.handles n := by
        intro n hn
        rw [reader_count_erase s.handles h n hh]
        simp [hn]
      by_cases hz : (release h inst).writer_open = false ∧ (release h inst).num_readers = 0
      · simp only [hz, and_self, if_true]
        rw [hz.1] at cW
        rw [hz.2] at cR
        simp only [Bool.false_eq_true, if_false] at cW
        constructor
        · intro y hy
          exact wf.serial_lt y (List.mem_filter.mp hy).1
        · exact wf.serial_nodup.sublist ((List.filter_sublist _).map _)
        · exact wf.key_nodup.sublist ((List.filter_sublist _).map _)
        · exact wf.handle_nodup.erase h
        · intro a ha
          exact wf.handle_lt a (List.mem_of_mem_erase ha)
        · intro a ha
          obtain ⟨x, hx, h1, h2, h3⟩ := wf.handle_inst a (List.mem_of_mem_erase ha)
          refine ⟨x, List.mem_filter.mpr ⟨hx, ?_⟩, h1, h2, h3⟩
          simp only [decide_eq_true_eq]
          intro hxs
          have hax : a.mem_serial = inst.serial := by rw [← h1, hxs, hs]
          unfold writer_count at cW
          unfold reader_count at cR
          rw [List.countP_eq_zero] at cW cR
          cases haw : a.write_access with
          | true => exact cW a ha (by simp [haw, hax])
          | false => exact cR a ha (by simp [haw, hax])
        · intro y hy
          obtain ⟨hy1, hy2⟩ := List.mem_filter.mp hy
          simp only [decide_eq_true_eq] at hy2
          show writer_count (s.handles.erase h) y.serial = _
          rw [hother_w y.serial (fun e => hy2 e.symm)]
          exact wf.writers y hy1
        · intro y hy
          obtain ⟨hy1, hy2⟩ := List.mem_filter.mp hy
          simp only [decide_eq_true_eq] at hy2
          show reader_count (s.handles.erase h) y.serial = _
          rw [hother_r y.serial (fun e => hy2 e.symm)]
          exact wf.readers y hy1
      · simp only [hz, if_false]
        have hmem := mem_modify_instance h.mem_serial (release h) s.instances wf.serial_nodup
        constructor
        · intro y hy
          obtain ⟨x, hx, rfl⟩ := (hmem y).mp hy
          have := wf.serial_lt x hx
          by_cases hk : x.serial = h.mem_serial <;> simp [hk, release_serial] <;> omega
        · show ((modify_instance h.mem_serial (release h) s.instances).map
            (fun x => x.serial)).Nodup
          rw [modify_instance_map_serial _ _ (release_serial h)]
          exact wf.serial_nodup
        · show ((modify_instance h.mem_serial (release h) s.instances).map
            (fun x => (x.type, x.id))).Nodup
          rw [modify_instance_map_key _ _ (release_key h)]
          exact wf.key_nodup
        · exact wf.handle_nodup.erase h
        · intro a ha
          exact wf.handle_lt a (List.mem_of_mem_erase ha)
        · intro a ha
          obtain ⟨x, hx, h1, h2, h3⟩ := wf.handle_inst a (List.mem_of_mem_erase ha)
          refine ⟨if x.serial = h.mem_serial then release h x else x,
            (hmem _).mpr ⟨x, hx, rfl⟩, ?_⟩
          by_cases hk : x.serial = h.mem_serial
          · simp only [if_pos hk, release_serial, (release_key h x).1, (release_key h x).2]
            exact ⟨h1, h2, h3⟩
          · simp only [if_neg hk]
            exact ⟨h1, h2, h3⟩
        · intro y hy
          show writer_count (s.handles.erase h) y.serial = _
          obtain ⟨x, hx, rfl⟩ := (hmem y).mp hy
          by_cases hk : x.serial = h.mem_serial
          · have hxi : x = inst := wf.same_serial x inst hx hin (hk.trans hs.symm)
            subst hxi
            simp only [if_pos hk, release_serial]
            exact cW
          · simp only [if_neg hk]
            rw [hother_w x.serial (fun e => hk e.symm)]
            exact wf.writers x hx
        · intro y hy
          show reader_count (s.handles.erase h) y.serial = _
          obtain ⟨x, hx, rfl⟩ := (hmem y).mp hy
          by_cases hk : x.serial = h.mem_serial
          · have hxi : x = inst := wf.same_serial x inst hx hin (hk.trans hs.symm)
            subst hxi
            simp only [if_pos hk, release_serial]
            exact cR
          · simp only [if_neg hk]
            rw [hother_r x.serial (fun e => hk e.symm)]
            exact wf.readers x hx
  · simp only [hh, if_false]
    exact wf

theorem step_wf {μ : Type} (cfg : Config μ) (s : BlackBoard μ) (op : Op)
    (wf : WellFormed s) : WellFormed (step cfg s op) := by
  cases op with
  | open_for_reading t i => exact open_for_reading_wf cfg t i s wf
  | open_for_writing t i => exact open_for_writing_wf cfg t i s wf
  | close h => exact close_wf cfg h s wf

theorem run_wf {μ : Type} (cfg : Config μ) (ops : List Op) (s : BlackBoard μ)
    (wf : WellFormed s) : WellFormed (run cfg s ops) := by
  induction ops generalizing s with
  | nil => exact wf
  | cons op ops ih => exact ih (step cfg s op) (step_wf cfg s op wf)

theorem writers_of_mem {μ : Type} (s : BlackBoard μ) (t i : String) (h : Interface) :
    h ∈ writers_of s t i ↔ h ∈ s.handles ∧ h.write_access = true ∧ h.type = t ∧ h.id = i := by
  simp [writers_of, List.mem_filter]

theorem WellFormed.writers_of_le_one {μ : Type} {s : BlackBoard μ} (wf : WellFormed s)
    (t i : String) : (writers_of s t i).length ≤ 1 := by
  cases hw : writers_of s t i with
  | nil => simp
  | cons h hs =>
    rw [← hw]
    have hm : h ∈ writers_of s t i := by rw [hw]; exact List.mem_cons_self _ _
    obtain ⟨hh, _, ht, hi⟩ := (writers_of_mem s t i h).mp hm
    obtain ⟨x, hx, x1, x2, x3⟩ := wf.handle_inst h hh
    have hle : (writers_of s t i).length ≤ writer_count s.handles x.serial := by
      unfold writers_of writer_count
      rw [← List.countP_eq_length_filter]
      apply List.countP_mono_left
      intro a ha hp
      simp only [Bool.and_eq_true, decide_eq_true_eq] at hp
      obtain ⟨y, hy, y1, y2, y3⟩ := wf.handle_inst a ha
      have hxy : y = x := wf.same_key y x hy hx
        (by rw [y2, x2, hp.2.1, ht]) (by rw [y3, x3, hp.2.2, hi])
      simp only [Bool.and_eq_true, decide_eq_true_eq]
      exact ⟨hp.1, by rw [← y1, hxy]⟩
    have := wf.writers x hx
    by_cases hwo : x.writer_open = true
    · rw [if_pos hwo] at this
      omega
    · rw [if_neg hwo] at this
      omega

theorem WellFormed.second_writer_fails {μ : Type} {s : BlackBoard μ} (wf : WellFormed s)
    (cfg : Config μ) (t i : String) (hne : writers_of s t i ≠ []) :
    open_for_writing cfg t i s = (.error .BlackBoardWriterActiveException, s) := by
  obtain ⟨h, hm⟩ := List.exists_mem_of_ne_nil _ hne
  obtain ⟨hh, hwa, ht, hi⟩ := (writers_of_mem s t i h).mp hm
  obtain ⟨x, hx, x1, x2, x3⟩ := wf.handle_inst h hh
  have hsome : (find_instance s t i).isSome = true := by
    unfold find_instance
    rw [List.find?_isSome]
    exact ⟨x, hx, by simp [x2, x3, ht, hi]⟩
  obtain ⟨y, hy⟩ := Option.isSome_iff_exists.mp hsome
  obtain ⟨yin, yt, yi⟩ := find_instance_some s t i y hy
  have hyx : y = x := wf.same_key y x yin hx (by rw [yt, x2, ht]) (by rw [yi, x3, hi])
  have hpos : 0 < writer_count s.handles x.serial := by
    unfold writer_count
    rw [List.countP_pos_iff]
    exact ⟨h, hh, by simp [hwa, x1]⟩
  have hwo : y.writer_open = true := by
    rw [hyx]
    have := wf.writers x hx
    by_cases hwo : x.writer_open = true
    · exact hwo
    · rw [if_neg hwo] at this
      omega
  simp only [open_for_writing, hy, hwo, if_true]

theorem WellFormed.free_id_opens {μ : Type} {s : BlackBoard μ} (wf : WellFormed s)
    (cfg : Config μ) (t i : String) (hnil : writers_of s t i = []) :
    ((find_instance s t i).isSome = true ∨
        (cfg.memmgr.alloc (cfg.schema_size t) s.mem).isSome = true →
      ∃ h, (open_for_writing cfg t i s).1 = .ok h ∧ h.write_access = true ∧ h.type = t ∧
        h.id = i ∧ writers_of (open_for_writing cfg t i s).2 t i = [h]) ∧
    (find_instance s t i = none ∧ cfg.memmgr.alloc (cfg.schema_size t) s.mem = none →
      open_for_writing cfg t i s = (.error .OutOfMemoryException, s)) := by
  have hfilter : ∀ h0 : Interface, h0.write_access = true → h0.type = t → h0.id = i →
      List.filter (fun h => h.write_access && decide (h.type = t ∧ h.id = i))
        (s.handles ++ [h0]) = [h0] := by
    intro h0 h1 h2 h3
    rw [List.filter_append]
    have : List.filter (fun h => h.write_access && decide (h.type = t ∧ h.id = i)) s.handles
        = [] := hnil
    rw [this]
    simp [h1, h2, h3]
  cases hf : find_instance s t i with
  | some x =>
    obtain ⟨hx, xt, xi⟩ := find_instance_some s t i x hf
    have hwo : ¬ x.writer_open = true := by
      intro hwo
      have hc := wf.writers x hx
      rw [if_pos hwo] at hc
      have hpos : 0 < writer_count s.handles x.serial := by omega
      unfold writer_count at hpos
      rw [List.countP_pos_iff] at hpos
      obtain ⟨h, hh, hp⟩ := hpos
      simp only [Bool.and_eq_true, decide_eq_true_eq] at hp
      obtain ⟨y, hy, y1, y2, y3⟩ := wf.handle_inst h hh
      have hyx : y = x := wf.same_serial y x hy hx (y1.trans hp.2)
      have hm : h ∈ writers_of s t i :=
        (writers_of_mem s t i h).mpr ⟨hh, hp.1, by rw [← y2, hyx, xt], by rw [← y3, hyx, xi]⟩
      rw [hnil] at hm
      exact absurd hm (List.not_mem_nil _)
    constructor
    · intro _
      refine ⟨⟨t, i, x.serial, s.next_instance_serial, true⟩, ?_, rfl, rfl, rfl, ?_⟩
      · simp only [open_for_writing, hf, hwo]
        rfl
      · simp only [open_for_writing, hf, hwo]
        exact hfilter _ rfl rfl rfl
    · rintro ⟨hnone, _⟩
      cases hnone
  | none =>
    cases ha : cfg.memmgr.alloc (cfg.schema_size t) s.mem with
    | none =>
      constructor
      · intro hor
        rcases hor with hor | hor
        · cases hor
        · cases hor
      · intro _
        simp only [open_for_writing, hf, ha]
    | some r =>
      obtain ⟨chunk, mem1⟩ := r
      constructor
      · intro _
        refine ⟨⟨t, i, s.next_mem_serial, s.next_instance_serial, true⟩, ?_, rfl, rfl, rfl, ?_⟩
        · simp only [open_for_writing, hf, ha]
        · simp only [open_for_writing, hf, ha]
          exact hfilter _ rfl rfl rfl
      · rintro ⟨_, hnone⟩
        cases hnone

theorem countP_eq_one_of_nodup {α : Type} [DecidableEq α] (l : List α) (k : α)
    (hnd : l.Nodup) (hk : k ∈ l) : l.countP (fun a => decide (a = k)) = 1 := by
  induction l with
  | nil => exact absurd hk (List.not_mem_nil _)
  | cons a l ih =>
    rw [List.nodup_cons] at hnd
    rw [List.countP_cons]
    by_cases ha : a = k
    · subst ha
      have hz : l.countP (fun b => decide (b = a)) = 0 := by
        rw [List.countP_eq_zero]
        intro b hb hp
        simp only [decide_eq_true_eq] at hp
        exact hnd.1 (hp ▸ hb)
      simp [hz]
    · have hkl : k ∈ l := by
        rcases List.mem_cons.mp hk with h | h
        · exact absurd h.symm ha
        · exact h
      simp [ha, ih hnd.2 hkl]

theorem find_instance_isSome_iff {μ : Type} (s : BlackBoard μ) (t i : String) :
    (find_instance s t i).isSome = true ↔ (t, i) ∈ s.instances.map (fun x => (x.type, x.id)) := by
  unfold find_instance
  rw [List.find?_isSome, List.mem_map]
  constructor
  · rintro ⟨x, hx, hp⟩
    simp only [decide_eq_true_eq] at hp
    exact ⟨x, hx, by rw [hp.1, hp.2]⟩
  · rintro ⟨x, hx, hk⟩
    simp only [Prod.mk.injEq] at hk
    exact ⟨x, hx, by simp [hk.1, hk.2]⟩

/-- Opening readers on ids that all have a live instance succeeds: one
reader handle per id, in order, each open afterwards; no handle is closed and
the registry keeps its (type, id) pairs. -/
theorem open_readers_spec {μ : Type} (cfg : Config μ) (t : String) (ids : List String)
    (s : BlackBoard μ)
    (hlive : ∀ i ∈ ids, (t, i) ∈ s.instances.map (fun x => (x.type, x.id))) :
    ∃ hs s1, open_readers cfg t ids s = (.ok hs, s1) ∧
      hs.map (fun h => (h.type, h.id, h.write_access)) = ids.map (fun i => (t, i, false)) ∧
      (∀ h ∈ s.handles, h ∈ s1.handles) ∧ (∀ h ∈ hs, h ∈ s1.handles) ∧
      s1.instances.map (fun x => (x.type, x.id)) =
        s.instances.map (fun x => (x.type, x.id)) := by
  induction ids generalizing s with
  | nil => exact ⟨[], s, rfl, rfl, fun _ h => h, fun _ h => absurd h (List.not_mem_nil _), rfl⟩
  | cons i ids ih =>
    have hi := (find_instance_isSome_iff s t i).mpr (hlive i (List.mem_cons_self _ _))
    obtain ⟨x, hx⟩ := Option.isSome_iff_exists.mp hi
    have hopen : open_for_reading cfg t i s =
        (.ok ⟨t, i, x.serial, s.next_instance_serial, false⟩, { s with
          instances := modify_instance x.serial
            (fun x => { x with num_readers := x.num_readers + 1 }) s.instances
          handles := s.handles ++ [⟨t, i, x.serial, s.next_instance_serial, false⟩]
          next_instance_serial := s.next_instance_serial + 1 }) := by
      simp only [open_for_reading, hx]
    have hkeys : (modify_instance x.serial
        (fun x => { x with num_readers := x.num_readers + 1 }) s.instances).map
          (fun x => (x.type, x.id)) = s.instances.map (fun x => (x.type, x.id)) :=
      modify_instance_map_key x.serial (fun x => { x with num_readers := x.num_readers + 1 })
        (fun _ => ⟨rfl, rfl⟩) s.instances
    obtain ⟨hs, s2, e1, e2, e3, e4, e5⟩ := ih { s with
        instances := modify_instance x.serial
          (fun x => { x with num_readers := x.num_readers + 1 }) s.instances
        handles := s.handles ++ [⟨t, i, x.serial, s.next_instance_serial, false⟩]
        next_instance_serial := s.next_instance_serial + 1 }
      (by
        intro j hj
        show (t, j) ∈ (modify_instance x.serial _ s.instances).map _
        rw [hkeys]
        exact hlive j (List.mem_cons_of_mem _ hj))
    refine ⟨⟨t, i, x.serial, s.next_instance_serial, false⟩ :: hs, s2, ?_, ?_, ?_, ?_, ?_⟩
    · simp only [open_readers, hopen, e1]
    · simp only [List.map_cons, e2]
    · intro h hh
      exact e3 h (List.mem_append_left _ hh)
    · intro h hh
      rcases List.mem_cons.mp hh with rfl | hh
      · exact e3 _ (List.mem_append_right _ (List.mem_singleton.mpr rfl))
      · exact e4 h hh
    · rw [e5]
      exact hkeys

/-! ## Lemmas: watch lists -/

theorem map_find_map_set (m : List (String × Interface)) (k k2 : String) (v : Interface) :
    map_find (map_set m k v) k2 = if k = k2 then some v else map_find m k2 := by
  induction m with
  | nil =>
    by_cases h : k = k2 <;> simp [map_set, map_find, h]
  | cons e es ih =>
    unfold map_find at ih ⊢
    by_cases he : e.1 = k
    · by_cases h : k = k2
      · simp [map_set, he, h]
      · have h2 : ¬ e.1 = k2 := fun h3 => h (he ▸ h3)
        simp [map_set, he, h, h2, List.find?_cons]
    · by_cases h2 : e.1 = k2
      · have h : ¬ k = k2 := fun h3 => he (h3 ▸ h2)
        simp only [map_set, if_neg he, if_neg h, List.find?_cons]
        simp [h2]
      · simp only [map_set, if_neg he, List.find?_cons, h2, decide_False]
        exact ih

theorem add_data_ok (l l1 : BlackBoardInterfaceListener) (i : Interface)
    (h : bbil_add_data_interface l i = .ok l1) :
    bbil_data_interface l i.uid = none ∧
    (∀ k, bbil_data_interface l1 k = if i.uid = k then some i else bbil_data_interface l k) ∧
    (∀ k, bbil_reader_interface l1 k = bbil_reader_interface l k) ∧
    (∀ k, bbil_writer_interface l1 k = bbil_writer_interface l k) := by
  unfold bbil_add_data_interface at h
  split at h
  · cases h
  · rename_i hnone
    cases h
    refine ⟨?_, fun k => map_find_map_set _ _ _ _, fun _ => rfl, fun _ => rfl⟩
    simpa [bbil_data_interface] using hnone

theorem add_reader_ok (l l1 : BlackBoardInterfaceListener) (i : Interface)
    (h : bbil_add_reader_interface l i = .ok l1) :
    bbil_reader_interface l i.uid = none ∧
    (∀ k, bbil_reader_interface l1 k = if i.uid = k then some i else bbil_reader_interface l k) ∧
    (∀ k, bbil_data_interface l1 k = bbil_data_interface l k) ∧
    (∀ k, bbil_writer_interface l1 k = bbil_writer_interface l k) := by
  unfold bbil_add_reader_interface at h
  split at h
  · cases h
  · rename_i hnone
    cases h
    refine ⟨?_, fun k => map_find_map_set _ _ _ _, fun _ => rfl, fun _ => rfl⟩
    simpa [bbil_reader_interface] using hnone

theorem add_writer_ok (l l1 : BlackBoardInterfaceListener) (i : Interface)
    (h : bbil_add_writer_interface l i = .ok l1) :
    bbil_writer_interface l i.uid = none ∧
    (∀ k, bbil_writer_interface l1 k = if i.uid = k then some i else bbil_writer_interface l k) ∧
    (∀ k, bbil_data_interface l1 k = bbil_data_interface l k) ∧
    (∀ k, bbil_reader_interface l1 k = bbil_reader_interface l k) := by
  unfold bbil_add_writer_interface at h
  split at h
  · cases h
  · rename_i hnone
    cases h
    refine ⟨?_, fun k => map_find_map_set _ _ _ _, fun _ => rfl, fun _ => rfl⟩
    simpa [bbil_writer_interface] using hnone

theorem add_all_cons (l : BlackBoardInterfaceListener) (op : AddOp) (ops : List AddOp) :
    add_all l (op :: ops) = add_all (add_step l op) ops := by
  simp [add_all]

/-- After any sequence of add calls each lookup returns what the listener
held before or what a successful call of the sequence added under that uid. -/
theorem add_all_lookup (ops : List AddOp) (l : BlackBoardInterfaceListener)
    (k : String) (i : Interface) :
    (bbil_data_interface (add_all l ops) k = some i ↔
      bbil_data_interface l k = some i ∨ (AddOp.data i ∈ add_log l ops ∧ i.uid = k)) ∧
    (bbil_reader_interface (add_all l ops) k = some i ↔
      bbil_reader_interface l k = some i ∨ (AddOp.reader i ∈ add_log l ops ∧ i.uid = k)) ∧
    (bbil_writer_interface (add_all l ops) k = some i ↔
      bbil_writer_interface l k = some i ∨ (AddOp.writer i ∈ add_log l ops ∧ i.uid = k)) := by
  induction ops generalizing l with
  | nil => simp [add_all, add_log]
  | cons op ops ih =>
    rw [add_all_cons]
    cases op with
    | data j =>
      cases h : bbil_add_data_interface l j with
      | error e =>
        have e1 : add_step l (.data j) = l := by simp [add_step, h]
        have e2 : add_log l (.data j :: ops) = add_log l ops := by simp [add_log, h]
        rw [e1, e2]
        exact ih l
      | ok l1 =>
        have e1 : add_step l (.data j) = l1 := by simp [add_step, h]
        have e2 : add_log l (.data j :: ops) = .data j :: add_log l1 ops := by
          simp [add_log, h]
        obtain ⟨h0, h1, h2, h3⟩ := add_data_ok l l1 j h
        rw [e1, e2]
        obtain ⟨i1, i2, i3⟩ := ih l1
        rw [i1, i2, i3, h1 k, h2 k, h3 k]
        refine ⟨?_, by simp, by simp⟩
        by_cases hk : j.uid = k
        · subst hk
          rw [h0]
          simp only [if_true, List.mem_cons, AddOp.data.injEq, Option.some.injEq]
          constructor
          · rintro (rfl | ⟨hm, hu⟩)
            · exact Or.inr ⟨Or.inl rfl, rfl⟩
            · exact Or.inr ⟨Or.inr hm, hu⟩
          · rintro (hf | ⟨rfl | hm, hu⟩)
            · cases hf
            · exact Or.inl rfl
            · exact Or.inr ⟨hm, hu⟩
        · simp only [if_neg hk, List.mem_cons, AddOp.data.injEq]
          constructor
          · rintro (hf | ⟨hm, hu⟩)
            · exact Or.inl hf
            · exact Or.inr ⟨Or.inr hm, hu⟩
          · rintro (hf | ⟨rfl | hm, hu⟩)
            · exact Or.inl hf
            · exact absurd hu hk
            · exact Or.inr ⟨hm, hu⟩
    | reader j =>
      cases h : bbil_add_reader_interface l j with
      | error e =>
        have e1 : add_step l (.reader j) = l := by simp [add_step, h]
        have e2 : add_log l (.reader j :: ops) = add_log l ops := by simp [add_log, h]
        rw [e1, e2]
        exact ih l
      | ok l1 =>
        have e1 : add_step l (.reader j) = l1 := by simp [add_step, h]
        have e2 : add_log l (.reader j :: ops) = .reader j :: add_log l1 ops := by
          simp [add_log, h]
        obtain ⟨h0, h1, h2, h3⟩ := add_reader_ok l l1 j h
        rw [e1, e2]
        obtain ⟨i1, i2, i3⟩ := ih l1
        rw [i1, i2, i3, h1 k, h2 k, h3 k]
        refine ⟨by simp, ?_, by simp⟩
        by_cases hk : j.uid = k
        · subst hk
          rw [h0]
          simp only [if_true, List.mem_cons, AddOp.reader.injEq, Option.some.injEq]
          constructor
          · rintro (rfl | ⟨hm, hu⟩)
            · exact Or.inr ⟨Or.inl rfl, rfl⟩
            · exact Or.inr ⟨Or.inr hm, hu⟩
          · rintro (hf | ⟨rfl | hm, hu⟩)
            · cases hf
            · exact Or.inl rfl
            · exact Or.inr ⟨hm, hu⟩
        · simp only [if_neg hk, List.mem_cons, AddOp.reader.injEq]
          constructor
          · rintro (hf | ⟨hm, hu⟩)
            · exact Or.inl hf
            · exact Or.inr ⟨Or.inr hm, hu⟩
          · rintro (hf | ⟨rfl | hm, hu⟩)
            · exact Or.inl hf
            · exact absurd hu hk
            · exact Or.inr ⟨hm, hu⟩
    | writer j =>
      cases h : bbil_add_writer_interface l j with
      | error e =>
        have e1 : add_step l (.writer j) = l := by simp [add_step, h]
        have e2 : add_log l (.writer j :: ops) = add_log l ops := by simp [add_log, h]
        rw [e1, e2]
        exact ih l
      | ok l1 =>
        have e1 : add_step l (.writer j) = l1 := by simp [add_step, h]
        have e2 : add_log l (.writer j :: ops) = .writer j :: add_log l1 ops := by
          simp [add_log, h]
        obtain ⟨h0, h1, h2, h3⟩ := add_writer_ok l l1 j h
        rw [e1, e2]
        obtain ⟨i1, i2, i3⟩ := ih l1
        rw [i1, i2, i3, h1 k, h2 k, h3 k]
        refine ⟨by simp, by simp, ?_⟩
        by_cases hk : j.uid = k
        · subst hk
          rw [h0]
          simp only [if_true, List.mem_cons, AddOp.writer.injEq, Option.some.injEq]
          constructor
          · rintro (rfl | ⟨hm, hu⟩)
            · exact Or.inr ⟨Or.inl rfl, rfl⟩
            · exact Or.inr ⟨Or.inr hm, hu⟩
          · rintro (hf | ⟨rfl | hm, hu⟩)
            · cases hf
            · exact Or.inl rfl
            · exact Or.inr ⟨hm, hu⟩
        · simp only [if_neg hk, List.mem_cons, AddOp.writer.injEq]
          constructor
          · rintro (hf | ⟨hm, hu⟩)
            · exact Or.inl hf
            · exact Or.inr ⟨Or.inr hm, hu⟩
          · rintro (hf | ⟨rfl | hm, hu⟩)
            · exact Or.inl hf
            · exact absurd hu hk
            · exact Or.inr ⟨hm, hu⟩

/-! ## Theorems: `transmit` -/

/-- C1: when the interface manager is set, the recipient serial resolves to a
writer and the notifier answers true, `transmit` calls, in this order,
`writer_for_mem_serial`, `notify_of_message_received` and `msgq_append`
(exactly once, on that writer, after the notifier), and its result and final
state are exactly those of `msgq_append`; a no-writer exception out of
`msgq_append` is the only case in which a warning is logged besides. -/
theorem transmit_accepted_appends_once {σ ι μ : Type} (mm : BlackBoardMessageManager σ ι μ)
    (imo : InterfaceManagerOps σ ι) (message : μ) (writer : ι) (s s1 s2 : σ)
    (him : mm.im = some imo)
    (hw : imo.writer_for_mem_serial (mm.recipient message) s = (.ok writer, s1))
    (hn : mm.notify_of_message_received writer message s1 = (.ok true, s2)) :
    (transmit mm message s).result = (mm.msgq_append writer message s2).1 ∧
    (transmit mm message s).state = (mm.msgq_append writer message s2).2 ∧
    (transmit mm message s).calls =
      [.writer_for_mem_serial (mm.recipient message),
       .notify_of_message_received writer message,
       .msgq_append writer message] ++
      (if (mm.msgq_append writer message s2).1 = .error .BlackBoardNoWritingInstanceException
       then [.log_warn message] else []) := by
  have h := transmit_result_state mm imo message s him
  refine ⟨?_, ?_, transmit_calls_when_accepted mm imo message writer s s1 s2 him hw hn⟩
  · rw [h.1]
    simp only [transmit_try, hw, hn]
  · rw [h.2]
    simp only [transmit_try, hw, hn]

/-- Witness of C1 on the Battery scenario: the message is appended and the id
1 of `msgq_append` is returned. -/
theorem transmit_accepted_appends_once_witness :
    (local_msgmgr scenario_cfg no_listener).im = some local_im ∧
    (transmit (local_msgmgr scenario_cfg no_listener)
      ⟨.PushButtonMessage, 1, [], 0⟩ battery_bb).result = .ok 1 ∧
    (transmit (local_msgmgr scenario_cfg no_listener)
      ⟨.PushButtonMessage, 1, [], 0⟩ battery_bb).calls =
      [.writer_for_mem_serial 1,
       .notify_of_message_received battery_writer ⟨.PushButtonMessage, 1, [], 0⟩,
       .msgq_append battery_writer ⟨.PushButtonMessage, 1, [], 0⟩] :=
  ⟨rfl,
   (transmit_accepted_appends_once (local_msgmgr scenario_cfg no_listener) local_im
      ⟨.PushButtonMessage, 1, [], 0⟩ battery_writer battery_bb battery_bb battery_bb
      rfl rfl rfl).1,
   (transmit_accepted_appends_once (local_msgmgr scenario_cfg no_listener) local_im
      ⟨.PushButtonMessage, 1, [], 0⟩ battery_writer battery_bb battery_bb battery_bb
      rfl rfl rfl).2.2⟩

/-- C3: when the recipient serial has no open writer, i.e.
`writer_for_mem_serial` throws BlackBoardNoWritingInstanceException,
`transmit` throws that same exception; the only calls made are the lookup and
the warning of the catch clause, so the notifier is not consulted and nothing
is appended, and the state is the one the lookup left. -/
theorem transmit_no_writer_rethrows {σ ι μ : Type} (mm : BlackBoardMessageManager σ ι μ)
    (imo : InterfaceManagerOps σ ι) (message : μ) (s s1 : σ)
    (him : mm.im = some imo)
    (hw : imo.writer_for_mem_serial (mm.recipient message) s =
      (.error .BlackBoardNoWritingInstanceException, s1)) :
    (transmit mm message s).result = .error .BlackBoardNoWritingInstanceException ∧
    (transmit mm message s).state = s1 ∧
    (transmit mm message s).calls =
      [.writer_for_mem_serial (mm.recipient message), .log_warn message] := by
  unfold transmit
  rw [him]
  simp [transmit_try, hw]

/-- Witness of C3: a reader on ("BatteryInterface", "robot1") and no writer. -/
theorem transmit_no_writer_rethrows_witness :
    writer_for_mem_serial 1 reader_only_bb = .error .BlackBoardNoWritingInstanceException ∧
    (transmit (local_msgmgr scenario_cfg no_listener)
      ⟨.PushButtonMessage, 1, [], 0⟩ reader_only_bb).result =
      .error .BlackBoardNoWritingInstanceException ∧
    (transmit (local_msgmgr scenario_cfg no_listener)
      ⟨.PushButtonMessage, 1, [], 0⟩ reader_only_bb).state = reader_only_bb ∧
    (transmit (local_msgmgr scenario_cfg no_listener)
      ⟨.PushButtonMessage, 1, [], 0⟩ reader_only_bb).calls =
      [.writer_for_mem_serial 1, .log_warn ⟨.PushButtonMessage, 1, [], 0⟩] :=
  ⟨rfl, transmit_no_writer_rethrows (local_msgmgr scenario_cfg no_listener) local_im
      ⟨.PushButtonMessage, 1, [], 0⟩ reader_only_bb reader_only_bb rfl rfl⟩

/-- C2 (as amended): when the recipient has an open writer and the listener
declines, `transmit` returns 0 and calls only the lookup and the notifier,
never `msgq_append`; it changes nothing of its own: the state afterwards is
the one the listener's callback left, which is the state before the call
unless the callback flushed the inbox, and the message id counter of
every instance is the same as before in either case. -/
theorem transmit_declined_returns_zero {μ : Type} (cfg : Config μ) (listener : Listener)
    (m : Message) (w : Interface) (s : BlackBoard μ)
    (hw : writer_for_mem_serial m.recipient s = .ok w)
    (hd : (listener w m).enqueue = false) :
    (transmit (local_msgmgr cfg listener) m s).result = .ok 0 ∧
    (transmit (local_msgmgr cfg listener) m s).calls =
      [.writer_for_mem_serial m.recipient, .notify_of_message_received w m] ∧
    (transmit (local_msgmgr cfg listener) m s).state =
      (if (listener w m).flush then msgq_flush w s else s) ∧
    ((listener w m).flush = false → (transmit (local_msgmgr cfg listener) m s).state = s) ∧
    (∀ n, counter_of (transmit (local_msgmgr cfg listener) m s).state n = counter_of s n) := by
  have hst : (transmit (local_msgmgr cfg listener) m s).state =
      (if (listener w m).flush then msgq_flush w s else s) := by
    simp [transmit, local_msgmgr, set_interface_manager, transmit_try, local_im, hw,
      notify_of_message_received, hd]
  refine ⟨?_, ?_, hst, ?_, ?_⟩
  · simp [transmit, local_msgmgr, set_interface_manager, transmit_try, local_im, hw,
      notify_of_message_received, hd]
  · simp [transmit, local_msgmgr, set_interface_manager, transmit_try, local_im, hw,
      notify_of_message_received, hd]
  · intro hf
    rw [hst, hf]
    rfl
  · intro n
    rw [hst]
    by_cases hf : (listener w m).flush = true
    · rw [if_pos hf]
      exact counter_of_msgq_flush w s n
    · rw [if_neg hf]

/-- Witness of C2 (as amended): the QA listener declines a message for the
Battery writer and nothing changes. -/
theorem transmit_declined_returns_zero_witness :
    writer_for_mem_serial 1 battery_bb = .ok battery_writer ∧
    (transmit (local_msgmgr scenario_cfg QaBBEventListener.bb_interface_message_received)
      ⟨.PushButtonMessage, 1, [], 0⟩ battery_bb).result = .ok 0 ∧
    (transmit (local_msgmgr scenario_cfg QaBBEventListener.bb_interface_message_received)
      ⟨.PushButtonMessage, 1, [], 0⟩ battery_bb).state = battery_bb :=
  ⟨rfl,
   (transmit_declined_returns_zero scenario_cfg QaBBEventListener.bb_interface_message_received
      ⟨.PushButtonMessage, 1, [], 0⟩ battery_writer battery_bb rfl rfl).1,
   (transmit_declined_returns_zero scenario_cfg QaBBEventListener.bb_interface_message_received
      ⟨.PushButtonMessage, 1, [], 0⟩ battery_writer battery_bb rfl rfl).2.2.2.1 rfl⟩

/-- Counterexample to C2 as stated: the Dynamixel driver's callback declines
a FlushMessage for its servo interface (`transmit` returns 0), yet the
writer's inbox, which held a queued GotoMessage before the call, is empty
after it, because the callback flushed it. -/
theorem transmit_declined_queue_changed :
    writer_for_mem_serial 1 servo_bb_queued =
      .ok ⟨"DynamixelServoInterface", "/dynamixel/chain/1", 1, 1, true⟩ ∧
    servo_driver.bb_interface_message_received
      ⟨"DynamixelServoInterface", "/dynamixel/chain/1", 1, 1, true⟩
      ⟨.FlushMessage, 1, [], 0⟩ =
      (false, [.stop_motion 1, .log_info,
        .msgq_flush ⟨"DynamixelServoInterface", "/dynamixel/chain/1", 1, 1, true⟩]) ∧
    (transmit (local_msgmgr scenario_cfg servo_driver.listener)
      ⟨.FlushMessage, 1, [], 0⟩ servo_bb_queued).result = .ok 0 ∧
    queue_of servo_bb_queued 1 = [⟨.GotoMessage, 1, [90], 1⟩] ∧
    queue_of (transmit (local_msgmgr scenario_cfg servo_driver.listener)
      ⟨.FlushMessage, 1, [], 0⟩ servo_bb_queued).state 1 = [] :=
  ⟨rfl, rfl, rfl, rfl, rfl⟩

/-- C5: along every sequence of transmissions (with any listener answers) and
message-loop runs, the ids `transmit` returns for the accepted messages of one
target instance go up by exactly one each time (gap-free), hence are
strictly increasing, and all lie above the instance's counter at the start. -/
theorem transmit_ids_increasing_gap_free {μ : Type} (cfg : Config μ) (n : Nat)
    (ops : List MsgOp) (s : BlackBoard μ) :
    List.Chain' (fun a b => b = a + 1)
      ((run_msgs cfg n ops s).1.accepted.map (fun m => m.id)) ∧
    List.Pairwise (fun a b => a < b)
      ((run_msgs cfg n ops s).1.accepted.map (fun m => m.id)) ∧
    ∀ x ∈ (run_msgs cfg n ops s).1.accepted.map (fun m => m.id), counter_of s n < x := by
  rw [(run_msgs_spec cfg n ops s).2]
  refine ⟨?_, List.pairwise_lt_range' _ _, ?_⟩
  · cases (run_msgs cfg n ops s).1.accepted.length with
    | zero => simp
    | succ k =>
      rw [List.range'_succ]
      exact List.chain_succ_range' (counter_of s n + 1) k 1
  · intro x hx
    rw [List.mem_range'_1] at hx
    omega

/-- Witness of C5: two accepted transmissions around a declined one return
the ids 1 and 2. -/
theorem transmit_ids_increasing_gap_free_witness :
    (run_msgs scenario_cfg 1
      [.transmit ⟨.GotoMessage, 1, [90], 0⟩ ⟨true, false⟩,
       .transmit ⟨.StopMessage, 1, [], 0⟩ ⟨false, false⟩,
       .transmit ⟨.TimedGotoMessage, 1, [3, 45], 0⟩ ⟨true, false⟩]
      servo_bb).1.accepted.map (fun m => m.id) = [1, 2] ∧
    counter_of servo_bb 1 < 2 :=
  ⟨rfl, (transmit_ids_increasing_gap_free scenario_cfg 1
      [.transmit ⟨.GotoMessage, 1, [90], 0⟩ ⟨true, false⟩,
       .transmit ⟨.StopMessage, 1, [], 0⟩ ⟨false, false⟩,
       .transmit ⟨.TimedGotoMessage, 1, [3, 45], 0⟩ ⟨true, false⟩]
      servo_bb).2.2 2 (by decide)⟩

/-- C6: along every sequence of transmissions and message-loop runs, the
inbox of an instance is a FIFO: the messages removed from it, in order of
removal, followed by those still queued, are the messages queued at the start
followed by the accepted ones in the order `transmit` accepted them.  So the
messages the writer's loop sees form a subsequence of the accepted ones in
acceptance order (the whole sequence when the listener flushed none), and a
declined message is never seen. -/
theorem writer_sees_messages_in_accept_order {μ : Type} (cfg : Config μ) (n : Nat)
    (ops : List MsgOp) (s : BlackBoard μ) :
    (run_msgs cfg n ops s).1.removed.map Removal.message ++ queue_of (run_msgs cfg n ops s).2 n =
      queue_of s n ++ (run_msgs cfg n ops s).1.accepted ∧
    List.Sublist (seen_messages (run_msgs cfg n ops s).1.removed)
      (queue_of s n ++ (run_msgs cfg n ops s).1.accepted) ∧
    (∀ m ∈ seen_messages (run_msgs cfg n ops s).1.removed,
      m ∈ queue_of s n ∨ m ∈ (run_msgs cfg n ops s).1.accepted) ∧
    ((∀ r ∈ (run_msgs cfg n ops s).1.removed, r.is_seen = true) →
      seen_messages (run_msgs cfg n ops s).1.removed ++ queue_of (run_msgs cfg n ops s).2 n =
        queue_of s n ++ (run_msgs cfg n ops s).1.accepted) := by
  have h := (run_msgs_spec cfg n ops s).1
  have hsub : List.Sublist (seen_messages (run_msgs cfg n ops s).1.removed)
      (queue_of s n ++ (run_msgs cfg n ops s).1.accepted) := by
    rw [← h]
    exact (seen_messages_sublist _).trans (List.sublist_append_left _ _)
  refine ⟨h, hsub, ?_, ?_⟩
  · intro m hm
    exact List.mem_append.mp (hsub.subset hm)
  · intro hnf
    rw [seen_messages_no_flush _ hnf]
    exact h

/-- Witness of C6: a GotoMessage is accepted, a StopMessage declined, a
TimedGotoMessage accepted; the servo loop then sees the two accepted messages
in that order, with ids 1 and 2. -/
theorem writer_sees_messages_in_accept_order_witness :
    (run_msgs scenario_cfg 1
      [.transmit ⟨.GotoMessage, 1, [90], 0⟩ ⟨true, false⟩,
       .transmit ⟨.StopMessage, 1, [], 0⟩ ⟨false, false⟩,
       .transmit ⟨.TimedGotoMessage, 1, [3, 45], 0⟩ ⟨true, false⟩,
       .exec_act ⟨"DynamixelServoInterface", "/dynamixel/chain/1", 1, 1, true⟩] servo_bb).1 =
      ⟨[⟨.GotoMessage, 1, [90], 1⟩, ⟨.TimedGotoMessage, 1, [3, 45], 2⟩],
       [.seen ⟨.GotoMessage, 1, [90], 1⟩, .seen ⟨.TimedGotoMessage, 1, [3, 45], 2⟩]⟩ ∧
    seen_messages (run_msgs scenario_cfg 1
      [.transmit ⟨.GotoMessage, 1, [90], 0⟩ ⟨true, false⟩,
       .transmit ⟨.StopMessage, 1, [], 0⟩ ⟨false, false⟩,
       .transmit ⟨.TimedGotoMessage, 1, [3, 45], 0⟩ ⟨true, false⟩,
       .exec_act ⟨"DynamixelServoInterface", "/dynamixel/chain/1", 1, 1, true⟩]
        servo_bb).1.removed ++
      queue_of (run_msgs scenario_cfg 1
      [.transmit ⟨.GotoMessage, 1, [90], 0⟩ ⟨true, false⟩,
       .transmit ⟨.StopMessage, 1, [], 0⟩ ⟨false, false⟩,
       .transmit ⟨.TimedGotoMessage, 1, [3, 45], 0⟩ ⟨true, false⟩,
       .exec_act ⟨"DynamixelServoInterface", "/dynamixel/chain/1", 1, 1, true⟩] servo_bb).2 1 =
      queue_of servo_bb 1 ++ (run_msgs scenario_cfg 1
      [.transmit ⟨.GotoMessage, 1, [90], 0⟩ ⟨true, false⟩,
       .transmit ⟨.StopMessage, 1, [], 0⟩ ⟨false, false⟩,
       .transmit ⟨.TimedGotoMessage, 1, [3, 45], 0⟩ ⟨true, false⟩,
       .exec_act ⟨"DynamixelServoInterface", "/dynamixel/chain/1", 1, 1, true⟩]
        servo_bb).1.accepted :=
  ⟨rfl, (writer_sees_messages_in_accept_order scenario_cfg 1
      [.transmit ⟨.GotoMessage, 1, [90], 0⟩ ⟨true, false⟩,
       .transmit ⟨.StopMessage, 1, [], 0⟩ ⟨false, false⟩,
       .transmit ⟨.TimedGotoMessage, 1, [3, 45], 0⟩ ⟨true, false⟩,
       .exec_act ⟨"DynamixelServoInterface", "/dynamixel/chain/1", 1, 1, true⟩]
      servo_bb).2.2.2 (by decide)⟩

/-- C7: when the inbox of the writer's instance already holds its capacity
of messages and the listener accepts, `transmit` asks `msgq_append`, fails
with the queue-full exception and leaves the state (inbox included) as it
was; and whatever the listener answers, no transmission makes an inbox longer
than the capacity (or than it already was). -/
theorem transmit_queue_full {μ : Type} (cfg : Config μ) (listener : Listener)
    (m : Message) (w : Interface) (inst : Instance) (s : BlackBoard μ)
    (hw : writer_for_mem_serial m.recipient s = .ok w)
    (hi : instance_for_serial s w.mem_serial = some inst)
    (hfull : cfg.msgq_capacity ≤ inst.msgq.length)
    (ha : listener w m = ⟨true, false⟩) :
    (transmit (local_msgmgr cfg listener) m s).result = .error .MessageQueueFullException ∧
    (transmit (local_msgmgr cfg listener) m s).state = s ∧
    (transmit (local_msgmgr cfg listener) m s).calls =
      [.writer_for_mem_serial m.recipient, .notify_of_message_received w m,
       .msgq_append w m] ∧
    ∀ (l2 : Listener) (m2 : Message) (s2 : BlackBoard μ) (k : Nat),
      (queue_of (transmit (local_msgmgr cfg l2) m2 s2).state k).length ≤
        max (queue_of s2 k).length cfg.msgq_capacity := by
  have happ : msgq_append cfg w m s = (.error .MessageQueueFullException, s) := by
    simp only [msgq_append, hi, if_pos hfull]
  have hen : (listener w m).enqueue = true := by rw [ha]
  have hal : after_listener (listener w m) w s = s := by
    simp [after_listener, ha]
  have h := transmit_local_accepted cfg listener m s w hw hen
  rw [hal, happ] at h
  refine ⟨h.1, h.2, ?_, ?_⟩
  · have hc := (transmit_calls_when_accepted (local_msgmgr cfg listener) local_im m w s s s
      rfl (by simp [local_im, local_msgmgr, set_interface_manager, hw])
      (by simp [local_msgmgr, set_interface_manager, notify_of_message_received, ha]))
    rw [hc]
    have : ((local_msgmgr cfg listener).msgq_append w m s).1 =
        .error .MessageQueueFullException := by
      show (msgq_append cfg w m s).1 = _
      rw [happ]
    simp [this]
    rfl
  · intro l2 m2 s2 k
    cases hw2 : writer_for_mem_serial m2.recipient s2 with
    | error e =>
      rw [(transmit_local_no_writer cfg l2 m2 s2 e hw2).2]
      exact le_max_left _ _
    | ok w2 =>
      have hbase : (queue_of (after_listener (l2 w2 m2) w2 s2) k).length ≤
          (queue_of s2 k).length := by
        rw [queue_of_after_listener]
        split <;> simp
      cases he : (l2 w2 m2).enqueue with
      | false =>
        rw [(transmit_local_declined cfg l2 m2 s2 w2 hw2 he).2]
        exact le_trans hbase (le_max_left _ _)
      | true =>
        rw [(transmit_local_accepted cfg l2 m2 s2 w2 hw2 he).2]
        rcases msgq_append_spec cfg w2 m2 (after_listener (l2 w2 m2) w2 s2) with hA | hA
        · rw [hA.2]
          exact le_trans hbase (le_max_left _ _)
        · obtain ⟨_, hlt, _, hq⟩ := hA
          rw [hq k]
          by_cases hk : w2.mem_serial = k
          · subst hk
            simp only [if_true, List.length_append, List.length_singleton]
            exact le_trans (by omega) (le_max_right _ _)
          · simp only [hk, if_false]
            exact le_trans hbase (le_max_left _ _)

/-- Witness of C7: with inboxes of one message and one message waiting, a
second accepted transmission fails with queue-full and changes nothing. -/
theorem transmit_queue_full_witness :
    writer_for_mem_serial 1 battery_bb_one = .ok battery_writer ∧
    msgq_size battery_writer battery_bb_one = 1 ∧
    (transmit (local_msgmgr small_cfg no_listener)
      ⟨.SleepMessage, 1, [], 0⟩ battery_bb_one).result = .error .MessageQueueFullException ∧
    (transmit (local_msgmgr small_cfg no_listener)
      ⟨.SleepMessage, 1, [], 0⟩ battery_bb_one).state = battery_bb_one :=
  ⟨rfl, rfl,
   (transmit_queue_full small_cfg no_listener ⟨.SleepMessage, 1, [], 0⟩ battery_writer
      ⟨"BatteryInterface", "robot1", 1, 0, 1, true, [⟨.PushButtonMessage, 1, [], 1⟩], 1⟩
      battery_bb_one rfl rfl (by decide) rfl).1,
   (transmit_queue_full small_cfg no_listener ⟨.SleepMessage, 1, [], 0⟩ battery_writer
      ⟨"BatteryInterface", "robot1", 1, 0, 1, true, [⟨.PushButtonMessage, 1, [], 1⟩], 1⟩
      battery_bb_one rfl rfl (by decide) rfl).2.1⟩

/-! ## Theorems: the Battery enqueue scenario -/

/-- Counterexample to C8 as stated: with W and R open on ("BatteryInterface",
"robot1"), the SetValue message with payload 42 is not a valid message of the
Battery interface; `create_message` knows no such type, R's enqueue is
refused, and W's inbox size stays 0 instead of becoming 1. -/
theorem battery_set_value_rejected :
    battery_bb.handles = [battery_writer, battery_reader] ∧
    BatteryInterface.message_valid set_value_42 = false ∧
    BatteryInterface.create_message 32 "SetValue" = .error .UnknownTypeException ∧
    (BatteryInterface.msgq_enqueue (local_msgmgr scenario_cfg no_listener) battery_reader
      set_value_42 battery_bb).result = .error .InterfaceInvalidMessageException ∧
    msgq_size battery_writer
      (BatteryInterface.msgq_enqueue (local_msgmgr scenario_cfg no_listener) battery_reader
        set_value_42 battery_bb).state = 0 :=
  ⟨rfl, rfl, by decide, rfl, rfl⟩

/-- C8 (as amended): with a writer W and a reader R open on
("BatteryInterface", "robot1"), a message of a class the interface does not
declare (such as SetValue) is refused and leaves the BlackBoard as it was;
a PushButtonMessage or SleepMessage (neither carries a payload) that R
enqueues and the listener accepts makes W's inbox size 1 and returns id 1 to
R; W then finds that message, with id 1, at the head of its inbox, and after
W dequeues it the inbox size is 0. -/
theorem battery_enqueue_scenario {μ : Type} (cfg : Config μ) (m0 : μ) (listener : Listener)
    (message : Message)
    (hmem : (cfg.memmgr.alloc (cfg.schema_size "BatteryInterface") m0).isSome = true)
    (hcap : 0 < cfg.msgq_capacity)
    (hcls : message.mclass = .PushButtonMessage ∨ message.mclass = .SleepMessage)
    (hacc : ∀ w m, (listener w m).enqueue = true) :
    (run cfg (BlackBoard.init m0)
      [.open_for_writing "BatteryInterface" "robot1",
       .open_for_reading "BatteryInterface" "robot1"]).handles =
      [battery_writer, battery_reader] ∧
    (∀ (name : String) (payload : List Int) (r i : Nat) (s : BlackBoard μ),
      BatteryInterface.msgq_enqueue (local_msgmgr cfg listener) battery_reader
        ⟨.other name, r, payload, i⟩ s = ⟨.error .InterfaceInvalidMessageException, s, []⟩) ∧
    (BatteryInterface.msgq_enqueue (local_msgmgr cfg listener) battery_reader message
      (run cfg (BlackBoard.init m0)
        [.open_for_writing "BatteryInterface" "robot1",
         .open_for_reading "BatteryInterface" "robot1"])).result = .ok 1 ∧
    msgq_size battery_writer
      (BatteryInterface.msgq_enqueue (local_msgmgr cfg listener) battery_reader message
        (run cfg (BlackBoard.init m0)
          [.open_for_writing "BatteryInterface" "robot1",
           .open_for_reading "BatteryInterface" "robot1"])).state = 1 ∧
    msgq_first battery_writer
      (BatteryInterface.msgq_enqueue (local_msgmgr cfg listener) battery_reader message
        (run cfg (BlackBoard.init m0)
          [.open_for_writing "BatteryInterface" "robot1",
           .open_for_reading "BatteryInterface" "robot1"])).state =
      some ⟨message.mclass, 1, message.data, 1⟩ ∧
    msgq_size battery_writer (msgq_pop battery_writer
      (BatteryInterface.msgq_enqueue (local_msgmgr cfg listener) battery_reader message
        (run cfg (BlackBoard.init m0)
          [.open_for_writing "BatteryInterface" "robot1",
           .open_for_reading "BatteryInterface" "robot1"])).state) = 0 := by
  obtain ⟨⟨chunk, mem1⟩, hal⟩ := Option.isSome_iff_exists.mp hmem
  have hs : run cfg (BlackBoard.init m0)
      [.open_for_writing "BatteryInterface" "robot1",
       .open_for_reading "BatteryInterface" "robot1"] =
      ⟨mem1, [⟨"BatteryInterface", "robot1", 1, chunk, 1, true, [], 0⟩],
        [battery_writer, battery_reader], 2, 3⟩ := by
    simp [run, step, open_for_writing, open_for_reading, find_instance, BlackBoard.init, hal,
      modify_instance, battery_writer, battery_reader]
  have hvalid : BatteryInterface.message_valid message = true := by
    rcases hcls with h | h <;> simp [BatteryInterface.message_valid, h]
  have hw : writer_for_mem_serial 1
      (⟨mem1, [⟨"BatteryInterface", "robot1", 1, chunk, 1, true, [], 0⟩],
        [battery_writer, battery_reader], 2, 3⟩ : BlackBoard μ) = .ok battery_writer := by
    simp [writer_for_mem_serial, battery_writer]
  have hcap2 : ¬ cfg.msgq_capacity ≤ 0 := by omega
  have hen : BatteryInterface.msgq_enqueue (local_msgmgr cfg listener) battery_reader message
      ⟨mem1, [⟨"BatteryInterface", "robot1", 1, chunk, 1, true, [], 0⟩],
        [battery_writer, battery_reader], 2, 3⟩ =
      transmit (local_msgmgr cfg listener) { message with recipient := 1 }
        ⟨mem1, [⟨"BatteryInterface", "robot1", 1, chunk, 1, true, [], 0⟩],
          [battery_writer, battery_reader], 2, 3⟩ := by
    simp [BatteryInterface.msgq_enqueue, hvalid, battery_reader]
  have ht := transmit_local_accepted cfg listener { message with recipient := 1 }
    ⟨mem1, [⟨"BatteryInterface", "robot1", 1, chunk, 1, true, [], 0⟩],
      [battery_writer, battery_reader], 2, 3⟩ battery_writer hw (hacc _ _)
  have hafter : after_listener (listener battery_writer { message with recipient := 1 })
      battery_writer
      (⟨mem1, [⟨"BatteryInterface", "robot1", 1, chunk, 1, true, [], 0⟩],
        [battery_writer, battery_reader], 2, 3⟩ : BlackBoard μ) =
      ⟨mem1, [⟨"BatteryInterface", "robot1", 1, chunk, 1, true, [], 0⟩],
        [battery_writer, battery_reader], 2, 3⟩ := by
    unfold after_listener
    split
    · simp [msgq_flush, modify_instance, battery_writer]
    · rfl
  rw [hafter] at ht
  have happ : msgq_append cfg battery_writer { message with recipient := 1 }
      (⟨mem1, [⟨"BatteryInterface", "robot1", 1, chunk, 1, true, [], 0⟩],
        [battery_writer, battery_reader], 2, 3⟩ : BlackBoard μ) =
      (.ok 1, ⟨mem1, [⟨"BatteryInterface", "robot1", 1, chunk, 1, true,
        [⟨message.mclass, 1, message.data, 1⟩], 1⟩], [battery_writer, battery_reader], 2, 3⟩) := by
    simp [msgq_append, instance_for_serial, modify_instance, battery_writer, hcap2]
  rw [happ] at ht
  refine ⟨by rw [hs], ?_, ?_, ?_, ?_, ?_⟩
  · intro name payload r i s
    simp [BatteryInterface.msgq_enqueue, BatteryInterface.message_valid]
  · rw [hs, hen, ht.1]
  · rw [hs, hen, ht.2]
    simp [msgq_size, instance_for_serial, battery_writer]
  · rw [hs, hen, ht.2]
    simp [msgq_first, instance_for_serial, battery_writer]
  · rw [hs, hen, ht.2]
    simp [msgq_size, msgq_pop, instance_for_serial, modify_instance, battery_writer]

/-- Witness of C8 (as amended): R enqueues a PushButtonMessage on the
scenario BlackBoard and is returned id 1. -/
theorem battery_enqueue_scenario_witness :
    (BatteryInterface.msgq_enqueue (local_msgmgr scenario_cfg no_listener) battery_reader
      ⟨.PushButtonMessage, 0, [], 0⟩ battery_bb).result = .ok 1 ∧
    msgq_size battery_writer
      (BatteryInterface.msgq_enqueue (local_msgmgr scenario_cfg no_listener) battery_reader
        ⟨.PushButtonMessage, 0, [], 0⟩ battery_bb).state = 1 :=
  ⟨(battery_enqueue_scenario scenario_cfg ⟨1024, [], 0⟩ no_listener
      ⟨.PushButtonMessage, 0, [], 0⟩ rfl (by decide) (Or.inl rfl) (fun _ _ => rfl)).2.2.1,
   (battery_enqueue_scenario scenario_cfg ⟨1024, [], 0⟩ no_listener
      ⟨.PushButtonMessage, 0, [], 0⟩ rfl (by decide) (Or.inl rfl) (fun _ _ => rfl)).2.2.2.1⟩

/-! ## Theorems: watch lists of the interface listener -/

/-- C10: on a listener built by any sequence of add calls, for every uid
`bbil_data_interface` returns exactly the interface that a successful
`bbil_add_data_interface` added under a uid of the same content, and NULL
when no interface with that uid was added; likewise `bbil_reader_interface`
and `bbil_writer_interface` on their own lists; and right after a successful
`bbil_add_data_interface(i)` on any listener, `bbil_data_interface(i->uid())`
returns `i`. -/
theorem bbil_interface_returns_added (ops : List AddOp) (k : String) :
    (∀ i, bbil_data_interface (add_all BlackBoardInterfaceListener.new ops) k = some i ↔
      (AddOp.data i ∈ add_log BlackBoardInterfaceListener.new ops ∧ i.uid = k)) ∧
    ((∀ i, AddOp.data i ∈ add_log BlackBoardInterfaceListener.new ops → i.uid ≠ k) →
      bbil_data_interface (add_all BlackBoardInterfaceListener.new ops) k = none) ∧
    (∀ i, bbil_reader_interface (add_all BlackBoardInterfaceListener.new ops) k = some i ↔
      (AddOp.reader i ∈ add_log BlackBoardInterfaceListener.new ops ∧ i.uid = k)) ∧
    ((∀ i, AddOp.reader i ∈ add_log BlackBoardInterfaceListener.new ops → i.uid ≠ k) →
      bbil_reader_interface (add_all BlackBoardInterfaceListener.new ops) k = none) ∧
    (∀ i, bbil_writer_interface (add_all BlackBoardInterfaceListener.new ops) k = some i ↔
      (AddOp.writer i ∈ add_log BlackBoardInterfaceListener.new ops ∧ i.uid = k)) ∧
    ((∀ i, AddOp.writer i ∈ add_log BlackBoardInterfaceListener.new ops → i.uid ≠ k) →
      bbil_writer_interface (add_all BlackBoardInterfaceListener.new ops) k = none) ∧
    (∀ l l1 i, bbil_add_data_interface l i = .ok l1 → bbil_data_interface l1 i.uid = some i) := by
  have hd : ∀ i, bbil_data_interface (add_all BlackBoardInterfaceListener.new ops) k = some i ↔
      (AddOp.data i ∈ add_log BlackBoardInterfaceListener.new ops ∧ i.uid = k) := by
    intro i
    rw [(add_all_lookup ops BlackBoardInterfaceListener.new k i).1]
    simp [bbil_data_interface, BlackBoardInterfaceListener.new, map_find]
  have hr : ∀ i, bbil_reader_interface (add_all BlackBoardInterfaceListener.new ops) k = some i ↔
      (AddOp.reader i ∈ add_log BlackBoardInterfaceListener.new ops ∧ i.uid = k) := by
    intro i
    rw [(add_all_lookup ops BlackBoardInterfaceListener.new k i).2.1]
    simp [bbil_reader_interface, BlackBoardInterfaceListener.new, map_find]
  have hwr : ∀ i, bbil_writer_interface (add_all BlackBoardInterfaceListener.new ops) k = some i ↔
      (AddOp.writer i ∈ add_log BlackBoardInterfaceListener.new ops ∧ i.uid = k) := by
    intro i
    rw [(add_all_lookup ops BlackBoardInterfaceListener.new k i).2.2]
    simp [bbil_writer_interface, BlackBoardInterfaceListener.new, map_find]
  refine ⟨hd, ?_, hr, ?_, hwr, ?_, ?_⟩
  · intro hno
    cases hf : bbil_data_interface (add_all BlackBoardInterfaceListener.new ops) k with
    | none => rfl
    | some i => exact absurd ((hd i).mp hf).2 (hno i ((hd i).mp hf).1)
  · intro hno
    cases hf : bbil_reader_interface (add_all BlackBoardInterfaceListener.new ops) k with
    | none => rfl
    | some i => exact absurd ((hr i).mp hf).2 (hno i ((hr i).mp hf).1)
  · intro hno
    cases hf : bbil_writer_interface (add_all BlackBoardInterfaceListener.new ops) k with
    | none => rfl
    | some i => exact absurd ((hwr i).mp hf).2 (hno i ((hwr i).mp hf).1)
  · intro l l1 i h
    rw [(add_data_ok l l1 i h).2.1 i.uid]
    simp

/-- Witness of C10: the QA listener adds the Battery writer to its three
lists (a second data add of the same uid throws); the data lookup under the
writer's uid returns it, and a uid never added yields NULL. -/
theorem bbil_interface_returns_added_witness :
    bbil_data_interface
      (add_all BlackBoardInterfaceListener.new
        [.data battery_writer, .reader battery_writer, .writer battery_writer,
         .data battery_reader])
      "BatteryInterface::robot1" = some battery_writer ∧
    bbil_data_interface
      (add_all BlackBoardInterfaceListener.new
        [.data battery_writer, .reader battery_writer, .writer battery_writer,
         .data battery_reader])
      "BatteryInterface::robot2" = none ∧
    bbil_data_interface
      (add_all BlackBoardInterfaceListener.new [.data battery_writer]) battery_writer.uid =
      some battery_writer :=
  ⟨((bbil_interface_returns_added
      [.data battery_writer, .reader battery_writer, .writer battery_writer,
       .data battery_reader] "BatteryInterface::robot1").1 battery_writer).mpr
        ⟨by decide, by decide⟩,
   (bbil_interface_returns_added
      [.data battery_writer, .reader battery_writer, .writer battery_writer,
       .data battery_reader] "BatteryInterface::robot2").2.1
      (by
        intro i hi
        have hlog : add_log BlackBoardInterfaceListener.new
            [.data battery_writer, .reader battery_writer, .writer battery_writer,
             .data battery_reader] =
            [.data battery_writer, .reader battery_writer, .writer battery_writer] := by
          decide
        rw [hlog] at hi
        simp at hi
        subst hi
        decide),
   (bbil_interface_returns_added [] "").2.2.2.2.2.2
      BlackBoardInterfaceListener.new _ battery_writer rfl⟩

/-! ## Theorems: interface manager -/

/-- C4 (as amended): after every sequence of open_for_reading,
open_for_writing and close calls on a fresh BlackBoard, every (type, id) has
at most one open writer handle; open_for_writing on a (type, id) that has
an open writer fails with the writer-conflict error and leaves the whole
state (reader and writer bookkeeping included) unchanged; open_for_writing on a
(type, id) without open writer never fails for a writer on another id: it
succeeds, and its handle becomes the one writer, whenever the instance is
live or the arena has room for a new instance, and fails with out-of-memory,
changing nothing, when the instance has to be created and the arena has no
room. -/
theorem single_writer_per_instance {μ : Type} (cfg : Config μ) (m0 : μ) (ops : List Op)
    (t i : String) :
    (writers_of (run cfg (BlackBoard.init m0) ops) t i).length ≤ 1 ∧
    (writers_of (run cfg (BlackBoard.init m0) ops) t i ≠ [] →
      open_for_writing cfg t i (run cfg (BlackBoard.init m0) ops) =
        (.error .BlackBoardWriterActiveException, run cfg (BlackBoard.init m0) ops)) ∧
    (writers_of (run cfg (BlackBoard.init m0) ops) t i = [] →
      ((find_instance (run cfg (BlackBoard.init m0) ops) t i).isSome = true ∨
          (cfg.memmgr.alloc (cfg.schema_size t)
            (run cfg (BlackBoard.init m0) ops).mem).isSome = true →
        ∃ h, (open_for_writing cfg t i (run cfg (BlackBoard.init m0) ops)).1 = .ok h ∧
          h.write_access = true ∧ h.type = t ∧ h.id = i ∧
          writers_of (open_for_writing cfg t i (run cfg (BlackBoard.init m0) ops)).2 t i =
            [h]) ∧
      (find_instance (run cfg (BlackBoard.init m0) ops) t i = none ∧
          cfg.memmgr.alloc (cfg.schema_size t) (run cfg (BlackBoard.init m0) ops).mem = none →
        open_for_writing cfg t i (run cfg (BlackBoard.init m0) ops) =
          (.error .OutOfMemoryException, run cfg (BlackBoard.init m0) ops))) := by
  have wf := run_wf cfg ops (BlackBoard.init m0) (WellFormed.init m0)
  exact ⟨wf.writers_of_le_one t i, wf.second_writer_fails cfg t i, wf.free_id_opens cfg t i⟩

/-- Witness of C4 (as amended) on the QA BlackBoard: a second writer on
"SomeID 1" is refused and nothing changes, while a writer on the new id
"SomeID 4" is opened. -/
theorem single_writer_per_instance_witness :
    open_for_writing scenario_cfg "TestInterface" "SomeID 1" qa_bb =
      (.error .BlackBoardWriterActiveException, qa_bb) ∧
    ∃ h, (open_for_writing scenario_cfg "TestInterface" "SomeID 4" qa_bb).1 = .ok h ∧
      h.write_access = true ∧ h.type = "TestInterface" ∧ h.id = "SomeID 4" ∧
      writers_of (open_for_writing scenario_cfg "TestInterface" "SomeID 4" qa_bb).2
        "TestInterface" "SomeID 4" = [h] :=
  ⟨(single_writer_per_instance scenario_cfg ⟨1024, [], 0⟩ qa_ops
      "TestInterface" "SomeID 1").2.1 (by decide),
   ((single_writer_per_instance scenario_cfg ⟨1024, [], 0⟩ qa_ops
      "TestInterface" "SomeID 4").2.2 (by decide)).1 (Or.inr (by decide))⟩

/-- Counterexample to C4 as stated: in an arena with room for one instance a
writer is open on "SomeID 1"; open_for_writing on the distinct id "SomeID 2"
of the same type, which has no writer, does not succeed: it fails with
out-of-memory. -/
theorem open_for_writing_distinct_id_fails :
    writers_of tiny_bb "TestInterface" "SomeID 1" =
      [⟨"TestInterface", "SomeID 1", 1, 1, true⟩] ∧
    writers_of tiny_bb "TestInterface" "SomeID 2" = [] ∧
    open_for_writing scenario_cfg "TestInterface" "SomeID 2" tiny_bb =
      (.error .OutOfMemoryException, tiny_bb) :=
  ⟨by decide, by decide, rfl⟩

/-- C9: on every BlackBoard reached by open and close calls,
`open_all_of_type_for_reading(type, id_prefix)` succeeds and returns reader
handles, all open afterwards, such that every live instance of the type
whose id starts with the prefix (every live instance of the type when no
prefix is given) has exactly one handle, and every handle returned is a
reader on a live instance of that type whose id starts with the prefix; on
the QA BlackBoard the prefix "Another" yields exactly the three readers on
"AnotherID 1", "AnotherID 2" and "AnotherID 3", and no prefix yields seven. -/
theorem open_all_of_type_for_reading_exact {μ : Type} (cfg : Config μ) (m0 : μ)
    (ops : List Op) (t : String) ( id_pfx : Option String) :
    (∃ hs s1,
      open_all_of_type_for_reading cfg t id_pfx (run cfg (BlackBoard.init m0) ops) =
        (.ok hs, s1) ∧
      (∀ x ∈ (run cfg (BlackBoard.init m0) ops).instances,
        x.type = t → id_matches id_pfx x.id = true →
          hs.countP (fun h => decide (h.type = x.type ∧ h.id = x.id)) = 1) ∧
      (∀ h ∈ hs, h.type = t ∧ id_matches id_pfx h.id = true ∧ h.write_access = false ∧
        h ∈ s1.handles ∧
        ∃ x ∈ (run cfg (BlackBoard.init m0) ops).instances, x.type = h.type ∧ x.id = h.id)) ∧
    (∀ id, id_matches none id = true) ∧
    (open_all_of_type_for_reading scenario_cfg "TestInterface" (some "Another") qa_bb).1 =
      .ok [⟨"TestInterface", "AnotherID 1", 5, 9, false⟩,
           ⟨"TestInterface", "AnotherID 2", 6, 10, false⟩,
           ⟨"TestInterface", "AnotherID 3", 7, 11, false⟩] ∧
    (open_all_of_type_for_reading scenario_cfg "TestInterface" none qa_bb).1 =
      .ok [⟨"TestInterface", "SomeID 1", 1, 9, false⟩,
           ⟨"TestInterface", "SomeID 2", 2, 10, false⟩,
           ⟨"TestInterface", "SomeID reader 1", 3, 11, false⟩,
           ⟨"TestInterface", "SomeID 3", 4, 12, false⟩,
           ⟨"TestInterface", "AnotherID 1", 5, 13, false⟩,
           ⟨"TestInterface", "AnotherID 2", 6, 14, false⟩,
           ⟨"TestInterface", "AnotherID 3", 7, 15, false⟩] := by
  refine ⟨?_, fun _ => rfl, by decide, by decide⟩
  have wf := run_wf cfg ops (BlackBoard.init m0) (WellFormed.init m0)
  generalize run cfg (BlackBoard.init m0) ops = s at wf ⊢
  have hfm : ∀ x ∈ s.instances.filter
      (fun x => decide (x.type = t) && id_matches id_pfx x.id),
      x ∈ s.instances ∧ x.type = t ∧ id_matches id_pfx x.id = true := by
    intro x hx
    obtain ⟨h1, h2⟩ := List.mem_filter.mp hx
    simp only [Bool.and_eq_true, decide_eq_true_eq] at h2
    exact ⟨h1, h2.1, h2.2⟩
  have hkeys : ((s.instances.filter
      (fun x => decide (x.type = t) && id_matches id_pfx x.id)).map (fun x => x.id)).map
        (fun i => (t, i)) =
      (s.instances.filter (fun x => decide (x.type = t) && id_matches id_pfx x.id)).map
        (fun x => (x.type, x.id)) := by
    rw [List.map_map]
    apply List.map_congr_left
    intro x hx
    simp [(hfm x hx).2.1]
  have hnd : ((s.instances.filter
      (fun x => decide (x.type = t) && id_matches id_pfx x.id)).map
        (fun x => (x.type, x.id))).Nodup :=
    wf.key_nodup.sublist ((List.filter_sublist _).map _)
  obtain ⟨hs, s1, e1, e2, _, e4, _⟩ := open_readers_spec cfg t
    ((s.instances.filter (fun x => decide (x.type = t) && id_matches id_pfx x.id)).map
      (fun x => x.id)) s
    (by
      intro i hi
      obtain ⟨x, hx, rfl⟩ := List.mem_map.mp hi
      obtain ⟨h1, h2, _⟩ := hfm x hx
      exact List.mem_map.mpr ⟨x, h1, by rw [h2]⟩)
  have hmap : hs.map (fun h => (h.type, h.id)) =
      (s.instances.filter (fun x => decide (x.type = t) && id_matches id_pfx x.id)).map
        (fun x => (x.type, x.id)) := by
    rw [← hkeys]
    have := congrArg (List.map (fun (p : String × String × Bool) => (p.1, p.2.1))) e2
    simpa [List.map_map, Function.comp_def] using this
  refine ⟨hs, s1, e1, ?_, ?_⟩
  · intro x hx ht hm
    have hpred : (fun (h : Interface) => decide (h.type = x.type ∧ h.id = x.id)) =
        (fun (p : String × String) => decide (p = (x.type, x.id))) ∘
          (fun (h : Interface) => (h.type, h.id)) := by
      funext h
      simp [Prod.mk.injEq]
    rw [hpred, ← List.countP_map, hmap]
    apply countP_eq_one_of_nodup _ _ hnd
    exact List.mem_map.mpr ⟨x, List.mem_filter.mpr ⟨hx, by simp [ht, hm]⟩, rfl⟩
  · intro h hh
    have hk : (h.type, h.id) ∈ hs.map (fun h => (h.type, h.id)) :=
      List.mem_map.mpr ⟨h, hh, rfl⟩
    rw [hmap] at hk
    obtain ⟨x, hx, hxk⟩ := List.mem_map.mp hk
    simp only [Prod.mk.injEq] at hxk
    obtain ⟨x1, x2, x3⟩ := hfm x hx
    have hwa : (h.type, h.id, h.write_access) ∈
        hs.map (fun h => (h.type, h.id, h.write_access)) := List.mem_map.mpr ⟨h, hh, rfl⟩
    rw [e2] at hwa
    obtain ⟨j, _, hj⟩ := List.mem_map.mp hwa
    simp only [Prod.mk.injEq] at hj
    refine ⟨by rw [← hxk.1, x2], by rw [← hxk.2]; exact x3, hj.2.2.symm, e4 h hh,
      x, x1, hxk.1, hxk.2⟩

/-- Witness of C9 on the QA BlackBoard: the instance "AnotherID 2" gets
exactly one of the readers opened for the prefix "Another". -/
theorem open_all_of_type_for_reading_exact_witness :
    ∃ hs s1,
      open_all_of_type_for_reading scenario_cfg "TestInterface" (some "Another") qa_bb =
        (.ok hs, s1) ∧
      hs.countP (fun h => decide (h.type = "TestInterface" ∧ h.id = "AnotherID 2")) = 1 :=
  match (open_all_of_type_for_reading_exact scenario_cfg ⟨1024, [], 0⟩ qa_ops
      "TestInterface" (some "Another")).1 with
  | ⟨hs, s1, h1, h2, _⟩ =>
    ⟨hs, s1, h1, h2 ⟨"TestInterface", "AnotherID 2", 6, 5, 0, true, [], 0⟩
      (by decide) rfl (by decide)⟩

/-! ## Theorems: the Dynamixel driver's message callback -/

/-- C12: `DynamixelDriverThread::bb_interface_message_received` returns false
(declines) exactly when the uid of the interface is the uid of the servo
interface of one of the driver's servos and the message is a StopMessage or a
FlushMessage; in every other case it returns true.  When it declines it has
stopped the motion of that servo on the spot, so the control message is
handled at once and not queued. -/
theorem bb_interface_message_received_declines_iff (t : DynamixelDriverThread)
    (interface : Interface) (message : Message) :
    ((t.bb_interface_message_received interface message).1 = false ↔
      ((∃ sp ∈ t.servos_, sp.2.servo_if.uid = interface.uid) ∧
        (message.mclass = .StopMessage ∨ message.mclass = .FlushMessage))) ∧
    ((t.bb_interface_message_received interface message).1 = true ↔
      ((∀ sp ∈ t.servos_, sp.2.servo_if.uid ≠ interface.uid) ∨
        (message.mclass ≠ .StopMessage ∧ message.mclass ≠ .FlushMessage))) ∧
    ((t.bb_interface_message_received interface message).1 = false →
      ∃ sp ∈ t.servos_, sp.2.servo_if.uid = interface.uid ∧
        DriverAction.stop_motion sp.1 ∈ (t.bb_interface_message_received interface message).2) ∧
    (t.listener interface message).enqueue =
      (t.bb_interface_message_received interface message).1 := by
  unfold DynamixelDriverThread.bb_interface_message_received
  cases hf : t.servos_.find? (fun sp => decide (sp.2.servo_if.uid = interface.uid)) with
  | none =>
    have hnone := List.find?_eq_none.mp hf
    simp only [decide_eq_true_eq] at hnone
    refine ⟨?_, ?_, ?_, ?_⟩
    · simp only [Bool.true_eq_false, false_iff, not_and]
      rintro ⟨sp, hsp, hu⟩
      exact absurd hu (hnone sp hsp)
    · simp only [true_iff]
      exact Or.inl hnone
    · intro h
      simp at h
    · simp [DynamixelDriverThread.listener, DynamixelDriverThread.bb_interface_message_received, hf]
  | some si =>
    have hmem := List.mem_of_find?_eq_some hf
    have hp := List.find?_some hf
    simp only [decide_eq_true_eq] at hp
    have hex : ∃ sp ∈ t.servos_, sp.2.servo_if.uid = interface.uid := ⟨si, hmem, hp⟩
    have hnall : ¬ ∀ sp ∈ t.servos_, sp.2.servo_if.uid ≠ interface.uid :=
      fun hall => hall si hmem hp
    by_cases hs : message.mclass = .StopMessage
    · refine ⟨?_, ?_, ?_, ?_⟩
      · simp [hs, hex]
      · simp [hs]
        exact ⟨si.1, si.2, hmem, hp⟩
      · intro _
        exact ⟨si, hmem, hp, by simp [hs]⟩
      · simp [DynamixelDriverThread.listener,
          DynamixelDriverThread.bb_interface_message_received, hf, hs]
    · by_cases hfl : message.mclass = .FlushMessage
      · refine ⟨?_, ?_, ?_, ?_⟩
        · simp [hs, hfl, hex]
        · simp [hfl]
          exact ⟨si.1, si.2, hmem, hp⟩
        · intro _
          exact ⟨si, hmem, hp, by simp [hfl]⟩
        · simp [DynamixelDriverThread.listener,
            DynamixelDriverThread.bb_interface_message_received, hf, hs, hfl]
      · refine ⟨?_, ?_, ?_, ?_⟩
        · simp [hs, hfl]
        · simp [hs, hfl]
        · intro h
          simp [hs, hfl] at h
        · simp [DynamixelDriverThread.listener,
            DynamixelDriverThread.bb_interface_message_received, hf, hs, hfl]

/-- Witness of C12: the driver declines a StopMessage for its servo
interface and stops servo 1, and accepts a GotoMessage. -/
theorem bb_interface_message_received_declines_iff_witness :
    (servo_driver.bb_interface_message_received
      ⟨"DynamixelServoInterface", "/dynamixel/chain/1", 1, 1, true⟩
      ⟨.StopMessage, 1, [], 0⟩).1 = false ∧
    (servo_driver.bb_interface_message_received
      ⟨"DynamixelServoInterface", "/dynamixel/chain/1", 1, 1, true⟩
      ⟨.GotoMessage, 1, [90], 0⟩).1 = true ∧
    ∃ sp ∈ servo_driver.servos_,
      sp.2.servo_if.uid =
        (⟨"DynamixelServoInterface", "/dynamixel/chain/1", 1, 1, true⟩ : Interface).uid ∧
      DriverAction.stop_motion sp.1 ∈ (servo_driver.bb_interface_message_received
        ⟨"DynamixelServoInterface", "/dynamixel/chain/1", 1, 1, true⟩
        ⟨.StopMessage, 1, [], 0⟩).2 :=
  ⟨by decide, by decide,
   (bb_interface_message_received_declines_iff servo_driver
      ⟨"DynamixelServoInterface", "/dynamixel/chain/1", 1, 1, true⟩
      ⟨.StopMessage, 1, [], 0⟩).2.2.1 (by decide)⟩

/-! ## Theorems: BatteryInterface -/

/-- C13: `BatteryInterface::message_valid` returns true exactly for a
PushButtonMessage or a SleepMessage; a message of any other class is refused
by the enqueue of a Battery handle and changes nothing. -/
theorem battery_message_valid_iff (m : Message) :
    (BatteryInterface.message_valid m = true ↔
      (m.mclass = .PushButtonMessage ∨ m.mclass = .SleepMessage)) ∧
    (∀ (μ : Type) (mm : BlackBoardMessageManager (BlackBoard μ) Interface Message)
        (r : Interface) (s : BlackBoard μ),
      ¬ (m.mclass = .PushButtonMessage ∨ m.mclass = .SleepMessage) →
        BatteryInterface.msgq_enqueue mm r m s =
          ⟨.error .InterfaceInvalidMessageException, s, []⟩) := by
  have hiff : BatteryInterface.message_valid m = true ↔
      (m.mclass = .PushButtonMessage ∨ m.mclass = .SleepMessage) := by
    unfold BatteryInterface.message_valid
    by_cases h1 : m.mclass = .PushButtonMessage
    · simp [h1]
    · by_cases h2 : m.mclass = .SleepMessage
      · simp [h2]
      · simp [h1, h2]
  refine ⟨hiff, ?_⟩
  intro μ mm r s hn
  have hv : BatteryInterface.message_valid m = false := by
    cases hb : BatteryInterface.message_valid m with
    | false => rfl
    | true => exact absurd (hiff.mp hb) hn
  simp [BatteryInterface.msgq_enqueue, hv]

/-- Witness of C13: a GotoMessage of the servo interface is not valid for the
Battery interface and R cannot enqueue it. -/
theorem battery_message_valid_iff_witness :
    BatteryInterface.message_valid ⟨.GotoMessage, 1, [90], 0⟩ = false ∧
    BatteryInterface.msgq_enqueue (local_msgmgr scenario_cfg no_listener) battery_reader
      ⟨.GotoMessage, 1, [90], 0⟩ battery_bb =
      ⟨.error .InterfaceInvalidMessageException, battery_bb, []⟩ :=
  ⟨by decide,
   (battery_message_valid_iff ⟨.GotoMessage, 1, [90], 0⟩).2 Arena
      (local_msgmgr scenario_cfg no_listener) battery_reader battery_bb (by decide)⟩

/-- C14: `BatteryInterface::copy_values(other)`: when `other` is a
BatteryInterface the call returns, every field of this interface (current,
voltage, temperature, absolute_soc, relative_soc) then equals the field of
`other`, and `other` is as before; when `other` is of another interface class
the call throws TypeMismatchException and this interface is as before. -/
theorem battery_copy_values (this oi : BatteryInterface) (type : String) :
    (this.copy_values (.battery oi)).1 = .ok () ∧
    (this.copy_values (.battery oi)).2.1.current = oi.current ∧
    (this.copy_values (.battery oi)).2.1.voltage = oi.voltage ∧
    (this.copy_values (.battery oi)).2.1.temperature = oi.temperature ∧
    (this.copy_values (.battery oi)).2.1.absolute_soc = oi.absolute_soc ∧
    (this.copy_values (.battery oi)).2.1.relative_soc = oi.relative_soc ∧
    (this.copy_values (.battery oi)).2.2 = .battery oi ∧
    this.copy_values (.other type) = (.error .TypeMismatchException, this, .other type) :=
  ⟨rfl, rfl, rfl, rfl, rfl, rfl, rfl, rfl⟩

/-- C15: for each of the fields current, voltage and temperature and every
unsigned value `v`, after the setter the getter returns `v` and the getters
of the four other fields return what they did before; a freshly constructed
BatteryInterface returns 0 from the three getters. -/
theorem battery_set_get (b : BatteryInterface) (v : Nat) (hv : v < 4294967296) :
    ((b.set_current v).current = v ∧ (b.set_current v).voltage = b.voltage ∧
      (b.set_current v).temperature = b.temperature ∧
      (b.set_current v).absolute_soc = b.absolute_soc ∧
      (b.set_current v).relative_soc = b.relative_soc) ∧
    ((b.set_voltage v).voltage = v ∧ (b.set_voltage v).current = b.current ∧
      (b.set_voltage v).temperature = b.temperature ∧
      (b.set_voltage v).absolute_soc = b.absolute_soc ∧
      (b.set_voltage v).relative_soc = b.relative_soc) ∧
    ((b.set_temperature v).temperature = v ∧ (b.set_temperature v).current = b.current ∧
      (b.set_temperature v).voltage = b.voltage ∧
      (b.set_temperature v).absolute_soc = b.absolute_soc ∧
      (b.set_temperature v).relative_soc = b.relative_soc) ∧
    BatteryInterface.new.current = 0 ∧ BatteryInterface.new.voltage = 0 ∧
    BatteryInterface.new.temperature = 0 := by
  refine ⟨⟨?_, rfl, rfl, rfl, rfl⟩, ⟨?_, rfl, rfl, rfl, rfl⟩, ⟨?_, rfl, rfl, rfl, rfl⟩,
    rfl, rfl, rfl⟩
  · exact Nat.mod_eq_of_lt hv
  · exact Nat.mod_eq_of_lt hv
  · exact Nat.mod_eq_of_lt hv

/-- Witness of C15: setting the voltage of a fresh interface to 12000. -/
theorem battery_set_get_witness :
    (BatteryInterface.new.set_voltage 12000).voltage = 12000 ∧
    (BatteryInterface.new.set_voltage 12000).current = 0 :=
  ⟨(battery_set_get BatteryInterface.new 12000 (by decide)).2.1.1,
   (battery_set_get BatteryInterface.new 12000 (by decide)).2.1.2.1⟩

/-! ## Theorems: CameraFactory -/

/-- C16: `CameraFactory::instance` never returns NULL.  When the camera type
of the argument is one of the known ids and support for it was compiled in,
it returns a camera whose class is the one of that id; when the type is not
a known id or support was not compiled in, it throws
UnknownCameraTypeException.  The overload taking the argument string does
the same on the parsed argument. -/
theorem camera_instance_never_null (sup : CameraSupport) (cap : CameraArgumentParser)
    (parse : String → CameraArgumentParser) (as : String) :
    CameraFactory.instance_cap sup cap ≠ .ok none ∧
    (sup.compiled cap.cam_type = true →
      ∃ cam, CameraFactory.instance_cap sup cap = .ok (some cam) ∧
        cam.type_id = cap.cam_type) ∧
    (sup.compiled cap.cam_type = false →
      ∃ msg, CameraFactory.instance_cap sup cap = .error (.UnknownCameraTypeException msg)) ∧
    CameraFactory.instance_as sup parse as = CameraFactory.instance_cap sup (parse as) := by
  have key : (sup.compiled cap.cam_type = true ∧
        ∃ cam, CameraFactory.instance_cap sup cap = .ok (some cam) ∧
          cam.type_id = cap.cam_type) ∨
      (sup.compiled cap.cam_type = false ∧
        ∃ msg, CameraFactory.instance_cap sup cap =
          .error (.UnknownCameraTypeException msg)) := by
    unfold CameraFactory.instance_cap CameraSupport.compiled camera_block
    by_cases h1 : cap.cam_type = "firewire"
    · cases hb : sup.HAVE_FIREWIRE_CAM <;>
        simp [h1, hb, bind, Except.bind, Camera.type_id]
    by_cases h2 : cap.cam_type = "leutron"
    · cases hb : sup.HAVE_LEUTRON_CAM <;>
        simp [h2, hb, bind, Except.bind, Camera.type_id]
    by_cases h3 : cap.cam_type = "file"
    · cases hb : sup.HAVE_FILELOADER_CAM <;>
        simp [h3, hb, bind, Except.bind, Camera.type_id]
    by_cases h4 : cap.cam_type = "shmem"
    · cases hb : sup.HAVE_SHMEM_CAM <;>
        simp [h4, hb, bind, Except.bind, Camera.type_id]
    by_cases h5 : cap.cam_type = "net"
    · cases hb : sup.HAVE_NETWORK_CAM <;>
        simp [h5, hb, bind, Except.bind, Camera.type_id]
    by_cases h6 : cap.cam_type = "v4l"
    · cases hb : sup.HAVE_V4L_CAM <;>
        simp [h6, hb, bind, Except.bind, Camera.type_id]
    by_cases h7 : cap.cam_type = "bumblebee2"
    · cases hb : sup.HAVE_BUMBLEBEE2_CAM <;>
        simp [h7, hb, bind, Except.bind, Camera.type_id]
    simp [h1, h2, h3, h4, h5, h6, h7, bind, Except.bind]
  refine ⟨?_, ?_, ?_, ?_⟩
  · rcases key with ⟨_, cam, hc, _⟩ | ⟨_, msg, hm⟩
    · rw [hc]
      simp
    · rw [hm]
      simp
  · intro hc
    rcases key with ⟨_, h⟩ | ⟨hf, _⟩
    · exact h
    · rw [hc] at hf
      cases hf
  · intro hc
    rcases key with ⟨ht, _⟩ | ⟨_, h⟩
    · rw [hc] at ht
      cases ht
    · exact h
  · unfold CameraFactory.instance_as
    cases CameraFactory.instance_cap sup (parse as) <;> rfl

/-- Witness of C16: with only file loader support compiled in, "file" yields
a FileLoader and "firewire" and "webcam" throw. -/
theorem camera_instance_never_null_witness :
    CameraFactory.instance_cap ⟨false, false, true, false, false, false, false⟩
      ⟨"file", "image.jpg"⟩ = .ok (some (.FileLoader ⟨"file", "image.jpg"⟩)) ∧
    (∃ cam, CameraFactory.instance_cap ⟨false, false, true, false, false, false, false⟩
      ⟨"file", "image.jpg"⟩ = .ok (some cam) ∧ cam.type_id = "file") ∧
    (∃ msg, CameraFactory.instance_cap ⟨false, false, true, false, false, false, false⟩
      ⟨"firewire", "0"⟩ = .error (.UnknownCameraTypeException msg)) ∧
    (∃ msg, CameraFactory.instance_cap ⟨false, false, true, false, false, false, false⟩
      ⟨"webcam", "0"⟩ = .error (.UnknownCameraTypeException msg)) :=
  ⟨by decide,
   (camera_instance_never_null ⟨false, false, true, false, false, false, false⟩
      ⟨"file", "image.jpg"⟩ (fun _ => ⟨"file", "image.jpg"⟩) "").2.1 (by decide),
   (camera_instance_never_null ⟨false, false, true, false, false, false, false⟩
      ⟨"firewire", "0"⟩ (fun _ => ⟨"file", "image.jpg"⟩) "").2.2.1 (by decide),
   (camera_instance_never_null ⟨false, false, true, false, false, false, false⟩
      ⟨"webcam", "0"⟩ (fun _ => ⟨"file", "image.jpg"⟩) "").2.2.1 (by decide)⟩

/-! ## Theorems: log level selection -/

theorem quiet_step_spec (k : Nat) (c : Char) :
    quiet_step (quiet_level_spec k) c =
      quiet_level_spec (k + if c = 'q' then 1 else 0) := by
  by_cases hc : c = 'q'
  · simp only [hc, if_true]
    match k with
    | 0 => rfl
    | 1 => rfl
    | 2 => rfl
    | n + 3 => rfl
  · simp [quiet_step, hc]

theorem quiet_foldl_spec (cs : List Char) (k : Nat) :
    cs.foldl quiet_step (quiet_level_spec k) =
      quiet_level_spec (k + (cs.filter (fun c => decide (c = 'q'))).length) := by
  induction cs generalizing k with
  | nil => rfl
  | cons c cs ih =>
    rw [List.foldl_cons, quiet_step_spec, ih]
    by_cases hc : c = 'q'
    · simp [hc, List.filter_cons, Nat.add_assoc, Nat.add_comm 1]
    · simp [hc, List.filter_cons]

/-- C17: when `-q` is present the log level is determined by the number `n`
of 'q' characters in its optional argument alone: INFO for 0 (also when there
is no argument), WARN for 1, ERROR for 2 and NONE for 3 or more; other
characters are skipped, the `-l` argument plays no part, and NONE is never
passed. -/
theorem quiet_level_by_count (arg_q arg_l : Option String) :
    init_log_level true arg_q arg_l = quiet_level_spec (count_q arg_q) ∧
    init_log_level true none arg_l = .LL_INFO ∧
    (count_q arg_q = 0 → init_log_level true arg_q arg_l = .LL_INFO) ∧
    (count_q arg_q = 1 → init_log_level true arg_q arg_l = .LL_WARN) ∧
    (count_q arg_q = 2 → init_log_level true arg_q arg_l = .LL_ERROR) ∧
    (3 ≤ count_q arg_q → init_log_level true arg_q arg_l = .LL_NONE) := by
  have h : init_log_level true arg_q arg_l = quiet_level_spec (count_q arg_q) := by
    cases arg_q with
    | none => rfl
    | some tmp =>
      have := quiet_foldl_spec tmp.toList 0
      simpa [init_log_level, count_q, quiet_level_spec] using this
  refine ⟨h, rfl, ?_, ?_, ?_, ?_⟩
  · intro h0
    rw [h, h0]
    rfl
  · intro h1
    rw [h, h1]
    rfl
  · intro h2
    rw [h, h2]
    rfl
  · intro h3
    rw [h]
    match hn : count_q arg_q, h3 with
    | n + 3, _ => rfl

/-- Witness of C17: `-qqq` (argument "qq") gives ERROR, `-qxq` counts one 'q'
less than `-qqxq`, and five further 'q' give NONE. -/
theorem quiet_level_by_count_witness :
    init_log_level true (some "qq") (some "debug") = .LL_ERROR ∧
    init_log_level true (some "xq") none = .LL_WARN ∧
    init_log_level true (some "v") none = .LL_INFO ∧
    init_log_level true (some "qqqqq") none = .LL_NONE :=
  ⟨(quiet_level_by_count (some "qq") (some "debug")).2.2.2.2.1 (by decide),
   (quiet_level_by_count (some "xq") none).2.2.2.1 (by decide),
   (quiet_level_by_count (some "v") none).2.2.1 (by decide),
   (quiet_level_by_count (some "qqqqq") none).2.2.2.2.2 (by decide)⟩

/-- C18: when `-q` is absent the `-l` argument selects the level: "debug",
"info", "warn", "error" and "none" give DEBUG, INFO, WARN, ERROR and NONE,
and every other string, or no `-l`, leaves the default DEBUG; when `-q` is
present the `-l` argument has no effect on the level. -/
theorem log_level_by_name (arg_q arg_l arg_l2 : Option String) (tmp : String) :
    init_log_level false arg_q (some "debug") = .LL_DEBUG ∧
    init_log_level false arg_q (some "info") = .LL_INFO ∧
    init_log_level false arg_q (some "warn") = .LL_WARN ∧
    init_log_level false arg_q (some "error") = .LL_ERROR ∧
    init_log_level false arg_q (some "none") = .LL_NONE ∧
    (tmp ≠ "debug" → tmp ≠ "info" → tmp ≠ "warn" → tmp ≠ "error" → tmp ≠ "none" →
      init_log_level false arg_q (some tmp) = .LL_DEBUG) ∧
    init_log_level false arg_q none = .LL_DEBUG ∧
    init_log_level true arg_q arg_l = init_log_level true arg_q arg_l2 := by
  refine ⟨rfl, rfl, rfl, rfl, rfl, ?_, rfl, ?_⟩
  · intro h1 h2 h3 h4 h5
    simp [init_log_level, h1, h2, h3, h4, h5]
  · cases arg_q <;> rfl

/-- Witness of C18: the unknown level "verbose" leaves DEBUG. -/
theorem log_level_by_name_witness :
    init_log_level false none (some "verbose") = .LL_DEBUG ∧
    init_log_level false none (some "warn") = .LL_WARN :=
  ⟨(log_level_by_name none none none "verbose").2.2.2.2.2.1
      (by decide) (by decide) (by decide) (by decide) (by decide),
   (log_level_by_name none none none "verbose").2.2.1⟩

/-! ## Theorems: life cycle of the Dynamixel driver as a listener -/

theorem mem_servos_insert (servos : List (Nat × Servo)) (key : Nat) (sv : Servo)
    (sp : Nat × Servo) (h : sp ∈ servos_insert servos key sv) :
    sp = (key, sv) ∨ sp ∈ servos := by
  induction servos with
  | nil =>
    simp only [servos_insert, List.mem_singleton] at h
    exact Or.inl h
  | cons e es ih =>
    unfold servos_insert at h
    by_cases h1 : key < e.1
    · rw [if_pos h1] at h
      rcases List.mem_cons.mp h with h | h
      · exact Or.inl h
      · exact Or.inr h
    · rw [if_neg h1] at h
      by_cases h2 : key = e.1
      · rw [if_pos h2] at h
        rcases List.mem_cons.mp h with h | h
        · exact Or.inl h
        · exact Or.inr (List.mem_cons_of_mem _ h)
      · rw [if_neg h2] at h
        rcases List.mem_cons.mp h with h | h
        · exact Or.inr (h ▸ List.mem_cons_self _ _)
        · rcases ih h with h | h
          · exact Or.inl h
          · exact Or.inr (List.mem_cons_of_mem _ h)

/-- One iteration of the servo loop makes no registration call, and a servo
it enters into `servos_` has had its servo interface added to the message
watch list. -/
theorem init_servo_events {μ : Type} (cfg : Config μ) (cfg_name : String) (i : Nat)
    (servos : List (Nat × Servo)) (bb : BlackBoard μ) (mifs : List (String × Interface)) :
    (∀ e ∈ (init_servo cfg cfg_name i servos bb mifs).events, e.is_registration = false) ∧
    (∀ servos1, (init_servo cfg cfg_name i servos bb mifs).result = .ok servos1 →
      ∀ sp ∈ servos1, sp ∈ servos ∨
        DriverEvent.bbil_add_message_interface sp.2.servo_if ∈
          (init_servo cfg cfg_name i servos bb mifs).events) := by
  unfold init_servo
  rcases h1 : open_for_writing cfg "DynamixelServoInterface"
      (servo_interface_id cfg_name i) bb with ⟨r1, bb1⟩
  cases r1 with
  | error e => simp [DriverEvent.is_registration]
  | ok servo_if =>
    dsimp only
    rcases h2 : open_for_writing cfg "LedInterface"
        (servo_interface_id cfg_name i) bb1 with ⟨r2, bb2⟩
    cases r2 with
    | error e => simp [DriverEvent.is_registration]
    | ok led_if =>
      dsimp only
      rcases h3 : open_for_writing cfg "JointInterface"
          (servo_interface_id cfg_name i) bb2 with ⟨r3, bb3⟩
      cases r3 with
      | error e => simp [DriverEvent.is_registration]
      | ok joint_if =>
        dsimp only
        cases h4 : bbil_add_message_interface mifs servo_if with
        | error e => simp [DriverEvent.is_registration]
        | ok mifs1 =>
          refine ⟨by simp [DriverEvent.is_registration], ?_⟩
          intro servos1 hs sp hsp
          simp only [Except.ok.injEq] at hs
          subst hs
          rcases mem_servos_insert _ _ _ _ hsp with h | h
          · right
            subst h
            simp
          · exact Or.inl h

theorem init_servos_events {μ : Type} (cfg : Config μ) (cfg_name : String) (devl : List Nat)
    (servos : List (Nat × Servo)) (bb : BlackBoard μ) (mifs : List (String × Interface)) :
    (∀ e ∈ (init_servos cfg cfg_name devl servos bb mifs).events, e.is_registration = false) ∧
    (∀ servos1, (init_servos cfg cfg_name devl servos bb mifs).result = .ok servos1 →
      ∀ sp ∈ servos1, sp ∈ servos ∨
        DriverEvent.bbil_add_message_interface sp.2.servo_if ∈
          (init_servos cfg cfg_name devl servos bb mifs).events) := by
  induction devl generalizing servos bb mifs with
  | nil =>
    refine ⟨by simp [init_servos], ?_⟩
    intro servos1 hs sp hsp
    simp only [init_servos, Except.ok.injEq] at hs
    subst hs
    exact Or.inl hsp
  | cons i devl ih =>
    obtain ⟨a1, a2⟩ := init_servo_events cfg cfg_name i servos bb mifs
    unfold init_servos
    rcases hstep : init_servo cfg cfg_name i servos bb mifs with ⟨r, bb1, mifs1, ev⟩
    rw [hstep] at a1 a2
    cases r with
    | error e =>
      refine ⟨a1, ?_⟩
      intro servos1 hs
      cases hs
    | ok servos0 =>
      obtain ⟨b1, b2⟩ := ih servos0 bb1 mifs1
      dsimp only at a1 a2 ⊢
      constructor
      · intro e he
        rcases List.mem_append.mp he with he | he
        · exact a1 e he
        · exact b1 e he
      · intro servos1 hs sp hsp
        rcases b2 servos1 hs sp hsp with h | h
        · rcases a2 servos0 rfl sp h with h | h
          · exact Or.inl h
          · exact Or.inr (List.mem_append_left _ h)
        · exact Or.inr (List.mem_append_right _ h)

theorem lifecycle_of_no_registration (es : List DriverEvent)
    (h : ∀ e ∈ es, e.is_registration = false) :
    lifecycle_ok false es = true ∧ registered_after false es = false := by
  induction es with
  | nil => exact ⟨rfl, rfl⟩
  | cons e es ih =>
    have hrest := ih (fun x hx => h x (List.mem_cons_of_mem _ hx))
    have he := h e (List.mem_cons_self _ _)
    cases e with
    | register_listener => simp [DriverEvent.is_registration] at he
    | unregister_listener => simp [DriverEvent.is_registration] at he
    | open_for_writing t i => simpa [lifecycle_ok, registered_after] using hrest
    | bbil_add_message_interface i => simpa [lifecycle_ok, registered_after] using hrest
    | close i => simpa [lifecycle_ok, registered_after] using hrest

theorem lifecycle_ok_append (reg : Bool) (a b : List DriverEvent) :
    lifecycle_ok reg (a ++ b) =
      (lifecycle_ok reg a && lifecycle_ok (registered_after reg a) b) := by
  induction a generalizing reg with
  | nil => simp [lifecycle_ok, registered_after]
  | cons e es ih =>
    cases e with
    | register_listener => simp [lifecycle_ok, registered_after, ih]
    | unregister_listener => simp [lifecycle_ok, registered_after, ih]
    | open_for_writing t i => simp [lifecycle_ok, registered_after, ih]
    | bbil_add_message_interface i => simp [lifecycle_ok, registered_after, ih, Bool.and_assoc]
    | close i => simp [lifecycle_ok, registered_after, ih, Bool.and_assoc]

theorem finalize_servos_events {μ : Type} (cfg : Config μ) (servos : List (Nat × Servo))
    (bb : BlackBoard μ) :
    (∀ e ∈ (finalize_servos cfg servos bb).2, ∃ i, e = DriverEvent.close (some i)) ∧
    (∀ sp ∈ servos,
      DriverEvent.close (some sp.2.servo_if) ∈ (finalize_servos cfg servos bb).2 ∧
      DriverEvent.close (some sp.2.led_if) ∈ (finalize_servos cfg servos bb).2 ∧
      DriverEvent.close (some sp.2.joint_if) ∈ (finalize_servos cfg servos bb).2) := by
  induction servos generalizing bb with
  | nil => simp [finalize_servos]
  | cons sp rest ih =>
    obtain ⟨i1, i2⟩ := ih (close_opt cfg (some sp.2.joint_if)
      (close_opt cfg (some sp.2.led_if) (close_opt cfg (some sp.2.servo_if) bb)))
    constructor
    · intro e he
      simp only [finalize_servos, List.cons_append, List.nil_append, List.mem_cons] at he
      rcases he with h | h | h | h
      · exact ⟨_, h⟩
      · exact ⟨_, h⟩
      · exact ⟨_, h⟩
      · exact i1 e h
    · intro sq hsq
      simp only [finalize_servos, List.cons_append, List.nil_append, List.mem_cons]
      rcases List.mem_cons.mp hsq with h | h
      · subst h
        simp
      · obtain ⟨c1, c2, c3⟩ := i2 sq h
        exact ⟨Or.inr (Or.inr (Or.inr c1)), Or.inr (Or.inr (Or.inr c2)),
          Or.inr (Or.inr (Or.inr c3))⟩

/-- C11: in every run of `init`, whatever the chain discovers and wherever an
exception is thrown, no interface is added to the watch list or closed while
the listener is registered: a run that succeeds ends with
`register_listener` as its only registration call, after the
`bbil_add_message_interface` of the servo interface of every servo in
`servos_`, and a run that throws never registers.  Every run of `finalize`
starts with `unregister_listener` and then only closes interfaces, among them
the servo, LED and joint interface of every servo.  So along `init` followed
by `finalize` no interface is closed while the listener is registered. -/
theorem driver_listener_lifecycle {μ : Type} (cfg : Config μ) (dcfg : DriverConfig)
    (env : InitEnv) (bb bb2 : BlackBoard μ) (t2 : DynamixelDriverThread) :
    lifecycle_ok false (DynamixelDriverThread.init cfg dcfg env bb).events = true ∧
    (∀ t, (DynamixelDriverThread.init cfg dcfg env bb).result = .ok t →
      ∃ pre, (DynamixelDriverThread.init cfg dcfg env bb).events =
          pre ++ [.register_listener] ∧
        (∀ e ∈ pre, e.is_registration = false) ∧
        (∀ sp ∈ t.servos_, DriverEvent.bbil_add_message_interface sp.2.servo_if ∈ pre) ∧
        lifecycle_ok false ((DynamixelDriverThread.init cfg dcfg env bb).events ++
          (DynamixelDriverThread.finalize cfg t
            (DynamixelDriverThread.init cfg dcfg env bb).bb).2) = true) ∧
    (∀ e, (DynamixelDriverThread.init cfg dcfg env bb).result = .error e →
      ∀ ev ∈ (DynamixelDriverThread.init cfg dcfg env bb).events,
        ev.is_registration = false) ∧
    (∃ closes, (DynamixelDriverThread.finalize cfg t2 bb2).2 =
        .unregister_listener :: closes ∧
      (∀ e ∈ closes, ∃ i, e = DriverEvent.close (some i)) ∧
      (∀ sp ∈ t2.servos_, DriverEvent.close (some sp.2.servo_if) ∈ closes ∧
        DriverEvent.close (some sp.2.led_if) ∈ closes ∧
        DriverEvent.close (some sp.2.joint_if) ∈ closes)) ∧
    lifecycle_ok true (DynamixelDriverThread.finalize cfg t2 bb2).2 = true := by
  have hfin : ∀ (t : DynamixelDriverThread) (b : BlackBoard μ),
      lifecycle_ok false (finalize_servos cfg t.servos_ b).2 = true := by
    intro t b
    apply (lifecycle_of_no_registration _ _).1
    intro e he
    obtain ⟨i, hi⟩ := (finalize_servos_events cfg t.servos_ b).1 e he
    rw [hi]
    rfl
  have hinit : (∀ t, (DynamixelDriverThread.init cfg dcfg env bb).result = .ok t →
      ∃ pre, (DynamixelDriverThread.init cfg dcfg env bb).events =
          pre ++ [.register_listener] ∧
        (∀ e ∈ pre, e.is_registration = false) ∧
        (∀ sp ∈ t.servos_, DriverEvent.bbil_add_message_interface sp.2.servo_if ∈ pre)) ∧
      (∀ e, (DynamixelDriverThread.init cfg dcfg env bb).result = .error e →
        ∀ ev ∈ (DynamixelDriverThread.init cfg dcfg env bb).events,
          ev.is_registration = false) := by
    unfold DynamixelDriverThread.init
    by_cases hsetup : env.setup_throws = true
    · simp [hsetup]
    · simp only [hsetup]
      obtain ⟨l1, l2⟩ := init_servos_events cfg dcfg.cfg_name_ env.devl [] bb []
      rcases hl : init_servos cfg dcfg.cfg_name_ env.devl [] bb [] with ⟨r, bb1, mifs, ev⟩
      rw [hl] at l1 l2
      cases r with
      | error e =>
        exact ⟨fun t ht => (by cases ht), fun _ _ => l1⟩
      | ok servos =>
        by_cases hempty : servos.isEmpty = true
        · simp only [hempty, if_true]
          exact ⟨fun t ht => (by cases ht), fun _ _ => l1⟩
        · by_cases hchain : env.chain_throws = true
          · simp only [hempty, hchain, if_true]
            exact ⟨fun t ht => (by cases ht), fun _ _ => l1⟩
          · simp only [hempty, hchain]
            constructor
            · intro t ht
              simp only [Bool.false_eq_true, if_false, Except.ok.injEq] at ht
              subst ht
              refine ⟨ev, by simp, l1, ?_⟩
              intro sp hsp
              rcases l2 servos rfl sp hsp with h | h
              · exact absurd h (List.not_mem_nil _)
              · exact h
            · intro e he
              simp at he
  refine ⟨?_, ?_, hinit.2, ?_, ?_⟩
  · cases hres : (DynamixelDriverThread.init cfg dcfg env bb).result with
    | error e => exact (lifecycle_of_no_registration _ (hinit.2 e hres)).1
    | ok t =>
      obtain ⟨pre, hpre, hno, _⟩ := hinit.1 t hres
      rw [hpre, lifecycle_ok_append, (lifecycle_of_no_registration pre hno).1,
        (lifecycle_of_no_registration pre hno).2]
      rfl
  · intro t ht
    obtain ⟨pre, hpre, hno, hadd⟩ := hinit.1 t ht
    refine ⟨pre, hpre, hno, hadd, ?_⟩
    rw [hpre, List.append_assoc, lifecycle_ok_append,
      (lifecycle_of_no_registration pre hno).1, (lifecycle_of_no_registration pre hno).2]
    simp only [Bool.true_and, List.singleton_append, lifecycle_ok,
      DynamixelDriverThread.finalize]
    exact hfin t _
  · exact ⟨_, rfl, (finalize_servos_events cfg t2.servos_ bb2).1,
      (finalize_servos_events cfg t2.servos_ bb2).2⟩
  · simp only [DynamixelDriverThread.finalize, lifecycle_ok]
    exact hfin t2 bb2

/-- Witness of C11: a run of `init` that finds the servos 1 and 2 ends with
its one `register_listener` after both servo interfaces were added, and the
`finalize` after it closes nothing while registered; a run in which the
chain reports servo 1 twice throws on the second open and never registers. -/
theorem driver_listener_lifecycle_witness :
    (DynamixelDriverThread.init scenario_cfg driver_cfg ⟨[1, 2], false, false⟩
      scenario_bb).result = .ok two_servo_driver ∧
    (∃ pre, (DynamixelDriverThread.init scenario_cfg driver_cfg ⟨[1, 2], false, false⟩
        scenario_bb).events = pre ++ [.register_listener] ∧
      (∀ e ∈ pre, e.is_registration = false) ∧
      (∀ sp ∈ two_servo_driver.servos_,
        DriverEvent.bbil_add_message_interface sp.2.servo_if ∈ pre) ∧
      lifecycle_ok false
        ((DynamixelDriverThread.init scenario_cfg driver_cfg ⟨[1, 2], false, false⟩
            scenario_bb).events ++
          (DynamixelDriverThread.finalize scenario_cfg two_servo_driver
            (DynamixelDriverThread.init scenario_cfg driver_cfg ⟨[1, 2], false, false⟩
              scenario_bb).bb).2) = true) ∧
    (DynamixelDriverThread.init scenario_cfg driver_cfg ⟨[1, 1], false, false⟩
      scenario_bb).result = .error .BlackBoardWriterActiveException ∧
    (∀ ev ∈ (DynamixelDriverThread.init scenario_cfg driver_cfg ⟨[1, 1], false, false⟩
        scenario_bb).events, ev.is_registration = false) :=
  ⟨rfl,
   (driver_listener_lifecycle scenario_cfg driver_cfg ⟨[1, 2], false, false⟩ scenario_bb
      scenario_bb two_servo_driver).2.1 two_servo_driver rfl,
   rfl,
   (driver_listener_lifecycle scenario_cfg driver_cfg ⟨[1, 1], false, false⟩ scenario_bb
      scenario_bb two_servo_driver).2.2.1 .BlackBoardWriterActiveException rfl⟩

/-! ## Theorems: NetworkNameResolverThread -/

theorem strstr_some (needle : List Char) (haystack : List Char) (k : Nat)
    (h : strstr haystack needle = some k) : needle <+: haystack.drop k := by
  induction haystack generalizing k with
  | nil =>
    unfold strstr at h
    by_cases hp : needle.isPrefixOf [] = true
    · rw [if_pos hp] at h
      cases h
      exact List.isPrefixOf_iff_prefix.mp hp
    · rw [if_neg hp] at h
      cases h
  | cons c cs ih =>
    unfold strstr at h
    by_cases hp : needle.isPrefixOf (c :: cs) = true
    · rw [if_pos hp] at h
      cases h
      exact List.isPrefixOf_iff_prefix.mp hp
    · rw [if_neg hp] at h
      dsimp only at h
      cases hr : strstr cs needle with
      | none =>
        rw [hr] at h
        cases h
      | some j =>
        rw [hr] at h
        simp only [Option.map_some', Option.some.injEq] at h
        subst h
        exact ih j hr

/-- The Avahi lookup is ordered only for names that end with ".local": the
half of the documented behaviour that the test `f == n` does ensure. -/
theorem avahi_lookup_only_for_local (env : ResolverEnv) (name : String)
    (h : ResolverCall.avahi_resolve_name name ∈ (resolve_name_immediately env name).2) :
    ends_with_local name = true ∧ env.HAVE_AVAHI = true ∧ env.avahi_thread = true := by
  unfold resolve_name_immediately at h
  by_cases hc : (env.HAVE_AVAHI && (env.avahi_thread && local_found_at_end name)) = true
  · simp only [Bool.and_eq_true] at hc
    refine ⟨?_, hc.1, hc.2.1⟩
    have hl := hc.2.2
    unfold local_found_at_end at hl
    cases hs : strstr name.toList ".local".toList with
    | none =>
      rw [hs] at hl
      cases hl
    | some f =>
      rw [hs] at hl
      simp only [decide_eq_true_eq] at hl
      obtain ⟨t, ht⟩ := strstr_some _ _ _ hs
      have hlen := congrArg List.length ht
      simp only [List.length_append, List.length_drop] at hlen
      have h6 : (".local".toList).length = 6 := by decide
      have ht0 : t = [] := by
        apply List.eq_nil_of_length_eq_zero
        omega
      subst ht0
      rw [List.append_nil] at ht
      unfold ends_with_local
      rw [List.isSuffixOf_iff_suffix]
      exact ⟨name.toList.take f, by rw [ht]; exact List.take_append_drop f name.toList⟩
  · simp only [hc] at h
    simp at h

/-- C19 (the code at a failing input): with Avahi compiled in and an Avahi
thread supplied, `resolve_name_immediately` orders the Avahi lookup for
"pc.local", but for "pc.localnet.local", which ends with ".local" as well, it
orders none: `strstr` finds the first ".local", inside ".localnet", and that
is not at the end of the name. -/
theorem avahi_lookup_missed_for_inner_local :
    scenario_env.HAVE_AVAHI = true ∧ scenario_env.avahi_thread = true ∧
    ends_with_local "pc.local" = true ∧
    (resolve_name_immediately scenario_env "pc.local").2 = [.avahi_resolve_name "pc.local"] ∧
    ends_with_local "pc.localnet.local" = true ∧
    strstr "pc.localnet.local".toList ".local".toList = some 2 ∧
    local_found_at_end "pc.localnet.local" = false ∧
    (resolve_name_immediately scenario_env "pc.localnet.local").2 = [] :=
  ⟨rfl, rfl, by decide, by decide, by decide, by decide, by decide, by decide⟩

theorem resolve_address_no_callback (env : ResolverEnv) (addr : sockaddr_in) :
    (resolve_address_immediately env addr).2.filterMap ResolverCall.reports_on = [] := by
  have ha : (avahi_address_order env addr).filterMap ResolverCall.reports_on = [] := by
    unfold avahi_address_order
    split <;> simp [ResolverCall.reports_on]
  unfold resolve_address_immediately
  cases env.getnameinfo_namereqd addr with
  | some hbuf =>
    by_cases hm : env.malloc_fails hbuf = true
    · simp [hm]
    · simp [hm, ha]
  | none =>
    cases env.getnameinfo addr with
    | some hbuf =>
      by_cases hm : env.malloc_fails hbuf = true
      · simp [hm]
      · simp [hm, ha]
    | none => simp [ha]

theorem resolve_address_returns (env : ResolverEnv) (addr : sockaddr_in)
    (hmalloc : ∀ n, env.malloc_fails n = false) :
    ∃ v, (resolve_address_immediately env addr).1 = .ok v := by
  unfold resolve_address_immediately
  cases env.getnameinfo_namereqd addr with
  | some hbuf => simp [hmalloc]
  | none =>
    cases env.getnameinfo addr with
    | some hbuf => simp [hmalloc]
    | none => simp

theorem resolve_name_no_callback (env : ResolverEnv) (name : String) :
    (resolve_name_immediately env name).2.filterMap ResolverCall.reports_on = [] := by
  unfold resolve_name_immediately
  split <;> simp [ResolverCall.reports_on]

/-- The address loop with enough fuel: if it returns, the queue is empty and
each entry got one callback, in queue order; it returns when no `malloc`
fails. -/
theorem loop_addrq_spec (env : ResolverEnv) (fuel : Nat) (q : List (Nat × sockaddr_in))
    (hf : q.length ≤ fuel) :
    ((loop_addrq env fuel q).1 = .ok () →
      (loop_addrq env fuel q).2.1 = [] ∧
      (loop_addrq env fuel q).2.2.filterMap ResolverCall.reports_on =
        q.map (fun e => QueueEntry.address e.2)) ∧
    ((∀ n, env.malloc_fails n = false) → (loop_addrq env fuel q).1 = .ok ()) := by
  induction q generalizing fuel with
  | nil =>
    cases fuel <;> simp [loop_addrq]
  | cons e rest ih =>
    cases fuel with
    | zero => simp at hf
    | succ fuel =>
      have hf2 : rest.length ≤ fuel := by
        simp only [List.length_cons] at hf
        omega
      obtain ⟨i1, i2⟩ := ih fuel hf2
      have hnc := resolve_address_no_callback env e.2
      unfold loop_addrq
      rcases hr : resolve_address_immediately env e.2 with ⟨r, calls⟩
      rw [hr] at hnc
      cases r with
      | error ex =>
        constructor
        · intro h
          cases h
        · intro hm
          obtain ⟨v, hv⟩ := resolve_address_returns env e.2 hm
          rw [hr] at hv
          cases hv
      | ok found =>
        cases found with
        | none =>
          dsimp only
          constructor
          · intro h
            obtain ⟨a1, a2⟩ := i1 h
            refine ⟨a1, ?_⟩
            simp only [List.filterMap_append, hnc, a2, List.map_cons]
            rfl
          · exact i2
        | some nf =>
          dsimp only
          constructor
          · intro h
            obtain ⟨a1, a2⟩ := i1 h
            refine ⟨a1, ?_⟩
            simp only [List.filterMap_append, hnc, a2, List.map_cons]
            rfl
          · exact i2

/-- The name loop with enough fuel empties the queue and makes one callback
for each entry, in queue order. -/
theorem loop_namesq_spec (env : ResolverEnv) (fuel : Nat) (q : List String)
    (hf : q.length ≤ fuel) :
    (loop_namesq env fuel q).1 = [] ∧
    (loop_namesq env fuel q).2.filterMap ResolverCall.reports_on = q.map QueueEntry.name := by
  induction q generalizing fuel with
  | nil =>
    cases fuel <;> simp [loop_namesq]
  | cons nqn rest ih =>
    cases fuel with
    | zero => simp at hf
    | succ fuel =>
      have hf2 : rest.length ≤ fuel := by
        simp only [List.length_cons] at hf
        omega
      obtain ⟨i1, i2⟩ := ih fuel hf2
      have hnc := resolve_name_no_callback env nqn
      unfold loop_namesq
      rcases hr : resolve_name_immediately env nqn with ⟨r, calls⟩
      rw [hr] at hnc
      cases r with
      | none =>
        dsimp only
        refine ⟨i1, ?_⟩
        simp only [List.filterMap_append, hnc, i2, List.map_cons]
        rfl
      | some addr =>
        dsimp only
        refine ⟨i1, ?_⟩
        simp only [List.filterMap_append, hnc, i2, List.map_cons]
        rfl

/-- C20: `loop` carries out all queued resolution operations and ends: when
it returns, the address queue and the name queue are empty and the resolver
has received exactly one callback for every entry that was queued, in
processing order, `addr_resolved` or `address_resolution_failed` for an
address and `name_resolved` or `name_resolution_failed` for a name; and it
does return whenever no `malloc` of a host name buffer fails (the one case in
which the code throws instead). -/
theorem loop_resolves_all (env : ResolverEnv) (t : NetworkNameResolverThread) :
    ((NetworkNameResolverThread.loop env t).result = .ok () →
      (NetworkNameResolverThread.loop env t).thread.addrq = [] ∧
      (NetworkNameResolverThread.loop env t).thread.namesq = [] ∧
      (NetworkNameResolverThread.loop env t).calls.filterMap ResolverCall.reports_on =
        t.entries) ∧
    ((∀ n, env.malloc_fails n = false) →
      (NetworkNameResolverThread.loop env t).result = .ok ()) := by
  obtain ⟨a1, a2⟩ := loop_addrq_spec env t.addrq.length t.addrq (Nat.le_refl _)
  obtain ⟨n1, n2⟩ := loop_namesq_spec env t.namesq.length t.namesq (Nat.le_refl _)
  unfold NetworkNameResolverThread.loop
  rcases hl : loop_addrq env t.addrq.length t.addrq with ⟨r, aq, calls⟩
  rw [hl] at a1 a2
  cases r with
  | error ex =>
    constructor
    · intro h
      cases h
    · intro hm
      have := a2 hm
      cases this
  | ok u =>
    dsimp only at a1 a2 ⊢
    constructor
    · intro _
      obtain ⟨b1, b2⟩ := a1 rfl
      refine ⟨b1, n1, ?_⟩
      rw [List.filterMap_append, b2, n2]
      rfl
    · intro _
      rfl

/-- Witness of C20: three addresses and two names are queued; `loop` returns
with both queues empty after five callbacks. -/
theorem loop_resolves_all_witness :
    (NetworkNameResolverThread.loop scenario_env
      ⟨[(5, ⟨5, 0⟩), (167772161, ⟨167772161, 0⟩), (3232235777, ⟨3232235777, 0⟩)],
       ["robot", "pc.local"]⟩).thread = ⟨[], []⟩ ∧
    (NetworkNameResolverThread.loop scenario_env
      ⟨[(5, ⟨5, 0⟩), (167772161, ⟨167772161, 0⟩), (3232235777, ⟨3232235777, 0⟩)],
       ["robot", "pc.local"]⟩).calls.filterMap ResolverCall.reports_on =
      [.address ⟨5, 0⟩, .address ⟨167772161, 0⟩, .address ⟨3232235777, 0⟩,
       .name "robot", .name "pc.local"] ∧
    (NetworkNameResolverThread.loop scenario_env
      ⟨[(5, ⟨5, 0⟩), (167772161, ⟨167772161, 0⟩), (3232235777, ⟨3232235777, 0⟩)],
       ["robot", "pc.local"]⟩).result = .ok () :=
  ⟨by decide,
   ((loop_resolves_all scenario_env
      ⟨[(5, ⟨5, 0⟩), (167772161, ⟨167772161, 0⟩), (3232235777, ⟨3232235777, 0⟩)],
       ["robot", "pc.local"]⟩).1 (by decide)).2.2,
   (loop_resolves_all scenario_env
      ⟨[(5, ⟨5, 0⟩), (167772161, ⟨167772161, 0⟩), (3232235777, ⟨3232235777, 0⟩)],
       ["robot", "pc.local"]⟩).2 (fun _ => rfl)⟩

end Fawkes
